import Mathlib

/-! Verification of libpicobt: stream transfer, listener, connection and
inquiry-session logic.

A shallow embedding of the BlueZ (Linux) build of `src/btmain.c`.  Backend
primitives (`recv`, `send`, `socket`, `bind`, ...) are parameters: a backend is
a deterministic machine with a state of type `σ`, and every model function
threads that state and appends the backend calls it makes to a log.
-/

namespace Picobt

/-! ## Definitions -/

/-- Error values of `enum _bt_err_t` (bterror.h), in declaration order. -/
inductive bt_err_t
  | BT_SUCCESS
  | BT_ERR_UNKNOWN
  | BT_ERR_WTF
  | BT_ERR_BAD_PARAM
  | BT_ERR_UNSUPPORTED
  | BT_ERR_UNINITIALISED
  | BT_ERR_DEVICE_NOT_FOUND
  | BT_ERR_SERVICE_NOT_FOUND
  | BT_ERR_END_OF_ENUM
  | BT_ERR_SDP_BAD_RECORD
  | BT_ERR_FILE_NOT_FOUND
  | BT_ERR_ALLOCATING_SOCKET
  | BT_ERR_CONNECTION_FAILURE
  | BT_SOCKET_CLOSED
  | BT_ERR_TIMEOUT
  deriving DecidableEq, Repr

open bt_err_t

/-- The value `#define INVALID_SOCKET -1` of the Linux build. -/
def INVALID_SOCKET : Int := -1

/-- The errno value `ECONNRESET` on Linux. -/
def ECONNRESET : Int := 104

/-- Number of values of a `size_t` (LP64). -/
def SIZE_MOD : Nat := 18446744073709551616

/-- Outcome of one backend `recv` or `send` call: `n` is the value the call
leaves in the variable `int n`, `errno` the error number after the call, and
`data` the bytes a `recv` stored at the buffer pointer (empty for `send`). -/
structure io_result where
  n : Int
  errno : Int
  data : List Nat
  deriving DecidableEq, Repr

/-- One backend `recv`/`send` call as seen from outside: the descriptor, the
buffer pointer (an offset into the caller's memory), the length argument and
the value the call returned. -/
structure io_call where
  fd : Int
  off : Nat
  len : Nat
  ret : Int
  deriving DecidableEq, Repr

/-- Memory after a backend stored `data` at offset `p`. -/
def store (mem : List Nat) (p : Nat) (data : List Nat) : List Nat :=
  mem.take p ++ data ++ mem.drop (p + data.length)

/-- What `bt_recv`/`bt_send` leave behind: the returned error, the value of
`*numBytes`, the caller's memory, the backend state and the backend calls made. -/
structure recv_out (σ : Type) where
  err : bt_err_t
  numBytes : Nat
  mem : List Nat
  st : σ
  calls : List io_call

/-- Model of `bt_recv` (btmain.c): one `recv`, result classified.  `socket` and `buffer`
are `none` for NULL pointers; `numBytes` is the value behind the (non-NULL)
count pointer on entry. -/
def bt_recv {σ : Type} (recv : σ → Int → Nat → io_result × σ) (st : σ) (mem : List Nat)
    (socket : Option Int) (buffer : Option Nat) (numBytes : Nat) : recv_out σ :=
  let bytesToRead := numBytes
  match socket, buffer with
  | some s, some p =>
    let r := recv st s bytesToRead
    let n := r.1.n
    let mem1 := store mem p r.1.data
    let calls := [io_call.mk s p bytesToRead n]
    if n = 0 then
      ⟨BT_SOCKET_CLOSED, 0, mem1, r.2, calls⟩
    else if n < 0 then
      if r.1.errno = ECONNRESET then
        ⟨BT_SOCKET_CLOSED, 0, mem1, r.2, calls⟩
      else
        ⟨BT_ERR_UNKNOWN, 0, mem1, r.2, calls⟩
    else
      ⟨BT_SUCCESS, n.toNat, mem1, r.2, calls⟩
  | _, _ => ⟨BT_ERR_BAD_PARAM, numBytes, mem, st, []⟩

/-- Loop of `bt_read`: `remaining`, `received` and the advancing buffer pointer
are the C locals (size_t arithmetic wraps); `none` when the fuel runs out. -/
def bt_read_loop {σ : Type} (recv : σ → Int → Nat → io_result × σ) (s : Int) :
    Nat → Nat → Nat → Nat → List Nat → σ → List io_call → Option (recv_out σ)
  | 0, _, _, _, _, _, _ => none
  | fuel + 1, remaining, received, buffer, mem, st, calls =>
    if remaining > 0 then
      let r := bt_recv recv st mem (some s) (some buffer) remaining
      if r.err ≠ BT_SUCCESS then
        some ⟨r.err, received, r.mem, r.st, calls ++ r.calls⟩
      else
        bt_read_loop recv s fuel ((remaining + SIZE_MOD - r.numBytes) % SIZE_MOD)
          ((received + r.numBytes) % SIZE_MOD) (buffer + r.numBytes) r.mem r.st
          (calls ++ r.calls)
    else
      some ⟨BT_SUCCESS, received, mem, st, calls⟩

/-- Model of `bt_read` (btmain.c): loop `bt_recv` until `*numBytes` bytes have arrived. -/
def bt_read {σ : Type} (recv : σ → Int → Nat → io_result × σ) (fuel : Nat) (st : σ)
    (mem : List Nat) (socket : Option Int) (buffer : Option Nat) (numBytes : Nat) :
    Option (recv_out σ) :=
  match socket, buffer with
  | some s, some p => bt_read_loop recv s fuel numBytes 0 p mem st []
  | _, _ => some ⟨BT_ERR_BAD_PARAM, numBytes, mem, st, []⟩

/-- Model of `bt_send` (btmain.c): one `send`, result classified.  The backend is handed
the `bytesToSend` bytes found at the buffer pointer; the memory is not written. -/
def bt_send {σ : Type} (send : σ → Int → List Nat → Nat → io_result × σ) (st : σ)
    (mem : List Nat) (socket : Option Int) (buffer : Option Nat) (numBytes : Nat) : recv_out σ :=
  let bytesToSend := numBytes
  match socket, buffer with
  | some s, some p =>
    let r := send st s ((mem.drop p).take bytesToSend) bytesToSend
    let n := r.1.n
    let calls := [io_call.mk s p bytesToSend n]
    if n = 0 then
      ⟨BT_SOCKET_CLOSED, 0, mem, r.2, calls⟩
    else if n < 0 then
      if r.1.errno = ECONNRESET then
        ⟨BT_SOCKET_CLOSED, 0, mem, r.2, calls⟩
      else
        ⟨BT_ERR_UNKNOWN, 0, mem, r.2, calls⟩
    else
      ⟨BT_SUCCESS, n.toNat, mem, r.2, calls⟩
  | _, _ => ⟨BT_ERR_BAD_PARAM, numBytes, mem, st, []⟩

/-- Scripted `send` backend: plays the script whatever is offered. -/
def scripted_send (st : List io_result) (_s : Int) (_window : List Nat) (_len : Nat) :
    io_result × List io_result :=
  match st with
  | [] => (⟨0, 0, []⟩, [])
  | r :: rest => (r, rest)

/-- The backend, started in state `st` and asked first for `req` bytes and then
each time for what is still missing, delivers the chunks `chunks` one per call,
each of at least one byte and at most the length requested. -/
def Delivers {σ : Type} (recv : σ → Int → Nat → io_result × σ) (s : Int) :
    σ → Nat → List (List Nat) → Prop
  | _, _, [] => True
  | st, req, d :: ds =>
    (recv st s req).1.n = (d.length : Int) ∧ (recv st s req).1.data = d ∧
      1 ≤ d.length ∧ d.length ≤ req ∧ Delivers recv s (recv st s req).2 (req - d.length) ds

/-- Backend state after the deliveries described by `Delivers`. -/
def state_after {σ : Type} (recv : σ → Int → Nat → io_result × σ) (s : Int) :
    σ → Nat → List (List Nat) → σ
  | st, _, [] => st
  | st, req, d :: ds => state_after recv s (recv st s req).2 (req - d.length) ds

/-- The calls a full transfer of chunk sizes `cs` consists of, when every call
asks at the current pointer `off` for exactly the `rem` bytes still missing. -/
def expected_calls (s : Int) : Nat → Nat → List Nat → List io_call
  | _, _, [] => []
  | off, rem, c :: cs => io_call.mk s off rem c :: expected_calls s (off + c) (rem - c) cs

/-- A backend that plays a fixed script, one entry per call, whatever is asked
(as the mocks of tests/test_btmain.c do); once the script is over it reports a
closed socket. -/
def scripted (st : List io_result) (_s : Int) (_len : Nat) : io_result × List io_result :=
  match st with
  | [] => (⟨0, 0, []⟩, [])
  | r :: rest => (r, rest)

/-- A successful delivery of the bytes `d`. -/
def chunk (d : List Nat) : io_result := ⟨d.length, 0, d⟩

/-- The two deliveries of `test_bt_read`: "Pico " and "Authentication" with its
terminating zero byte. -/
def test_read_chunks : List (List Nat) :=
  [[80, 105, 99, 111, 32], [65, 117, 116, 104, 101, 110, 116, 105, 99, 97, 116, 105, 111, 110, 0]]

/-- The run of `test_bt_read_close_socket`: "Pico " arrives, then the peer closes. -/
def test_close_chunks : List (List Nat) := [[80, 105, 99, 111, 32]]

/-! ### Sockets, listener and connection -/

/-- A `bt_addr_t`: the six bytes `b[0..5]`. -/
abbrev bt_addr_t := List Nat

/-- A `bt_uuid_t`: the sixteen bytes `b[0..15]`. -/
abbrev bt_uuid_t := List Nat

/-- A BlueZ `uuid_t`: a type tag with a 16-bit, 32-bit or 128-bit value. -/
inductive uuid_t
  | uuid16 (v : Nat)
  | uuid32 (v : Nat)
  | uuid128 (bytes : List Nat)
  | other (type : Nat)
  deriving DecidableEq, Repr

/-- Model of `bt_addr_to_bdaddr` (btutil.c, Linux): `memcpy` of the six bytes. -/
def bt_addr_to_bdaddr (addr : bt_addr_t) : List Nat := addr

/-- Model of `bt_uuid_to_uuid` (btutil.c, Linux): type `SDP_UUID128`, bytes copied. -/
def bt_uuid_to_uuid (uuid : bt_uuid_t) : uuid_t := uuid_t.uuid128 uuid

/-- The two socket options `bt_set_timeout` sets. -/
inductive sockopt
  | SO_RCVTIMEO
  | SO_SNDTIMEO
  deriving DecidableEq, Repr

/-- What the code reads of a BlueZ `sdp_record_t`: the status
`sdp_get_access_protos` returns for it (0 when the access-protocol list could
be read) and the value `sdp_get_proto_port(proto_list, RFCOMM_UUID)` then
gives, which is the 8- or 16-bit port stored in the record, or 0 when the list
has no RFCOMM entry; the name and description `sdp_get_service_name` and
`sdp_get_service_desc` give (`none` when they fail); and the first class UUID
(`none` when `sdp_get_service_classes` fails). -/
structure sdp_record where
  get_access_protos : Int
  proto_port : Nat
  service_name : Option String := none
  service_desc : Option String := none
  service_classes : Option uuid_t := none
  deriving DecidableEq, Repr

/-- One result of a BlueZ device scan (`inquiry_info`): the fields the code
reads, the address bytes and the three class-of-device bytes. -/
structure inquiry_info where
  bdaddr : List Nat
  dev_class : List Nat
  deriving DecidableEq, Repr

/-- A backend call with its arguments, as logged by the model. -/
inductive sys_call
  | socket
  | setsockopt (fd : Int) (opt : sockopt) (tv_sec tv_usec : Int)
  | bind (fd : Int) (rc_channel : Nat)
  | select (nfds : Int) (fd : Int) (timeout : Option (Int × Int))
  | accept (fd : Int)
  | connect (fd : Int) (rc_bdaddr : List Nat) (rc_channel : Nat)
  | close (fd : Int)
  | sdp_connect (dst : List Nat)
  | sdp_service_search_attr_req (session : Nat) (uuid : uuid_t)
  | sdp_close (session : Nat)
  | hci_get_route
  | hci_open_dev (dev_id : Int)
  | hci_inquiry (dev_id : Int) (len : Int) (num_rsp : Int) (flags : Int)
  | hci_read_remote_name (sock : Int) (ba : List Nat) (len : Nat)
  deriving DecidableEq, Repr

/-- The backend primitives the connection and listener code calls, each a
function of the backend state giving the C return value and the next state.
`sdp_connect` gives `none` for a NULL session; `sdp_service_search_attr_req`
gives its return value and the response list it stored. -/
structure backend (σ : Type) where
  socket : σ → Int × σ
  setsockopt : σ → Int → sockopt → Int → Int → Int × σ
  bind : σ → Int → Nat → Int × σ
  select : σ → Int → Int → Option (Int × Int) → Int × σ
  accept : σ → Int → Int × σ
  connect : σ → Int → List Nat → Nat → Int × σ
  close : σ → Int → Int × σ
  sdp_connect : σ → List Nat → Option Nat × σ
  sdp_service_search_attr_req : σ → Nat → uuid_t → (Int × List sdp_record) × σ
  sdp_close : σ → Nat → Int × σ
  hci_get_route : σ → Int × σ
  hci_open_dev : σ → Int → Int × σ
  hci_inquiry : σ → Int → Int → Int → Int → (Int × List inquiry_info) × σ
  hci_read_remote_name : σ → Int → List Nat → Nat → (Int × String) × σ

/-- Backend state together with the log of the calls made so far. -/
structure world (σ : Type) where
  st : σ
  log : List sys_call
  deriving DecidableEq, Repr

/-- Model of `bt_set_timeout` (btmain.c, Linux): both timeouts set to `duration` seconds. -/
def bt_set_timeout {σ : Type} (B : backend σ) (w : world σ) (sock : Int) (duration : Int) :
    bt_err_t × world σ :=
  let result := BT_SUCCESS
  let r1 := B.setsockopt w.st sock sockopt.SO_RCVTIMEO duration 0
  let result := if r1.1 < 0 then BT_ERR_UNKNOWN else result
  let r2 := B.setsockopt r1.2 sock sockopt.SO_SNDTIMEO duration 0
  let result := if r2.1 < 0 then BT_ERR_UNKNOWN else result
  (result, ⟨r2.2, w.log ++ [sys_call.setsockopt sock sockopt.SO_RCVTIMEO duration 0,
    sys_call.setsockopt sock sockopt.SO_SNDTIMEO duration 0]⟩)

/-- Locals of `dynamic_bind_rc` during its loop. -/
structure bind_state (σ : Type) where
  check : Nat
  err : Int
  found : Nat
  w : world σ
  deriving DecidableEq, Repr

/-- The `for` loop of `dynamic_bind_rc`:
`for (check = 1; (check < 32) && (err != 0); check += 1)`, `check` a `uint8_t`;
`none` when the fuel runs out. -/
def dynamic_bind_loop {σ : Type} (B : backend σ) (sock : Int) :
    Nat → bind_state σ → Option (bind_state σ)
  | 0, _ => none
  | fuel + 1, b =>
    if b.check < 32 ∧ b.err ≠ 0 then
      let r := B.bind b.w.st sock b.check
      let found := if r.1 = 0 then b.check else b.found
      dynamic_bind_loop B sock fuel
        ⟨(b.check + 1) % 256, r.1, found, ⟨r.2, b.w.log ++ [sys_call.bind sock b.check]⟩⟩
    else
      some b

/-- Model of `dynamic_bind_rc` (btmain.c): returns `err`, the value behind `port` (`none`
for a NULL pointer) and the world after the probes.  The loop is given fuel for
the at most 31 probes the bound `check < 32` allows plus the final test. -/
def dynamic_bind_rc {σ : Type} (B : backend σ) (w : world σ) (sock : Int) (port : Option Nat) :
    Option (Int × Option Nat × world σ) :=
  match dynamic_bind_loop B sock 32 ⟨1, -1, 0, w⟩ with
  | none => none
  | some b =>
    let err := if b.check = 31 then -1 else b.err
    let port := if err = 0 then port.map (fun _ => b.found) else port
    some (err, port, b.w)

/-- Result of a call that fills in a `bt_socket_t`: the error and the
descriptor `s` the structure holds on return. -/
structure sock_out (σ : Type) where
  err : bt_err_t
  s : Int
  w : world σ
  deriving DecidableEq, Repr

/-- Model of `bt_bind` (btmain.c, Linux branch). -/
def bt_bind {σ : Type} (B : backend σ) (w : world σ) : Option (sock_out σ) :=
  let err := BT_SUCCESS
  let r := B.socket w.st
  let t := bt_set_timeout B ⟨r.2, w.log ++ [sys_call.socket]⟩ r.1 20
  match dynamic_bind_rc B t.2 r.1 none with
  | none => none
  | some (result, _, w2) =>
    let err := if result < 0 then BT_ERR_UNKNOWN else err
    some ⟨err, r.1, w2⟩

/-- Model of `bt_accept_with_timeout` (btmain.c).  `listener` is `listener->s`, `sock`
the value `sock->s` holds on entry, `timeout` is `none` for a NULL pointer. -/
def bt_accept_with_timeout {σ : Type} (B : backend σ) (w : world σ) (listener : Int) (sock : Int)
    (timeout : Option (Int × Int)) : sock_out σ :=
  let r := B.select w.st (listener + 1) listener timeout
  let w1 : world σ := ⟨r.2, w.log ++ [sys_call.select (listener + 1) listener timeout]⟩
  let err := if r.1 > 0 then BT_SUCCESS else if r.1 = 0 then BT_ERR_TIMEOUT else BT_ERR_UNKNOWN
  if err = BT_SUCCESS then
    let a := B.accept w1.st listener
    let w2 : world σ := ⟨a.2, w1.log ++ [sys_call.accept listener]⟩
    if a.1 < 0 ∨ a.1 = INVALID_SOCKET then
      ⟨BT_ERR_UNKNOWN, a.1, w2⟩
    else
      ⟨err, a.1, (bt_set_timeout B w2 a.1 20).2⟩
  else
    ⟨err, sock, w1⟩

/-- Model of `bt_connect_to_port` (btmain.c, Linux branch).  `sock` is the value the
output handle holds on entry; `port` is the `unsigned char` argument. -/
def bt_connect_to_port {σ : Type} (B : backend σ) (w : world σ) (address : bt_addr_t)
    (port : Nat) (_sock : Int) : sock_out σ :=
  let sock := INVALID_SOCKET
  let rc_bdaddr := bt_addr_to_bdaddr address
  let r := B.socket w.st
  let w1 : world σ := ⟨r.2, w.log ++ [sys_call.socket]⟩
  let s := r.1
  if s = INVALID_SOCKET then
    ⟨BT_ERR_ALLOCATING_SOCKET, sock, w1⟩
  else
    let c := B.connect w1.st s rc_bdaddr (port % 256)
    let w2 : world σ := ⟨c.2, w1.log ++ [sys_call.connect s rc_bdaddr (port % 256)]⟩
    if c.1 ≠ 0 then
      let x := B.close w2.st s
      ⟨BT_ERR_CONNECTION_FAILURE, sock, ⟨x.2, w2.log ++ [sys_call.close s]⟩⟩
    else
      ⟨BT_SUCCESS, s, w2⟩

/-- The `for` loop of `bt_find_service_channel` over the response list:
every record whose access-protocol list can be read overwrites `channel`. -/
def service_channel_loop : Int → List sdp_record → Int
  | channel, [] => channel
  | channel, r :: rs =>
    service_channel_loop (if r.get_access_protos = 0 then (r.proto_port : Int) else channel) rs

/-- Model of `bt_find_service_channel` (btmain.c): -2 when the SDP session cannot be
opened, else the channel the loop ends with (-1 initially). -/
def bt_find_service_channel {σ : Type} (B : backend σ) (w : world σ) (device : List Nat)
    (uuid : uuid_t) : Int × world σ :=
  let channel : Int := -1
  let c := B.sdp_connect w.st device
  let w1 : world σ := ⟨c.2, w.log ++ [sys_call.sdp_connect device]⟩
  match c.1 with
  | none => (-2, w1)
  | some session =>
    let r := B.sdp_service_search_attr_req w1.st session uuid
    let w2 : world σ := ⟨r.2, w1.log ++ [sys_call.sdp_service_search_attr_req session uuid]⟩
    let channel := service_channel_loop channel r.1.2
    let x := B.sdp_close w2.st session
    (channel, ⟨x.2, w2.log ++ [sys_call.sdp_close session]⟩)

/-- Model of `bt_connect_to_service` (btmain.c, Linux branch).  The `int` channel is
passed on as the `unsigned char port` of `bt_connect_to_port`. -/
def bt_connect_to_service {σ : Type} (B : backend σ) (w : world σ) (address : bt_addr_t)
    (service : bt_uuid_t) (sock : Int) : sock_out σ :=
  let bdaddr := bt_addr_to_bdaddr address
  let uuid := bt_uuid_to_uuid service
  let f := bt_find_service_channel B w bdaddr uuid
  let channel := f.1
  if channel = -2 then
    ⟨BT_ERR_DEVICE_NOT_FOUND, sock, f.2⟩
  else if channel = -1 then
    ⟨BT_ERR_SERVICE_NOT_FOUND, sock, f.2⟩
  else
    bt_connect_to_port B f.2 address (channel % 256).toNat sock

/-! ### Inquiry sessions -/

/-- Constant `BT_INQUIRY_DEVICES` of `enum bt_inquiry_type`. -/
def BT_INQUIRY_DEVICES : Int := 0

/-- Constant `BT_INQUIRY_SERVICES` of `enum bt_inquiry_type`. -/
def BT_INQUIRY_SERVICES : Int := 1

/-- Constant `DEVICE_NAME_BUFFER_SIZE` (bttypes.h). -/
def DEVICE_NAME_BUFFER_SIZE : Nat := 256

/-- Constant `MAX_INQUIRY_RESULTS` (btmain.c). -/
def MAX_INQUIRY_RESULTS : Int := 256

/-- The BlueZ flag `IREQ_CACHE_FLUSH` (hci.h). -/
def IREQ_CACHE_FLUSH : Int := 1

/-- A pointer to heap memory: NULL, pointing at a live block with contents `v`,
or still holding the address of a block that has been freed. -/
inductive heap_ptr (α : Type)
  | null
  | live (v : α)
  | freed
  deriving DecidableEq, Repr

/-- A `bt_device_t`. -/
structure bt_device_t where
  address : bt_addr_t
  name : String
  cod : Nat
  deriving DecidableEq, Repr

/-- A `bt_service_t` (the `record` pointer, which the inquiry code never
touches, is left out). -/
structure bt_service_t where
  name : String
  description : String
  uuid : bt_uuid_t
  port : Int
  deriving DecidableEq, Repr

/-- The `dev` member of the union in `bt_inquiry_t`; `current` is the index in
the `info` array that the pointer of that name addresses. -/
structure inquiry_dev where
  dev_id : Int
  socket : Int
  flags : Int
  count : Int
  info : heap_ptr (List inquiry_info)
  current : Nat
  deriving DecidableEq, Repr

/-- The `sdp` member of the union in `bt_inquiry_t`: the session (`none` for
NULL) and the rest of the response list. -/
structure inquiry_sdp where
  session : Option Nat
  response : List sdp_record
  deriving DecidableEq, Repr

/-- A `bt_inquiry_t` (Linux layout).  The two members of the C union are kept
side by side: the code reads a member only after checking that `type` names
it, and `type` is written only by the begin function that fills that member. -/
structure bt_inquiry_t where
  type : Int
  error : Int
  dev : inquiry_dev
  sdp : inquiry_sdp
  nameBuffer : heap_ptr String
  descBuffer : heap_ptr String
  deriving DecidableEq, Repr

/-- What a begin call leaves behind: the error, the session structure behind
the pointer (`none` for NULL) and the world. -/
structure inquiry_out (σ : Type) where
  err : bt_err_t
  inquiry : Option bt_inquiry_t
  w : world σ

/-- Model of `bt_inquiry_begin` (btmain.c, Linux branch). -/
def bt_inquiry_begin {σ : Type} (B : backend σ) (w : world σ) (inquiry : Option bt_inquiry_t)
    (cached : Int) : inquiry_out σ :=
  match inquiry with
  | none => ⟨BT_ERR_BAD_PARAM, none, w⟩
  | some q =>
    let q := { q with type := BT_INQUIRY_DEVICES, error := 0 }
    let g := B.hci_get_route w.st
    let w1 : world σ := ⟨g.2, w.log ++ [sys_call.hci_get_route]⟩
    let q := { q with dev := { q.dev with dev_id := g.1 } }
    if g.1 < 0 then
      ⟨BT_ERR_UNSUPPORTED, some q, w1⟩
    else
      let o := B.hci_open_dev w1.st g.1
      let w2 : world σ := ⟨o.2, w1.log ++ [sys_call.hci_open_dev g.1]⟩
      let flags : Int := if cached = 0 then IREQ_CACHE_FLUSH else 0
      let i := B.hci_inquiry w2.st g.1 8 MAX_INQUIRY_RESULTS flags
      let w3 : world σ :=
        ⟨i.2, w2.log ++ [sys_call.hci_inquiry g.1 8 MAX_INQUIRY_RESULTS flags]⟩
      let dev : inquiry_dev := ⟨g.1, o.1, flags, i.1.1, heap_ptr.live i.1.2, 0⟩
      if i.1.1 < 0 then
        let q := { q with dev := { dev with info := heap_ptr.freed } }
        if o.1 ≠ -1 then
          let x := B.close w3.st o.1
          ⟨BT_ERR_UNKNOWN, some q, ⟨x.2, w3.log ++ [sys_call.close o.1]⟩⟩
        else
          ⟨BT_ERR_UNKNOWN, some q, w3⟩
      else
        ⟨BT_SUCCESS, some { q with dev := dev, nameBuffer := heap_ptr.live "" }, w3⟩

/-- Model of `bt_services_begin` (btmain.c, Linux branch).  `str_to_uuid` stands for
`bt_str_to_uuid` (`none` when it fails and leaves its output untouched) and
`temp` for the indeterminate initial contents of the local of that name. -/
def bt_services_begin {σ : Type} (B : backend σ) (str_to_uuid : String → Option bt_uuid_t)
    (temp : bt_uuid_t) (w : world σ) (inquiry : Option bt_inquiry_t) (device : Option bt_addr_t)
    (service_class : Option bt_uuid_t) (_cached : Int) : inquiry_out σ :=
  match inquiry, device with
  | some q, some device =>
    let service_class : bt_uuid_t :=
      match service_class with
      | some u => u
      | none =>
        match str_to_uuid "00001002-0000-1000-8000-00805f9b34fb" with
        | some u => u
        | none => temp
    let q := { q with type := BT_INQUIRY_SERVICES, error := 0 }
    let addr := bt_addr_to_bdaddr device
    let uuid := bt_uuid_to_uuid service_class
    let c := B.sdp_connect w.st addr
    let w1 : world σ := ⟨c.2, w.log ++ [sys_call.sdp_connect addr]⟩
    match c.1 with
    | none => ⟨BT_ERR_DEVICE_NOT_FOUND, some { q with sdp := { q.sdp with session := none } }, w1⟩
    | some session =>
      let r := B.sdp_service_search_attr_req w1.st session uuid
      let w2 : world σ := ⟨r.2, w1.log ++ [sys_call.sdp_service_search_attr_req session uuid]⟩
      if r.1.1 < 0 then
        let x := B.sdp_close w2.st session
        ⟨BT_ERR_DEVICE_NOT_FOUND, some { q with sdp := { q.sdp with session := none } },
          ⟨x.2, w2.log ++ [sys_call.sdp_close session]⟩⟩
      else
        let q := { q with sdp := ⟨some session, r.1.2⟩ }
        let q := { q with nameBuffer := heap_ptr.live "", descBuffer := heap_ptr.live "" }
        ⟨BT_SUCCESS, some q, w2⟩
  | _, _ => ⟨BT_ERR_BAD_PARAM, inquiry, w⟩

/-- Model of `bt_uuidt_to_uuid` (btutil.c): `uuid` is the previous content of the output. -/
def bt_uuidt_to_uuid (uuidt : uuid_t) (_uuid : bt_uuid_t) : bt_uuid_t :=
  let base : List Nat := [0x00, 0x00, 0x10, 0x00, 0x80, 0x00, 0x00, 0x80, 0x5f, 0x9b, 0x34, 0xfb]
  match uuidt with
  | uuid_t.uuid128 bytes => bytes
  | uuid_t.uuid16 v =>
    [(v >>> 24) &&& 0xff, (v >>> 16) &&& 0xff, (v >>> 8) &&& 0xff, v &&& 0xff] ++ base
  | uuid_t.uuid32 v =>
    [(v >>> 24) &&& 0xff, (v >>> 16) &&& 0xff, (v >>> 8) &&& 0xff, v &&& 0xff] ++ base
  | uuid_t.other _ => [0, 0, 0, 0] ++ base

/-- What a next call leaves behind: the error, the session, the output record
(`none` for a NULL pointer) and the world. -/
structure next_out (σ : Type) (ρ : Type) where
  err : bt_err_t
  inquiry : Option bt_inquiry_t
  record : Option ρ
  w : world σ

/-- Model of `bt_inquiry_next` (btmain.c, Linux branch).  The result is `none` where the
C code would read through a pointer that is not live or past the array. -/
def bt_inquiry_next {σ : Type} (B : backend σ) (w : world σ) (inquiry : Option bt_inquiry_t)
    (device : Option bt_device_t) : Option (next_out σ bt_device_t) :=
  match inquiry, device with
  | some q, some d =>
    if q.type ≠ BT_INQUIRY_DEVICES then
      some ⟨BT_ERR_BAD_PARAM, some q, some d, w⟩
    else if q.dev.count = 0 then
      some ⟨BT_ERR_END_OF_ENUM, some q, some d, w⟩
    else
      match q.dev.info, q.nameBuffer with
      | heap_ptr.live arr, heap_ptr.live _ =>
        match arr.get? q.dev.current with
        | none => none
        | some info =>
          let r := B.hci_read_remote_name w.st q.dev.socket info.bdaddr DEVICE_NAME_BUFFER_SIZE
          let name := if r.1.1 < 0 then "<unavailable>" else r.1.2
          let cod := (info.dev_class.getD 0 0 <<< 16) ||| (info.dev_class.getD 1 0 <<< 8) |||
            info.dev_class.getD 2 0
          let w1 : world σ := ⟨r.2, w.log ++ [sys_call.hci_read_remote_name q.dev.socket
            info.bdaddr DEVICE_NAME_BUFFER_SIZE]⟩
          let q := { q with nameBuffer := heap_ptr.live name }
          let q := { q with
            dev := { q.dev with current := q.dev.current + 1, count := q.dev.count - 1 } }
          some ⟨BT_SUCCESS, some q, some ⟨info.bdaddr, name, cod⟩, w1⟩
      | _, _ => none
  | _, _ => some ⟨BT_ERR_BAD_PARAM, inquiry, device, w⟩

/-- Model of `bt_services_next` (btmain.c, Linux branch).  The result is `none` where
the C code would write through a name or description pointer that is not live. -/
def bt_services_next {σ : Type} (_B : backend σ) (w : world σ) (inquiry : Option bt_inquiry_t)
    (service : Option bt_service_t) : Option (next_out σ bt_service_t) :=
  match inquiry, service with
  | some q, some sv =>
    if q.type ≠ BT_INQUIRY_SERVICES then
      some ⟨BT_ERR_BAD_PARAM, some q, some sv, w⟩
    else if q.sdp.session = none then
      some ⟨BT_ERR_BAD_PARAM, some q, some sv, w⟩
    else
      match q.sdp.response with
      | [] => some ⟨BT_ERR_END_OF_ENUM, some q, some sv, w⟩
      | record :: next =>
        match q.nameBuffer, q.descBuffer with
        | heap_ptr.live _, heap_ptr.live _ =>
          let name := record.service_name.getD "<no name>"
          let desc := record.service_desc.getD "<no description>"
          let uuid := match record.service_classes with
            | some u => bt_uuidt_to_uuid u sv.uuid
            | none => sv.uuid
          let port : Int :=
            if record.get_access_protos = 0 then (record.proto_port : Int) else sv.port
          let q := { q with sdp := { q.sdp with response := next } }
          let q := { q with nameBuffer := heap_ptr.live name, descBuffer := heap_ptr.live desc }
          some ⟨BT_SUCCESS, some q, some ⟨name, desc, uuid, port⟩, w⟩
        | _, _ => none
  | _, _ => some ⟨BT_ERR_BAD_PARAM, inquiry, service, w⟩

/-- The backend of `test_bt_bind` with the accepted channel as a parameter:
`socket` yields 666, `bind` returns 0 on channel `t` and -1 on any other;
`select` reports one ready descriptor and `accept` yields 456. -/
def only_channel (t : Nat) : backend Unit where
  socket := fun _ => (666, ())
  setsockopt := fun _ _ _ _ _ => (0, ())
  bind := fun _ _ ch => (if ch = t then 0 else -1, ())
  select := fun _ _ _ _ => (1, ())
  accept := fun _ _ => (456, ())
  connect := fun _ _ _ _ => (0, ())
  close := fun _ _ => (0, ())
  sdp_connect := fun _ _ => (none, ())
  sdp_service_search_attr_req := fun _ _ _ => ((0, []), ())
  sdp_close := fun _ _ => (0, ())
  hci_get_route := fun _ => (-1, ())
  hci_open_dev := fun _ _ => (-1, ())
  hci_inquiry := fun _ _ _ _ _ => ((-1, []), ())
  hci_read_remote_name := fun _ _ _ _ => ((-1, ""), ())

/-- The calls `bt_bind` makes before it starts probing, on descriptor `fd`. -/
def bind_setup (fd : Int) : List sys_call :=
  [sys_call.socket, sys_call.setsockopt fd sockopt.SO_RCVTIMEO 20 0,
    sys_call.setsockopt fd sockopt.SO_SNDTIMEO 20 0]

/-- The probes of channels 1, 2, ..., n in increasing order. -/
def probes (fd : Int) (n : Nat) : List sys_call :=
  (List.range n).map fun i => sys_call.bind fd (i + 1)

/-- A device that answers the service search with the records `rs`: the SDP
session is number 342 as in `test_connect_to_service`, `socket` yields 666 and
`connect` succeeds. -/
def answering (rs : List sdp_record) : backend Unit where
  socket := fun _ => (666, ())
  setsockopt := fun _ _ _ _ _ => (0, ())
  bind := fun _ _ _ => (-1, ())
  select := fun _ _ _ _ => (0, ())
  accept := fun _ _ => (-1, ())
  connect := fun _ _ _ _ => (0, ())
  close := fun _ _ => (0, ())
  sdp_connect := fun _ _ => (some 342, ())
  sdp_service_search_attr_req := fun _ _ _ => ((0, rs), ())
  sdp_close := fun _ _ => (0, ())
  hci_get_route := fun _ => (-1, ())
  hci_open_dev := fun _ _ => (-1, ())
  hci_inquiry := fun _ _ _ _ _ => ((-1, []), ())
  hci_read_remote_name := fun _ _ _ _ => ((-1, ""), ())

/-- The address 64:bc:0c:f9:e8:6c of the connection tests, bytes `b[0..5]`. -/
def test_address : bt_addr_t := [108, 232, 249, 12, 188, 100]

/-- The service UUID ed995e5a-c7e7-4442-a6ee-7bb76df43b0d of the tests. -/
def test_service : bt_uuid_t :=
  [237, 153, 94, 90, 199, 231, 68, 66, 166, 238, 123, 183, 109, 244, 59, 13]

/-- A response of two records, the first on RFCOMM channel 3, the second on 5. -/
def two_records : List sdp_record :=
  [{ get_access_protos := 0, proto_port := 3 }, { get_access_protos := 0, proto_port := 5 }]

/-- A service record whose access-protocol list can be read but holds no RFCOMM entry:
`sdp_get_proto_port(proto_list, RFCOMM_UUID)` returns 0 for it. -/
def no_rfcomm_record : sdp_record := { get_access_protos := 0, proto_port := 0 }

/-- The last record of a response whose access-protocol list can be read. -/
def last_readable (rs : List sdp_record) : Option sdp_record :=
  (rs.filter fun r => r.get_access_protos = 0).getLast?

/-- What an end call leaves behind: the session structure and the world. -/
structure end_out (σ : Type) where
  inquiry : Option bt_inquiry_t
  w : world σ

/-- Model of `bt_inquiry_end` (btmain.c, Linux branch): the scan array and the name
buffer are freed and their pointers set to NULL, the socket is closed and set
to -1; `type`, `count` and `current` are left as they are. -/
def bt_inquiry_end {σ : Type} (B : backend σ) (w : world σ) (inquiry : Option bt_inquiry_t) :
    end_out σ :=
  match inquiry with
  | none => ⟨none, w⟩
  | some q =>
    if q.dev.dev_id < 0 then
      ⟨some q, w⟩
    else
      let q :=
        if q.dev.info ≠ heap_ptr.null then { q with dev := { q.dev with info := heap_ptr.null } }
        else q
      let q := if q.nameBuffer ≠ heap_ptr.null then { q with nameBuffer := heap_ptr.null } else q
      if q.dev.socket ≠ -1 then
        let x := B.close w.st q.dev.socket
        ⟨some { q with dev := { q.dev with socket := -1 } },
          ⟨x.2, w.log ++ [sys_call.close q.dev.socket]⟩⟩
      else
        ⟨some q, w⟩

/-- Model of `bt_services_end` (btmain.c, Linux branch): the SDP session is closed and
set to NULL, the name and description buffers are freed and set to NULL. -/
def bt_services_end {σ : Type} (B : backend σ) (w : world σ) (inquiry : Option bt_inquiry_t) :
    end_out σ :=
  match inquiry with
  | none => ⟨none, w⟩
  | some q =>
    let r : bt_inquiry_t × world σ :=
      match q.sdp.session with
      | some session =>
        let x := B.sdp_close w.st session
        ({ q with sdp := { q.sdp with session := none } },
          ⟨x.2, w.log ++ [sys_call.sdp_close session]⟩)
      | none => (q, w)
    let q := r.1
    let q := if q.nameBuffer ≠ heap_ptr.null then { q with nameBuffer := heap_ptr.null } else q
    let q := if q.descBuffer ≠ heap_ptr.null then { q with descBuffer := heap_ptr.null } else q
    ⟨some q, r.2⟩

/-- The state after `k` successive calls of a next operation, each call being
given the session, output record and world the previous one left; `none` when
one of the calls has no result in the model. -/
def next_iter {σ ρ : Type}
    (next : world σ → Option bt_inquiry_t → Option ρ → Option (next_out σ ρ)) :
    Nat → next_out σ ρ → Option (next_out σ ρ)
  | 0, s => some s
  | k + 1, s =>
    match next_iter next k s with
    | none => none
    | some s1 => next s1.w s1.inquiry s1.record

/-- Class-of-device value `bt_inquiry_next` computes from a scan result. -/
def class_of_device (info : inquiry_info) : Nat :=
  (info.dev_class.getD 0 0 <<< 16) ||| (info.dev_class.getD 1 0 <<< 8) |||
    info.dev_class.getD 2 0

/-- The backend of `test_bt_inquiry` with the scan results as a parameter: the
route is device 12, its socket 555, the scan reports `results`, names cannot
be read; an SDP session (number 342) opens and the search answers `rs`. -/
def scanning (results : List inquiry_info) (rs : List sdp_record) : backend Unit where
  socket := fun _ => (-1, ())
  setsockopt := fun _ _ _ _ _ => (0, ())
  bind := fun _ _ _ => (-1, ())
  select := fun _ _ _ _ => (0, ())
  accept := fun _ _ => (-1, ())
  connect := fun _ _ _ _ => (-1, ())
  close := fun _ _ => (0, ())
  sdp_connect := fun _ _ => (some 342, ())
  sdp_service_search_attr_req := fun _ _ _ => ((0, rs), ())
  sdp_close := fun _ _ => (0, ())
  hci_get_route := fun _ => (12, ())
  hci_open_dev := fun _ _ => (555, ())
  hci_inquiry := fun _ _ _ _ _ => ((results.length, results), ())
  hci_read_remote_name := fun _ _ _ _ => ((-1, ""), ())

/-- The two scan results of `test_bt_inquiry`. -/
def test_scan : List inquiry_info :=
  [⟨[0x13, 0x71, 0xda, 0x7d, 0x1a, 0x00], [0x04, 0x01, 0x0c]⟩,
    ⟨[0xa9, 0xaf, 0xbe, 0xae, 0xf8, 0xfc], [0x04, 0x01, 0x7e]⟩]

/-- A session structure before any begin call (all fields zero). -/
def blank_inquiry : bt_inquiry_t :=
  ⟨0, 0, ⟨0, 0, 0, 0, heap_ptr.null, 0⟩, ⟨none, []⟩, heap_ptr.null, heap_ptr.null⟩

/-- An output device record before any call. -/
def blank_device : bt_device_t := ⟨[0, 0, 0, 0, 0, 0], "", 0⟩

/-- An output service record before any call. -/
def blank_service : bt_service_t := ⟨"", "", [], 0⟩

/-- Begin, end, then one call of next on a device inquiry: the error returned
by that last call (`none` when the call has no result in the model). -/
def device_next_after_end {σ : Type} (B : backend σ) (st : σ) : Option bt_err_t :=
  let b := bt_inquiry_begin B ⟨st, []⟩ (some blank_inquiry) 0
  let e := bt_inquiry_end B b.w b.inquiry
  (bt_inquiry_next B e.w e.inquiry (some blank_device)).map fun o => o.err

/-- Begin, end, then one call of next on a service inquiry: the error returned
by that last call. -/
def service_next_after_end {σ : Type} (B : backend σ) (st : σ) : Option bt_err_t :=
  let b := bt_services_begin B (fun _ => none) [] ⟨st, []⟩ (some blank_inquiry)
    (some test_address) (some test_service) 0
  let e := bt_services_end B b.w b.inquiry
  (bt_services_next B e.w e.inquiry (some blank_service)).map fun o => o.err

/-- A device session whose cursor stands at result `k` of the scan `results`:
`k` results consumed, the others still counted, array and name buffer live. -/
def device_cursor (results : List inquiry_info) (k : Nat) (q : bt_inquiry_t) : Prop :=
  q.type = BT_INQUIRY_DEVICES ∧ q.dev.info = heap_ptr.live results ∧ q.dev.current = k ∧
    q.dev.count = (results.length : Int) - (k : Int) ∧ ∃ nm, q.nameBuffer = heap_ptr.live nm

/-- A service session with an open SDP session whose response list still holds
the records `rs`, name and description buffers live. -/
def service_cursor (rs : List sdp_record) (q : bt_inquiry_t) : Prop :=
  q.type = BT_INQUIRY_SERVICES ∧ q.sdp.session ≠ none ∧ q.sdp.response = rs ∧
    (∃ nm, q.nameBuffer = heap_ptr.live nm) ∧ ∃ ds, q.descBuffer = heap_ptr.live ds

/-- The session `bt_inquiry_begin` leaves on the backend `scanning test_scan`. -/
def test_device_session : bt_inquiry_t :=
  ⟨BT_INQUIRY_DEVICES, 0, ⟨12, 555, IREQ_CACHE_FLUSH, 2, heap_ptr.live test_scan, 0⟩,
    ⟨none, []⟩, heap_ptr.live "", heap_ptr.null⟩

/-- The session `bt_services_begin` leaves on a backend answering `two_records`. -/
def test_service_session : bt_inquiry_t :=
  ⟨BT_INQUIRY_SERVICES, 0, ⟨0, 0, 0, 0, heap_ptr.null, 0⟩, ⟨some 342, two_records⟩,
    heap_ptr.live "", heap_ptr.live ""⟩

/-! ### Text conversions (btutil.c)

The C library functions `sscanf` and `sprintf` are modelled for the
conversion specifications the formats of btutil.c use: `%02x` and `%02X`
(unsigned hexadecimal, with a field width of 2 when scanning and zero padding
to 2 digits when printing) and ordinary characters. -/

/-- One directive of a format string: a hexadecimal conversion with the digits
written between `%` and the conversion letter (`upper` for `X`), or an ordinary
character. -/
inductive fmt_item
  | hex (digits : List Char) (upper : Bool)
  | lit (c : Char)
  deriving DecidableEq, Repr

/-- Splits a format string into its directives.  After `%`, decimal digits are
collected up to the conversion letter `x` or `X`; a `%` not followed by such a
specification is kept as an ordinary character. -/
def parse_format_spec : List Char → List Char → Option (fmt_item × List Char)
  | [], _ => none
  | c :: cs, ds =>
    if c = 'x' then some (fmt_item.hex ds false, cs)
    else if c = 'X' then some (fmt_item.hex ds true, cs)
    else if c.isDigit then parse_format_spec cs (ds ++ [c])
    else none

/-- The directives of a format string, in order; the fuel bounds the length. -/
def parse_format : Nat → List Char → List fmt_item
  | 0, _ => []
  | _ + 1, [] => []
  | fuel + 1, c :: cs =>
    if c = '%' then
      match parse_format_spec cs [] with
      | some (item, rest) => item :: parse_format fuel rest
      | none => fmt_item.lit c :: parse_format fuel cs
    else fmt_item.lit c :: parse_format fuel cs

/-- Value of a string of decimal digits (0 for the empty string). -/
def decimal_value (ds : List Char) : Nat :=
  ds.foldl (fun acc c => acc * 10 + (c.toNat - 48)) 0

/-- Constant `BT_ADDRESS_FORMAT` (btutil.c). -/
def BT_ADDRESS_FORMAT : String := "%02x:%02x:%02x:%02x:%02x:%02x"

/-- Constant `BT_UUID_FORMAT` (btutil.c). -/
def BT_UUID_FORMAT : String :=
  "%02x%02x%02x%02x-%02x%02x-%02x%02x-%02x%02x-%02x%02x%02x%02x%02x%02x"

/-- The C library predicate `isspace` in the C locale. -/
def isspace (c : Char) : Bool :=
  c.toNat = 32 || (9 ≤ c.toNat && c.toNat ≤ 13)

/-- Value of a hexadecimal digit character, `none` for any other character. -/
def hex_value (c : Char) : Option Nat :=
  if 48 ≤ c.toNat ∧ c.toNat ≤ 57 then some (c.toNat - 48)
  else if 97 ≤ c.toNat ∧ c.toNat ≤ 102 then some (c.toNat - 87)
  else if 65 ≤ c.toNat ∧ c.toNat ≤ 70 then some (c.toNat - 55)
  else none

/-- Reads hexadecimal digits while the field width allows: the value so far,
the number of digits read and the unread input. -/
def scan_hex_digits : Nat → List Char → Nat → Nat → Nat × Nat × List Char
  | 0, input, acc, n => (acc, n, input)
  | _ + 1, [], acc, n => (acc, n, [])
  | width + 1, c :: cs, acc, n =>
    match hex_value c with
    | some v => scan_hex_digits width cs (acc * 16 + v) (n + 1)
    | none => (acc, n, c :: cs)

/-- Outcome of one conversion of `sscanf`. -/
inductive scan_step
  | assigned (value : Nat) (rest : List Char)
  | matching_failure
  | input_failure
  deriving DecidableEq, Repr

/-- The `x` conversion of `sscanf` with a maximum field `width` (ISO C
7.21.6.2): white space is skipped; then, within the width, an optional sign,
an optional `0x` or `0X`, and hexadecimal digits are read; without a digit the
conversion fails.  The value is stored in an `unsigned int`, a minus sign
negating it modulo 2^32. -/
def scan_hex (width : Nat) (input : List Char) : scan_step :=
  match input.dropWhile isspace with
  | [] => scan_step.input_failure
  | c :: cs =>
    let signed : Bool := (c = '+' || c = '-') && decide (1 ≤ width)
    let neg : Bool := signed && c = '-'
    let body := if signed then cs else c :: cs
    let width := if signed then width - 1 else width
    let has_0x : Bool :=
      match body with
      | a :: b :: _ => a = '0' && (b = 'x' || b = 'X') && decide (2 ≤ width)
      | _ => false
    let body := if has_0x then body.drop 2 else body
    let width := if has_0x then width - 2 else width
    let r := scan_hex_digits width body 0 0
    if r.2.1 = 0 then scan_step.matching_failure
    else
      let v := r.1 % 4294967296
      scan_step.assigned (if neg then (4294967296 - v) % 4294967296 else v) r.2.2

/-- The directives of `sscanf` executed in order: the number of values assigned
so far is returned at the first failure, or `EOF` (-1) when the input ends
before the first conversion has completed; the values assigned are listed. -/
def sscanf_items : List fmt_item → List Char → List Nat → Int × List Nat
  | [], _, xs => (xs.length, xs)
  | fmt_item.lit c :: items, input, xs =>
    match input with
    | [] => (if xs = [] then -1 else xs.length, xs)
    | d :: ds => if d = c then sscanf_items items ds xs else (xs.length, xs)
  | fmt_item.hex digits _ :: items, input, xs =>
    match scan_hex (decimal_value digits) input with
    | scan_step.assigned v rest => sscanf_items items rest (xs ++ [v])
    | scan_step.matching_failure => (xs.length, xs)
    | scan_step.input_failure => (if xs = [] then -1 else xs.length, xs)

/-- The C library call `sscanf(str, format, &x[0], &x[1], ...)` with `unsigned
int` targets: the return value and the values assigned, in order. -/
def sscanf (str : List Char) (format : String) : Int × List Nat :=
  sscanf_items (parse_format format.length format.toList) str []

/-- Digit characters of a hexadecimal rendering. -/
def hex_digit_char (upper : Bool) (d : Nat) : Char :=
  if d < 10 then Char.ofNat (48 + d)
  else if upper then Char.ofNat (55 + d) else Char.ofNat (87 + d)

/-- Hexadecimal digits of `n`, most significant first, at least one; the fuel
bounds the number of digits. -/
def hex_digits (upper : Bool) : Nat → Nat → List Char → List Char
  | 0, _, acc => acc
  | fuel + 1, n, acc =>
    if n < 16 then hex_digit_char upper n :: acc
    else hex_digits upper fuel (n / 16) (hex_digit_char upper (n % 16) :: acc)

/-- The `x`/`X` conversion of `sprintf` for an `unsigned int` argument: with
the digits `02` between `%` and the letter, flag `0` and width 2, that is
zero padding on the left up to two characters. -/
def print_hex (digits : List Char) (upper : Bool) (n : Nat) : List Char :=
  let body := hex_digits upper 8 (n % 4294967296) []
  match digits with
  | '0' :: ws => List.replicate (decimal_value ws - body.length) '0' ++ body
  | ws => List.replicate (decimal_value ws - body.length) ' ' ++ body

/-- The directives of `sprintf` executed in order over the arguments. -/
def sprintf_items : List fmt_item → List Nat → List Char
  | [], _ => []
  | fmt_item.lit c :: items, args => c :: sprintf_items items args
  | fmt_item.hex digits upper :: items, args =>
    match args with
    | [] => []
    | a :: rest => print_hex digits upper a ++ sprintf_items items rest

/-- The C library call `sprintf(str, format, args...)`: the characters written. -/
def sprintf (format : String) (args : List Nat) : List Char :=
  sprintf_items (parse_format format.length format.toList) args

/-- Model of `bt_addr_to_str` (btutil.c). -/
def bt_addr_to_str (addr : bt_addr_t) : List Char :=
  sprintf BT_ADDRESS_FORMAT
    [addr.getD 5 0, addr.getD 4 0, addr.getD 3 0, addr.getD 2 0, addr.getD 1 0, addr.getD 0 0]

/-- Model of `bt_str_to_addr` (btutil.c): the error and the address behind `addr`
on return (`addr` is its content on entry). -/
def bt_str_to_addr (str : List Char) (addr : bt_addr_t) : bt_err_t × bt_addr_t :=
  let r := sscanf str BT_ADDRESS_FORMAT
  if r.1 ≠ 6 then
    (BT_ERR_BAD_PARAM, addr)
  else
    let x := r.2
    (BT_SUCCESS, [x.getD 5 0 % 256, x.getD 4 0 % 256, x.getD 3 0 % 256, x.getD 2 0 % 256,
      x.getD 1 0 % 256, x.getD 0 0 % 256])

/-- Model of `bt_uuid_to_str` (btutil.c). -/
def bt_uuid_to_str (uuid : bt_uuid_t) : List Char :=
  sprintf BT_UUID_FORMAT ((List.range 16).map fun i => uuid.getD i 0)

/-- Model of `bt_str_to_uuid` (btutil.c): the error and the UUID behind `uuid` on
return (`uuid` is its content on entry). -/
def bt_str_to_uuid (str : List Char) (uuid : bt_uuid_t) : bt_err_t × bt_uuid_t :=
  let r := sscanf str BT_UUID_FORMAT
  if r.1 ≠ 16 then
    (BT_ERR_BAD_PARAM, uuid)
  else
    (BT_SUCCESS, (List.range 16).map fun i => r.2.getD i 0 % 256)

/-- The function `bt_services_begin` is given for `bt_str_to_uuid`: the parsed
UUID, or `none` when parsing fails and the output is left untouched. -/
def str_to_uuid_model (str : String) : Option bt_uuid_t :=
  match bt_str_to_uuid str.toList [] with
  | (BT_SUCCESS, u) => some u
  | _ => none

/-- The 17 characters `c0 c1 : c2 c3 : ... : c10 c11`. -/
def address_text (c : Fin 12 → Char) : List Char :=
  [c 0, c 1, ':', c 2, c 3, ':', c 4, c 5, ':', c 6, c 7, ':', c 8, c 9, ':', c 10, c 11]

/-- Lowercase hexadecimal digit characters. -/
def lower_hex : List Char :=
  ['a', 'b', 'c', 'd', 'e', 'f', '9', '8', '7', '6', '5', '4', '3', '2', '1', '0']

/-- The characters of "01:23:45:67:89:ab" without the colons. -/
def test_address_chars (i : Fin 12) : Char :=
  "0123456789ab".toList.getD i.val '0'

/-- Bytes of the public browse group UUID 00001002-0000-1000-8000-00805f9b34fb. -/
def public_browse_group : bt_uuid_t :=
  [0x00, 0x00, 0x10, 0x02, 0x00, 0x00, 0x10, 0x00, 0x80, 0x00, 0x00, 0x80, 0x5f, 0x9b, 0x34, 0xfb]

/-! ### SDP record decoder (btsdp.c)

The body of btsdp.c is compiled out in this revision (it sits between `#if 0` and
`#endif`); the definitions below follow the source text as written.  A buffer is the
list of bytes from the data pointer on, and a read past its end has no result. -/

/-- Constant `BT_SDP_DATA_ELEMENT_NIL` of `enum bt_sdp_data_element_type`. -/
def BT_SDP_DATA_ELEMENT_NIL : Nat := 0

/-- Constant `BT_SDP_DATA_ELEMENT_UINT` of `enum bt_sdp_data_element_type`. -/
def BT_SDP_DATA_ELEMENT_UINT : Nat := 1

/-- Constant `BT_SDP_DATA_ELEMENT_INT` of `enum bt_sdp_data_element_type`. -/
def BT_SDP_DATA_ELEMENT_INT : Nat := 2

/-- Constant `BT_SDP_DATA_ELEMENT_UUID` of `enum bt_sdp_data_element_type`. -/
def BT_SDP_DATA_ELEMENT_UUID : Nat := 3

/-- Constant `BT_SDP_DATA_ELEMENT_TEXT` of `enum bt_sdp_data_element_type`. -/
def BT_SDP_DATA_ELEMENT_TEXT : Nat := 4

/-- Constant `BT_SDP_DATA_ELEMENT_BOOL` of `enum bt_sdp_data_element_type`. -/
def BT_SDP_DATA_ELEMENT_BOOL : Nat := 5

/-- Constant `BT_SDP_DATA_ELEMENT_SEQ` of `enum bt_sdp_data_element_type`. -/
def BT_SDP_DATA_ELEMENT_SEQ : Nat := 6

/-- Constant `BT_SDP_DATA_ELEMENT_ALT` of `enum bt_sdp_data_element_type`. -/
def BT_SDP_DATA_ELEMENT_ALT : Nat := 7

/-- Constant `BT_SDP_DATA_ELEMENT_URL` of `enum bt_sdp_data_element_type`. -/
def BT_SDP_DATA_ELEMENT_URL : Nat := 8

/-- Number of values of a `uint32_t`. -/
def UINT32_MOD : Nat := 4294967296

/-- A `bt_sdp_element_t` (bttypes.h): `type`, `sizeDesc`, `size`, `recordSize`
and the `value` union, whose members are kept side by side: `bytes` is the
union read as 16 raw bytes (integers, UUIDs, the boolean), `text` the heap copy
behind `value.text` (`none` for NULL), `seq` the chain behind `value.seq`, one
entry per `bt_sdp_sequence_t` node, in order. -/
inductive bt_sdp_element_t
  | mk (type sizeDesc size recordSize : Nat) (bytes : List Nat) (text : Option (List Nat))
      (seq : List bt_sdp_element_t)

/-- Field `type` of an element. -/
def bt_sdp_element_t.type : bt_sdp_element_t → Nat
  | mk t _ _ _ _ _ _ => t

/-- Field `sizeDesc` of an element. -/
def bt_sdp_element_t.sizeDesc : bt_sdp_element_t → Nat
  | mk _ s _ _ _ _ _ => s

/-- Field `size` of an element. -/
def bt_sdp_element_t.size : bt_sdp_element_t → Nat
  | mk _ _ s _ _ _ _ => s

/-- Field `recordSize` of an element. -/
def bt_sdp_element_t.recordSize : bt_sdp_element_t → Nat
  | mk _ _ _ r _ _ _ => r

/-- The `value` union of an element read as raw bytes. -/
def bt_sdp_element_t.bytes : bt_sdp_element_t → List Nat
  | mk _ _ _ _ b _ _ => b

/-- Member `value.text` of an element. -/
def bt_sdp_element_t.text : bt_sdp_element_t → Option (List Nat)
  | mk _ _ _ _ _ t _ => t

/-- The chain behind `value.seq` of an element. -/
def bt_sdp_element_t.seq : bt_sdp_element_t → List bt_sdp_element_t
  | mk _ _ _ _ _ _ s => s

/-- The `value` union after `memset`: sixteen zero bytes. -/
def zero_value : List Nat := List.replicate 16 0

/-- The statement `memcpy(b, data, n)` into the union: `none` when `data` has
fewer than `n` bytes. -/
def memcpy_value (b : List Nat) (data : List Nat) (n : Nat) : Option (List Nat) :=
  if n ≤ data.length then some (data.take n ++ b.drop n) else none

/-- The endian swap of `bt_sdp_read_data_element`:
`for (i = 0; i < (size >> 1); i++)` exchanging `b[i]` and `b[size - i - 1]`. -/
def endian_swap (size : Nat) (b : List Nat) : List Nat :=
  (List.range (size >>> 1)).foldl
    (fun b i => (b.set i (b.getD (size - i - 1) 0)).set (size - i - 1) (b.getD i 0)) b

/-- The header of an element with size descriptor `sizeDesc`, read at `data`
(the bytes after the first): `size`, `recordSize` before the payload length is
added, and the advanced data pointer; `none` when the length field is not
within `data`. -/
def read_size (sizeDesc : Nat) (data : List Nat) : Option (Nat × Nat × List Nat) :=
  if sizeDesc < 5 then
    some (1 <<< sizeDesc, 1, data)
  else if sizeDesc = 5 then
    match data with
    | d0 :: rest => some (d0, 2, rest)
    | _ => none
  else if sizeDesc = 6 then
    match data with
    | d0 :: d1 :: rest => some ((d0 <<< 8) ||| d1, 3, rest)
    | _ => none
  else if sizeDesc = 7 then
    match data with
    | d0 :: d1 :: d2 :: d3 :: rest =>
      some ((d0 <<< 24) ||| (d1 <<< 16) ||| (d2 <<< 8) ||| d3, 5, rest)
    | _ => none
  else
    some (0, 0, data)

mutual

/-- Model of `bt_sdp_read_data_element` (btsdp.c): the error returned and the element
behind `e` on return.  `data` holds the bytes from the data pointer on; the
result is `none` when the fuel runs out or the code reads past the end of
`data`. -/
def bt_sdp_read_data_element : Nat → List Nat → Option (bt_err_t × bt_sdp_element_t)
  | 0, _ => none
  | _ + 1, [] => none
  | fuel + 1, d0 :: data =>
    let type := (d0 >>> 3) % 256
    let sizeDesc := d0 &&& 7
    let header : Option (Nat × Nat × List Nat) :=
      if type ≠ BT_SDP_DATA_ELEMENT_NIL then
        match read_size sizeDesc data with
        | some (size, recordSize, data) => some (size, (recordSize + size) % UINT32_MOD, data)
        | none => none
      else
        some (0, 1, data)
    match header with
    | none => none
    | some (size, recordSize, data) =>
      let e : bt_sdp_element_t := ⟨type, sizeDesc, size, recordSize, zero_value, none, []⟩
      if type = BT_SDP_DATA_ELEMENT_NIL then
        if sizeDesc ≠ 0 then some (BT_ERR_SDP_BAD_RECORD, e)
        else some (BT_SUCCESS, e)
      else if type = BT_SDP_DATA_ELEMENT_UINT ∨ type = BT_SDP_DATA_ELEMENT_INT then
        if sizeDesc > 4 then some (BT_ERR_SDP_BAD_RECORD, e)
        else
          match memcpy_value zero_value data size with
          | none => none
          | some b =>
            let b := if size > 1 then endian_swap size b else b
            some (BT_SUCCESS, ⟨type, sizeDesc, size, recordSize, b, none, []⟩)
      else if type = BT_SDP_DATA_ELEMENT_UUID then
        if sizeDesc ≠ 1 ∧ sizeDesc ≠ 2 ∧ sizeDesc ≠ 4 then some (BT_ERR_SDP_BAD_RECORD, e)
        else
          match memcpy_value zero_value data size with
          | none => none
          | some b => some (BT_SUCCESS, ⟨type, sizeDesc, size, recordSize, b, none, []⟩)
      else if type = BT_SDP_DATA_ELEMENT_TEXT ∨ type = BT_SDP_DATA_ELEMENT_URL then
        if sizeDesc < 5 then some (BT_ERR_SDP_BAD_RECORD, e)
        else if size > 0 then
          if size ≤ data.length then
            some (BT_SUCCESS, ⟨type, sizeDesc, size, recordSize, zero_value,
              some (data.take size), []⟩)
          else none
        else some (BT_SUCCESS, e)
      else if type = BT_SDP_DATA_ELEMENT_BOOL then
        if sizeDesc ≠ 0 then some (BT_ERR_SDP_BAD_RECORD, e)
        else
          match data with
          | [] => none
          | d :: _ =>
            some (BT_SUCCESS, ⟨type, sizeDesc, size, recordSize, zero_value.set 0 d, none, []⟩)
      else if type = BT_SDP_DATA_ELEMENT_SEQ ∨ type = BT_SDP_DATA_ELEMENT_ALT then
        match bt_sdp_read_sequence fuel data 0 size with
        | none => none
        | some (result, seq) =>
          some (result, ⟨type, sizeDesc, size, recordSize, zero_value, none, seq⟩)
      else
        some (BT_ERR_SDP_BAD_RECORD, e)

/-- The `do ... while (1)` loop of the sequence case: `i` is the running sum of
the children's `recordSize` (a `uint32_t`), `size` the declared payload
length; the chain built so far is returned with the result. -/
def bt_sdp_read_sequence : Nat → List Nat → Nat → Nat →
    Option (bt_err_t × List bt_sdp_element_t)
  | 0, _, _, _ => none
  | fuel + 1, data, i, size =>
    match bt_sdp_read_data_element fuel data with
    | none => none
    | some (result, head) =>
      if result ≠ BT_SUCCESS then some (result, [head])
      else
        let data := data.drop head.recordSize
        let i := (i + head.recordSize) % UINT32_MOD
        if i ≥ size then some (BT_SUCCESS, [head])
        else
          match bt_sdp_read_sequence fuel data i size with
          | none => none
          | some (result, tail) => some (result, head :: tail)

end

/-- Model of `bt_sdp_parse_record` (btsdp.c): `data` is `none` for NULL, else the
bytes from the pointer on; `out` is `none` for NULL.  The result is the error
and the root element behind `out` (`none` when it was not written). -/
def bt_sdp_parse_record (fuel : Nat) (data : Option (List Nat)) (length : Int) (out : Option Unit) :
    Option (bt_err_t × Option bt_sdp_element_t) :=
  match data, out with
  | some bytes, some _ =>
    if length ≤ 0 then some (BT_ERR_BAD_PARAM, none)
    else
      match bt_sdp_read_data_element fuel bytes with
      | none => none
      | some (result, root) => some (result, some root)
  | _, _ => some (BT_ERR_BAD_PARAM, none)

/-- The `recordSize` fields of a chain of elements. -/
def record_sizes (es : List bt_sdp_element_t) : List Nat :=
  es.map fun e => e.recordSize

/-- The big-endian number written by a list of bytes. -/
def big_endian (bytes : List Nat) : Nat :=
  bytes.foldl (fun acc b => acc * 256 + b) 0

/-- The number a little-endian host reads from a list of bytes. -/
def little_endian (bytes : List Nat) : Nat :=
  bytes.foldr (fun b acc => b + 256 * acc) 0

/-- Number of bytes of the explicit length field a size descriptor announces. -/
def length_field_bytes (sizeDesc : Nat) : Nat :=
  if sizeDesc = 5 then 1 else if sizeDesc = 6 then 2 else if sizeDesc = 7 then 4 else 0

/-- The element a UINT8 with payload byte `x` decodes to. -/
def test_uint8 (x : Nat) : bt_sdp_element_t :=
  ⟨BT_SDP_DATA_ELEMENT_UINT, 0, 1, 2, x :: List.replicate 15 0, none, []⟩

/-- The element the bytes 35 04 08 ab 08 cd decode to. -/
def test_sequence : bt_sdp_element_t :=
  ⟨BT_SDP_DATA_ELEMENT_SEQ, 5, 4, 6, zero_value, none, [test_uint8 0xab, test_uint8 0xcd]⟩

/-- Constant `BT_ADDRESS_FORMAT_COMPACT` (btutil.c). -/
def BT_ADDRESS_FORMAT_COMPACT : String := "%02X%02X%02X%02X%02X%02X"

/-- The loop of `bt_addr_equals` from index `i` on, with `n` indices left. -/
def bt_addr_equals_from (a1 a2 : bt_addr_t) : Nat → Nat → Bool
  | 0, _ => true
  | n + 1, i => if a1.getD i 0 ≠ a2.getD i 0 then false else bt_addr_equals_from a1 a2 n (i + 1)

/-- Model of `bt_addr_equals` (btutil.c): `for (i = 0; i < 6; i++)` returning `false` at
the first index where the bytes differ. -/
def bt_addr_equals (a1 a2 : bt_addr_t) : Bool :=
  bt_addr_equals_from a1 a2 6 0

/-- Model of `bt_addr_to_str_compact` (btutil.c). -/
def bt_addr_to_str_compact (addr : bt_addr_t) : List Char :=
  sprintf BT_ADDRESS_FORMAT_COMPACT
    [addr.getD 5 0, addr.getD 4 0, addr.getD 3 0, addr.getD 2 0, addr.getD 1 0, addr.getD 0 0]

/-- Model of `bt_str_compact_to_addr` (btutil.c): the error and the address behind
`addr` on return (`addr` is its content on entry). -/
def bt_str_compact_to_addr (str : List Char) (addr : bt_addr_t) : bt_err_t × bt_addr_t :=
  let r := sscanf str BT_ADDRESS_FORMAT_COMPACT
  if r.1 ≠ 6 then
    (BT_ERR_BAD_PARAM, addr)
  else
    let x := r.2
    (BT_SUCCESS, [x.getD 5 0 % 256, x.getD 4 0 % 256, x.getD 3 0 % 256, x.getD 2 0 % 256,
      x.getD 1 0 % 256, x.getD 0 0 % 256])

/-- The two hexadecimal digits of a byte, most significant first, taken from the digit
string `digits` ("0123456789abcdef" or its uppercase form). -/
def hex_pair (digits : String) (n : Nat) : List Char :=
  [digits.toList.getD (n / 16) '0', digits.toList.getD (n % 16) '0']

/-- Uppercase hexadecimal digit characters. -/
def upper_hex : List Char :=
  ['A', 'B', 'C', 'D', 'E', 'F', '9', '8', '7', '6', '5', '4', '3', '2', '1', '0']

/-- The 12 characters `c0 c1 ... c11`. -/
def compact_text (c : Fin 12 → Char) : List Char :=
  [c 0, c 1, c 2, c 3, c 4, c 5, c 6, c 7, c 8, c 9, c 10, c 11]

/-- The 36 characters of a UUID text in the 8-4-4-4-12 grouping with hexadecimal
digits `c0 ... c31`. -/
def uuid_text (c : Fin 32 → Char) : List Char :=
  [c 0, c 1, c 2, c 3, c 4, c 5, c 6, c 7, '-', c 8, c 9, c 10, c 11, '-',
    c 12, c 13, c 14, c 15, '-', c 16, c 17, c 18, c 19, '-',
    c 20, c 21, c 22, c 23, c 24, c 25, c 26, c 27, c 28, c 29, c 30, c 31]

/-- The sixteen bytes written by the hexadecimal pairs `c0 c1`, `c2 c3`, ... in reading
order. -/
def uuid_bytes (c : Fin 32 → Char) : bt_uuid_t :=
  (List.range 16).map fun i =>
    16 * (hex_value (c (Fin.ofNat (2 * i)))).getD 0 +
      (hex_value (c (Fin.ofNat (2 * i + 1)))).getD 0

/-- The characters of "0123456789AB", a string of the compact address tests. -/
def test_compact_chars (i : Fin 12) : Char :=
  "0123456789AB".toList.getD i.val '0'

/-- The hexadecimal digits of "01234567-89ab-cdef-1032-547698badcfe", a string of the
UUID tests. -/
def test_uuid_chars (i : Fin 32) : Char :=
  "0123456789abcdef1032547698badcfe".toList.getD i.val '0'

/-- Model of `bt_disconnect` (btmain.c, Linux branch): `socket` is `none` for a NULL
pointer, else the value of `socket->s`; the result is the value `socket->s` holds on
return. -/
def bt_disconnect {σ : Type} (B : backend σ) (w : world σ) (socket : Option Int) :
    Option Int × world σ :=
  match socket with
  | none => (none, w)
  | some s =>
    if s = INVALID_SOCKET then (some s, w)
    else
      let x := B.close w.st s
      (some INVALID_SOCKET, ⟨x.2, w.log ++ [sys_call.close s]⟩)

/-- A backend on which no device answers: `sdp_connect` yields no session; the other
calls behave as in `answering`. -/
def no_device : backend Unit :=
  { answering [] with sdp_connect := fun _ _ => (none, ()) }

/-! ### Device lists (devicelist.c) -/

/-- Constant `BT_ADDRESS_LENGTH` (btmain.h). -/
def BT_ADDRESS_LENGTH : Nat := 18

/-- Number of values of an `int` counter; `INT_WRAP n` is `n` reduced to the range of
`int`. -/
def INT_WRAP (n : Int) : Int := (n + 2147483648) % 4294967296 - 2147483648

/-- The memory reachable from a `bt_device_list_t*`: a chain of nodes, each with its
`address` field; `last` is the node whose `next` is NULL (the end marker that
`bt_list_new` creates, whose `address` is never assigned). -/
inductive bt_device_list_t
  | last (address : bt_addr_t)
  | node (next : bt_device_list_t) (address : bt_addr_t)
  deriving DecidableEq, Repr

/-- A `bt_iterator_t`.  A pointer into the chain is the number of `next` links that
lead to its node from the head of the list (`none` for NULL); the nodes of a list
never move, so a pointer keeps designating its node while the list grows. -/
structure bt_iterator_t where
  list : Option Nat
  item : Option Nat
  deriving DecidableEq, Repr

/-- The node a pointer designates in the chain `l`: `none` when the chain is shorter. -/
def node_at : bt_device_list_t → Nat → Option bt_device_list_t
  | l, 0 => some l
  | bt_device_list_t.node next _, k + 1 => node_at next k
  | bt_device_list_t.last _, _ + 1 => none

/-- Model of `bt_list_new` (devicelist.c): one node with `next = NULL`; `fresh` is the
content `malloc` left in its `address` field. -/
def bt_list_new (fresh : bt_addr_t) : bt_device_list_t :=
  bt_device_list_t.last fresh

/-- The walk of `bt_list_add_device` from the node `list` points to: it returns at a
node with the same address, and at the node with `next == NULL` it links a new end
node (its `address` holding `fresh`) and stores the address. -/
def add_walk (fresh : bt_addr_t) (address : bt_addr_t) : bt_device_list_t → bt_device_list_t
  | bt_device_list_t.node next a =>
    if bt_addr_equals a address then bt_device_list_t.node next a
    else bt_device_list_t.node (add_walk fresh address next) a
  | bt_device_list_t.last _ => bt_device_list_t.node (bt_device_list_t.last fresh) address

/-- Model of `bt_list_add_device` (devicelist.c): the chain behind `list` on return;
`none` stands for a NULL pointer. -/
def bt_list_add_device (fresh : bt_addr_t) (list : Option bt_device_list_t)
    (address : Option bt_addr_t) : Option bt_device_list_t :=
  match list, address with
  | some l, some a => some (add_walk fresh a l)
  | _, _ => list

/-- Model of `bt_list_is_empty` (devicelist.c). -/
def bt_list_is_empty (list : bt_device_list_t) : Bool :=
  match list with
  | bt_device_list_t.last _ => true
  | bt_device_list_t.node _ _ => false

/-- Model of `bt_iterate_list` (devicelist.c): the iterator on return. -/
def bt_iterate_list (iterator : Option bt_iterator_t) (list : Option Nat) :
    Option bt_iterator_t :=
  match iterator with
  | none => none
  | some _ => some ⟨list, list⟩

/-- Model of `bt_iterate_rewind` (devicelist.c): the iterator on return. -/
def bt_iterate_rewind (iterator : Option bt_iterator_t) : Option bt_iterator_t :=
  match iterator with
  | none => none
  | some it => some ⟨it.list, it.list⟩

/-- What `bt_get_next_device` leaves behind: the error, the iterator and the address
behind the output pointer. -/
structure next_device_out where
  err : bt_err_t
  iterator : Option bt_iterator_t
  address : Option bt_addr_t
  deriving DecidableEq, Repr

/-- Model of `bt_get_next_device` (devicelist.c) on the chain `heap`; the result is `none`
when `iterator->item` does not point into the chain. -/
def bt_get_next_device (heap : bt_device_list_t) (iterator : Option bt_iterator_t)
    (address : Option bt_addr_t) : Option next_device_out :=
  match iterator, address with
  | some it, some _ =>
    match it.item with
    | none => some ⟨BT_ERR_BAD_PARAM, iterator, address⟩
    | some k =>
      match node_at heap k with
      | none => none
      | some (bt_device_list_t.last _) => some ⟨BT_ERR_END_OF_ENUM, iterator, address⟩
      | some (bt_device_list_t.node _ a) => some ⟨BT_SUCCESS, some ⟨it.list, some (k + 1)⟩, some a⟩
  | _, _ => some ⟨BT_ERR_BAD_PARAM, iterator, address⟩

/-- The `while (e == BT_SUCCESS)` loop of `bt_get_list_size`. -/
def list_size_loop (heap : bt_device_list_t) :
    Nat → Option bt_iterator_t → Option bt_addr_t → bt_err_t → Int → Option Int
  | 0, _, _, _, _ => none
  | fuel + 1, iterator, address, e, list_size =>
    if e = BT_SUCCESS then
      match bt_get_next_device heap iterator address with
      | none => none
      | some r => list_size_loop heap fuel r.iterator r.address r.err (INT_WRAP (list_size + 1))
    else some list_size

/-- Model of `bt_get_list_size` (devicelist.c); `address` is the content of the local
variable on entry. -/
def bt_get_list_size (heap : bt_device_list_t) (fuel : Nat) (list : Option Nat)
    (address : bt_addr_t) : Option Int :=
  let iterator := bt_iterate_list (some ⟨none, none⟩) list
  match bt_get_next_device heap iterator (some address) with
  | none => none
  | some r => list_size_loop heap fuel r.iterator r.address r.err 0

/-- The addresses stored in a chain, in order, the end node left out. -/
def contents : bt_device_list_t → List bt_addr_t
  | bt_device_list_t.last _ => []
  | bt_device_list_t.node next a => a :: contents next

/-- The results of `k` successive calls of `bt_get_next_device`: each call's error and
the address behind the output pointer after it. -/
def next_calls (heap : bt_device_list_t) :
    Nat → Option bt_iterator_t → Option bt_addr_t → Option (List (bt_err_t × Option bt_addr_t))
  | 0, _, _ => some []
  | k + 1, iterator, address =>
    match bt_get_next_device heap iterator address with
    | none => none
    | some r =>
      match next_calls heap k r.iterator r.address with
      | none => none
      | some rs => some ((r.err, r.address) :: rs)

/-- The distinct elements of a list, each at the place of its first occurrence. -/
def distinct_in_order : List bt_addr_t → List bt_addr_t
  | [] => []
  | a :: as => a :: (distinct_in_order as).filter (fun b => b ≠ a)

/-- The null character that ends a C string. -/
def NUL : Char := Char.ofNat 0

/-- The characters one call of `fgets` takes from the stream when it may store at most
`n` of them: up to and including the first new-line, and what is left of the stream. -/
def fgets_read : Nat → List Char → List Char × List Char
  | 0, input => ([], input)
  | _ + 1, [] => ([], [])
  | n + 1, c :: cs =>
    if c = '\n' then ([c], cs)
    else
      let r := fgets_read n cs
      (c :: r.1, r.2)

/-- The C library call `fgets(line, size, f)` on a stream whose unread content is
`input`: `none` (a NULL return, `line` untouched) at end of file, else the buffer with
the characters read and a terminating null stored at its start, and the unread rest. -/
def fgets (line : List Char) (size : Nat) (input : List Char) :
    Option (List Char × List Char) :=
  let r := fgets_read (size - 1) input
  if r.1 = [] then none
  else some (r.1 ++ NUL :: line.drop (r.1.length + 1), r.2)

/-- The C string held in a character buffer: the characters before the first null. -/
def c_string (buf : List Char) : List Char :=
  buf.takeWhile (fun c => c ≠ NUL)

/-- The `while (fgets(line, sizeof(line), f))` loop of `bt_list_load`: `line` and
`address` are the local variables, `input` the unread file content, `list` the chain
behind the list pointer. -/
def bt_list_load_loop (fresh : bt_addr_t) :
    Nat → List Char → List Char → bt_addr_t → bt_device_list_t → Option bt_device_list_t
  | 0, _, _, _, _ => none
  | fuel + 1, line, input, address, list =>
    match fgets line 100 input with
    | none => some list
    | some (line, input) =>
      if line.getD (BT_ADDRESS_LENGTH - 1) NUL ≠ '\n' then
        bt_list_load_loop fresh fuel line input address list
      else
        let line := line.set (BT_ADDRESS_LENGTH - 1) NUL
        let r := bt_str_to_addr (c_string line) address
        if r.1 = BT_SUCCESS then
          bt_list_load_loop fresh fuel line input r.2
            ((bt_list_add_device fresh (some list) (some r.2)).getD list)
        else
          bt_list_load_loop fresh fuel line input r.2 list

/-- Model of `bt_list_load` (devicelist.c): the error and the chain behind `list` on
return.  `fopen` gives the content of the named file, `none` when it cannot be opened;
`line` and `address` are the contents of the uninitialised local variables; `fresh`
is what `malloc` leaves in the `address` field of a new node. -/
def bt_list_load (fresh : bt_addr_t) (fuel : Nat) (list : Option bt_device_list_t)
    (filename : Option String) (fopen : String → Option (List Char)) (line : List Char)
    (address : bt_addr_t) : Option (bt_err_t × Option bt_device_list_t) :=
  match list, filename with
  | some l, some name =>
    match fopen name with
    | none =>
      let cut :=
        match l with
        | bt_device_list_t.node _ a => bt_device_list_t.last a
        | bt_device_list_t.last a => bt_device_list_t.last a
      some (BT_ERR_FILE_NOT_FOUND, some cut)
    | some content =>
      match bt_list_load_loop fresh fuel line content address l with
      | none => none
      | some l => some (BT_SUCCESS, some l)
  | _, _ => some (BT_ERR_BAD_PARAM, list)

/-- The `while (BT_SUCCESS == bt_get_next_device(&iterator, &address))` loop of
`bt_list_save`; `out` is what has been written to the file. -/
def bt_list_save_loop (heap : bt_device_list_t) :
    Nat → Option bt_iterator_t → Option bt_addr_t → List Char → Option (List Char)
  | 0, _, _, _ => none
  | fuel + 1, iterator, address, out =>
    match bt_get_next_device heap iterator address with
    | none => none
    | some r =>
      if r.err = BT_SUCCESS then
        bt_list_save_loop heap fuel r.iterator r.address
          (out ++ bt_addr_to_str (r.address.getD []) ++ ['\n'])
      else some out

/-- Model of `bt_list_save` (devicelist.c) on the chain `heap`: the error and the content
of the file written (`none` when no file was opened).  `list` is the list pointer,
`can_open` tells whether `fopen(filename, "w+")` succeeds, `address` is the content of
the local variable on entry. -/
def bt_list_save (heap : bt_device_list_t) (fuel : Nat) (list : Option Nat)
    (filename : Option String) (can_open : String → Bool) (address : bt_addr_t) :
    Option (bt_err_t × Option (List Char)) :=
  match list, filename with
  | some l, some name =>
    if can_open name = false then some (BT_ERR_FILE_NOT_FOUND, none)
    else
      let iterator := bt_iterate_list (some ⟨none, none⟩) (some l)
      match bt_list_save_loop heap fuel iterator (some address) [] with
      | none => none
      | some out => some (BT_SUCCESS, some out)
  | _, _ => some (BT_ERR_BAD_PARAM, none)

/-- The lines `bt_list_save` writes for a list of addresses. -/
def address_lines (as : List bt_addr_t) : List Char :=
  (as.map fun a => bt_addr_to_str a ++ ['\n']).flatten

/-- The address 11:22:33:44:55:66 of the device list tests, bytes `b[0..5]`. -/
def test_addr1 : bt_addr_t := [0x66, 0x55, 0x44, 0x33, 0x22, 0x11]

/-- The address aa:bb:cc:dd:ee:ff of the device list tests, bytes `b[0..5]`. -/
def test_addr2 : bt_addr_t := [0xff, 0xee, 0xdd, 0xcc, 0xbb, 0xaa]

/-- A line of 99 characters `x` followed by the 18 characters of an address line: one
line of 117 characters. -/
def test_long_line : List Char :=
  List.replicate 99 'x' ++ "00:11:22:33:44:55\n".toList

/-! ## Theorems -/

theorem store_length (mem : List Nat) (p : Nat) (d : List Nat) (h : p + d.length ≤ mem.length) :
    (store mem p d).length = mem.length := by
  simp only [store, List.length_append, List.length_take, List.length_drop]
  omega

theorem store_take (mem : List Nat) (p : Nat) (d : List Nat) (h : p ≤ mem.length) :
    (store mem p d).take (p + d.length) = mem.take p ++ d := by
  have hl : (mem.take p ++ d).length = p + d.length := by
    simp only [List.length_append, List.length_take]
    omega
  unfold store
  rw [← hl, List.take_left]

theorem store_drop (mem : List Nat) (p : Nat) (d : List Nat) (k : Nat) (h : p ≤ mem.length) :
    (store mem p d).drop (p + d.length + k) = mem.drop (p + d.length + k) := by
  have hl : (mem.take p ++ d).length = p + d.length := by
    simp only [List.length_append, List.length_take]
    omega
  unfold store
  rw [← hl, List.drop_append, List.drop_drop, hl]

theorem store_take_before (mem : List Nat) (p : Nat) (d : List Nat) (k : Nat) (h : k ≤ p)
    (hp : p ≤ mem.length) : (store mem p d).take k = mem.take k := by
  unfold store
  rw [List.append_assoc, List.take_append_of_le_length, List.take_take, min_eq_left h]
  simp only [List.length_take]
  omega

/-- A successful `recv` of the chunk `d` as `bt_recv` reports it. -/
theorem bt_recv_chunk {σ : Type} (recv : σ → Int → Nat → io_result × σ) (st : σ) (mem : List Nat)
    (s : Int) (p req : Nat) (d : List Nat) (hn : (recv st s req).1.n = (d.length : Int))
    (hdata : (recv st s req).1.data = d) (h1 : 1 ≤ d.length) :
    bt_recv recv st mem (some s) (some p) req =
      ⟨BT_SUCCESS, d.length, store mem p d, (recv st s req).2, [io_call.mk s p req d.length]⟩ := by
  have h0 : ¬ ((d.length : Int) = 0) := by omega
  have h2 : ¬ ((d.length : Int) < 0) := by omega
  simp only [bt_recv, hn, hdata, h0, h2, Int.toNat_ofNat, if_false]

theorem bt_read_loop_delivers {σ : Type} (recv : σ → Int → Nat → io_result × σ) (s : Int) :
    ∀ (chunks : List (List Nat)) (fuel remaining received buffer : Nat) (mem : List Nat) (st : σ)
      (calls : List io_call),
      chunks.length < fuel → received + remaining < SIZE_MOD →
      Delivers recv s st remaining chunks → (chunks.map List.length).sum = remaining →
      buffer + remaining ≤ mem.length →
      bt_read_loop recv s fuel remaining received buffer mem st calls =
        some ⟨BT_SUCCESS, received + remaining,
          mem.take buffer ++ chunks.flatten ++ mem.drop (buffer + remaining),
          state_after recv s st remaining chunks,
          calls ++ expected_calls s buffer remaining (chunks.map List.length)⟩ := by
  intro chunks
  induction chunks with
  | nil =>
    intro fuel remaining received buffer mem st calls hf _ _ hsum _
    obtain ⟨f, rfl⟩ : ∃ f, fuel = f + 1 := ⟨fuel - 1, by simp at hf; omega⟩
    simp only [List.map_nil, List.sum_nil] at hsum
    subst hsum
    simp [bt_read_loop, state_after, expected_calls]
  | cons d ds ih =>
    intro fuel remaining received buffer mem st calls hf hsz hd hsum hroom
    obtain ⟨f, rfl⟩ : ∃ f, fuel = f + 1 := ⟨fuel - 1, by simp at hf; omega⟩
    simp only [List.map_cons, List.sum_cons] at hsum
    obtain ⟨hn, hdata, h1, hle, hrest⟩ := hd
    have hlt : d.length < SIZE_MOD := by omega
    have hpos : remaining > 0 := by omega
    have hrem : (remaining + SIZE_MOD - d.length) % SIZE_MOD = remaining - d.length := by
      unfold SIZE_MOD at hsz hlt ⊢
      omega
    have hrec : (received + d.length) % SIZE_MOD = received + d.length := by
      unfold SIZE_MOD at hsz hlt ⊢
      omega
    have hstep := bt_recv_chunk recv st mem s buffer remaining d hn hdata h1
    have hlen : (store mem buffer d).length = mem.length := store_length mem buffer d (by omega)
    have hih := ih f (remaining - d.length) (received + d.length) (buffer + d.length)
      (store mem buffer d) (recv st s remaining).2 (calls ++ [io_call.mk s buffer remaining d.length])
      (by simp at hf; omega) (by omega) hrest (by omega) (by rw [hlen]; omega)
    rw [bt_read_loop, if_pos hpos]
    simp only [hstep, ne_eq, not_true_eq_false, if_false, hrem, hrec]
    rw [hih, store_take mem buffer d (by omega)]
    have hd2 : buffer + d.length + (remaining - d.length) = buffer + remaining := by omega
    have hdrop := store_drop mem buffer d (remaining - d.length) (by omega)
    rw [hd2] at hdrop
    rw [hd2, hdrop]
    simp only [state_after, expected_calls, List.map_cons, List.flatten_cons, List.append_assoc,
      List.singleton_append, Option.some.injEq, recv_out.mk.injEq, true_and, and_true]
    omega

/-- C1: when the backend delivers chunks of at least one byte and at most the
requested length that sum to `n >= 1`, `bt_read` with `*numBytes = n` returns
`BT_SUCCESS` (given fuel for one iteration per chunk), leaves `n` in
`*numBytes`, fills the `n` buffer bytes with the chunks concatenated in order,
and each `recv` was asked, at the advancing pointer, for exactly the bytes still
missing. -/
theorem bt_read_assembles_chunks {σ : Type} (recv : σ → Int → Nat → io_result × σ) (s : Int)
    (st : σ) (mem : List Nat) (p n : Nat) (chunks : List (List Nat)) (fuel : Nat)
    (hn : 1 ≤ n) (hsize : n < SIZE_MOD) (hroom : p + n ≤ mem.length)
    (hd : Delivers recv s st n chunks) (hsum : (chunks.map List.length).sum = n)
    (hfuel : chunks.length < fuel) :
    ∃ out, bt_read recv fuel st mem (some s) (some p) n = some out ∧
      out.err = BT_SUCCESS ∧ out.numBytes = n ∧
      (out.mem.drop p).take n = chunks.flatten ∧
      out.mem.take p = mem.take p ∧ out.mem.drop (p + n) = mem.drop (p + n) ∧
      out.calls = expected_calls s p n (chunks.map List.length) := by
  have h := bt_read_loop_delivers recv s chunks fuel n 0 p mem st [] hfuel (by omega) hd hsum hroom
  have hflat : chunks.flatten.length = n := by
    rw [List.length_flatten]
    exact hsum
  have hlp : (List.take p mem).length = p := by
    rw [List.length_take]
    omega
  refine ⟨_, h, rfl, by simp, ?_, ?_, ?_, by simp⟩
  · have hmid : ((List.take p mem ++ chunks.flatten ++ List.drop (p + n) mem).drop
        (List.take p mem).length).take chunks.flatten.length = chunks.flatten := by
      simp
    rw [hlp, hflat] at hmid
    exact hmid
  · simp only [List.append_assoc]
    rw [List.take_append_of_le_length (by omega), List.take_take, min_self]
  · have hl2 : (List.take p mem ++ chunks.flatten).length = p + n := by
      rw [List.length_append, hlp, hflat]
    rw [← hl2, List.drop_left]

/-- Witness for C1: the run of `test_bt_read`, deliveries of 5 and 15 bytes
for a read of 20. -/
theorem bt_read_assembles_chunks_witness :
    Delivers scripted 123 (test_read_chunks.map chunk) 20 test_read_chunks ∧
    ∃ out, bt_read scripted 3 (test_read_chunks.map chunk) (List.replicate 20 0)
        (some 123) (some 0) 20 = some out ∧
      out.err = BT_SUCCESS ∧ out.numBytes = 20 ∧
      (out.mem.drop 0).take 20 = test_read_chunks.flatten ∧
      out.mem.take 0 = (List.replicate 20 0).take 0 ∧
      out.mem.drop (0 + 20) = (List.replicate 20 0).drop (0 + 20) ∧
      out.calls = expected_calls 123 0 20 (test_read_chunks.map List.length) :=
  have hd : Delivers scripted 123 (test_read_chunks.map chunk) 20 test_read_chunks := by
    simp [Delivers, scripted, chunk, test_read_chunks]
  ⟨hd, bt_read_assembles_chunks scripted 123 (test_read_chunks.map chunk) (List.replicate 20 0)
    0 20 test_read_chunks 3 (by decide) (by decide) (by decide) hd (by decide) (by decide)⟩

theorem bt_recv_fails {σ : Type} (recv : σ → Int → Nat → io_result × σ) (st : σ) (mem : List Nat)
    (s : Int) (p req : Nat) (h : (recv st s req).1.n ≤ 0) :
    (bt_recv recv st mem (some s) (some p) req).err ≠ BT_SUCCESS := by
  simp only [bt_recv]
  split_ifs <;> first | omega | simp

theorem bt_read_loop_fails {σ : Type} (recv : σ → Int → Nat → io_result × σ) (s : Int) :
    ∀ (chunks : List (List Nat)) (fuel remaining received buffer : Nat) (mem : List Nat) (st : σ)
      (calls : List io_call),
      chunks.length < fuel → received + remaining < SIZE_MOD →
      Delivers recv s st remaining chunks → (chunks.map List.length).sum < remaining →
      buffer + remaining ≤ mem.length →
      (recv (state_after recv s st remaining chunks) s
        (remaining - (chunks.map List.length).sum)).1.n ≤ 0 →
      bt_read_loop recv s fuel remaining received buffer mem st calls =
        some ⟨(bt_recv recv (state_after recv s st remaining chunks)
              (mem.take buffer ++ chunks.flatten ++
                mem.drop (buffer + (chunks.map List.length).sum))
              (some s) (some (buffer + (chunks.map List.length).sum))
              (remaining - (chunks.map List.length).sum)).err,
          received + (chunks.map List.length).sum,
          (bt_recv recv (state_after recv s st remaining chunks)
              (mem.take buffer ++ chunks.flatten ++
                mem.drop (buffer + (chunks.map List.length).sum))
              (some s) (some (buffer + (chunks.map List.length).sum))
              (remaining - (chunks.map List.length).sum)).mem,
          (recv (state_after recv s st remaining chunks) s
              (remaining - (chunks.map List.length).sum)).2,
          calls ++ expected_calls s buffer remaining (chunks.map List.length) ++
            [io_call.mk s (buffer + (chunks.map List.length).sum)
              (remaining - (chunks.map List.length).sum)
              (recv (state_after recv s st remaining chunks) s
                (remaining - (chunks.map List.length).sum)).1.n]⟩ := by
  intro chunks
  induction chunks with
  | nil =>
    intro fuel remaining received buffer mem st calls hf _ _ hsum _ hfail
    obtain ⟨f, rfl⟩ : ∃ f, fuel = f + 1 := ⟨fuel - 1, by simp at hf; omega⟩
    simp only [List.map_nil, List.sum_nil, state_after, Nat.sub_zero] at hsum hfail ⊢
    have hne := bt_recv_fails recv st mem s buffer remaining hfail
    rw [bt_read_loop, if_pos hsum, if_pos hne]
    have hst : (bt_recv recv st mem (some s) (some buffer) remaining).st =
        (recv st s remaining).2 := by
      simp only [bt_recv]
      split_ifs <;> rfl
    have hcalls : (bt_recv recv st mem (some s) (some buffer) remaining).calls =
        [io_call.mk s buffer remaining (recv st s remaining).1.n] := by
      simp only [bt_recv]
      split_ifs <;> rfl
    simp [hst, hcalls, expected_calls]
  | cons d ds ih =>
    intro fuel remaining received buffer mem st calls hf hsz hd hsum hroom hfail
    obtain ⟨f, rfl⟩ : ∃ f, fuel = f + 1 := ⟨fuel - 1, by simp at hf; omega⟩
    simp only [List.map_cons, List.sum_cons] at hsum hfail ⊢
    obtain ⟨hn, hdata, h1, hle, hrest⟩ := hd
    have hlt : d.length < SIZE_MOD := by omega
    have hpos : remaining > 0 := by omega
    have hrem : (remaining + SIZE_MOD - d.length) % SIZE_MOD = remaining - d.length := by
      unfold SIZE_MOD at hsz hlt ⊢
      omega
    have hrec : (received + d.length) % SIZE_MOD = received + d.length := by
      unfold SIZE_MOD at hsz hlt ⊢
      omega
    have hstep := bt_recv_chunk recv st mem s buffer remaining d hn hdata h1
    have hlen : (store mem buffer d).length = mem.length := store_length mem buffer d (by omega)
    have hsub : remaining - d.length - (ds.map List.length).sum =
        remaining - (d.length + (ds.map List.length).sum) := by omega
    have hih := ih f (remaining - d.length) (received + d.length) (buffer + d.length)
      (store mem buffer d) (recv st s remaining).2 (calls ++ [io_call.mk s buffer remaining d.length])
      (by simp at hf; omega) (by omega) hrest (by omega) (by rw [hlen]; omega)
      (by rw [hsub]; exact hfail)
    rw [bt_read_loop, if_pos hpos]
    simp only [hstep, ne_eq, not_true_eq_false, if_false, hrem, hrec]
    rw [hih, store_take mem buffer d (by omega),
      store_drop mem buffer d (ds.map List.length).sum (by omega), hsub]
    simp only [state_after, expected_calls, List.flatten_cons, List.append_assoc,
      List.singleton_append, Nat.add_assoc]

theorem bt_recv_err_mem {σ : Type} (recv : σ → Int → Nat → io_result × σ) (st : σ)
    (m1 m2 : List Nat) (s : Int) (p1 p2 req : Nat) :
    (bt_recv recv st m1 (some s) (some p1) req).err =
      (bt_recv recv st m2 (some s) (some p2) req).err := by
  simp only [bt_recv]
  split_ifs <;> rfl

theorem bt_recv_mem {σ : Type} (recv : σ → Int → Nat → io_result × σ) (st : σ)
    (mem : List Nat) (s : Int) (p req : Nat) :
    (bt_recv recv st mem (some s) (some p) req).mem = store mem p (recv st s req).1.data := by
  simp only [bt_recv]
  split_ifs <;> rfl

theorem bt_recv_closed {σ : Type} (recv : σ → Int → Nat → io_result × σ) (st : σ)
    (mem : List Nat) (s : Int) (p req : Nat) (h : (recv st s req).1.n = 0) :
    (bt_recv recv st mem (some s) (some p) req).err = BT_SOCKET_CLOSED := by
  simp only [bt_recv, h, if_true]

/-- C2: when the backend delivers `k < n` bytes over successful `recv` calls
and the next `recv` fails (returns 0 or a negative value), `bt_read` with
`*numBytes = n` returns the error `bt_recv` gives for that call, which is
`BT_SOCKET_CLOSED` when the call returned 0, sets `*numBytes` to exactly `k`,
and the first `k` buffer bytes hold the delivered data; the failing call is
the last one made. -/
theorem bt_read_reports_partial {σ : Type} (recv : σ → Int → Nat → io_result × σ) (s : Int)
    (st : σ) (mem : List Nat) (p n k : Nat) (chunks : List (List Nat)) (fuel : Nat)
    (hsize : n < SIZE_MOD) (hroom : p + n ≤ mem.length)
    (hd : Delivers recv s st n chunks) (hsum : (chunks.map List.length).sum = k) (hk : k < n)
    (hfail : (recv (state_after recv s st n chunks) s (n - k)).1.n ≤ 0)
    (hfuel : chunks.length < fuel) :
    ∃ out, bt_read recv fuel st mem (some s) (some p) n = some out ∧
      out.err ≠ BT_SUCCESS ∧
      out.err = (bt_recv recv (state_after recv s st n chunks) mem (some s) (some (p + k))
        (n - k)).err ∧
      ((recv (state_after recv s st n chunks) s (n - k)).1.n = 0 → out.err = BT_SOCKET_CLOSED) ∧
      out.numBytes = k ∧
      (out.mem.drop p).take k = chunks.flatten ∧
      out.calls = expected_calls s p n (chunks.map List.length) ++
        [io_call.mk s (p + k) (n - k) (recv (state_after recv s st n chunks) s (n - k)).1.n] := by
  subst hsum
  have h := bt_read_loop_fails recv s chunks fuel n 0 p mem st [] hfuel (by omega) hd hk hroom hfail
  have hflat : chunks.flatten.length = (chunks.map List.length).sum := List.length_flatten chunks
  have hlp : (List.take p mem).length = p := by
    rw [List.length_take]
    omega
  refine ⟨_, h, ?_, ?_, ?_, by simp, ?_, by simp⟩
  · exact bt_recv_fails recv _ _ s _ _ hfail
  · exact bt_recv_err_mem recv _ _ _ s _ _ _
  · intro h0
    exact bt_recv_closed recv _ _ s _ _ h0
  · simp only [bt_recv_mem]
    rw [List.take_drop, store_take_before _ _ _ _ (le_refl _)
      (by simp only [List.length_append, List.length_drop, hlp, hflat]; omega), ← List.take_drop]
    have hmid : ((List.take p mem ++ chunks.flatten ++
        List.drop (p + (chunks.map List.length).sum) mem).drop
        (List.take p mem).length).take chunks.flatten.length = chunks.flatten := by
      simp
    rw [hlp, hflat] at hmid
    exact hmid

/-- Witness for C2: the run of `test_bt_read_close_socket`, 5 bytes delivered
and then a `recv` returning 0, for a read of 20. -/
theorem bt_read_reports_partial_witness :
    Delivers scripted 123 (test_close_chunks.map chunk) 20 test_close_chunks ∧
    ∃ out, bt_read scripted 2 (test_close_chunks.map chunk) (List.replicate 20 0)
        (some 123) (some 0) 20 = some out ∧
      out.err = BT_SOCKET_CLOSED ∧ out.numBytes = 5 ∧
      (out.mem.drop 0).take 5 = test_close_chunks.flatten :=
  have hd : Delivers scripted 123 (test_close_chunks.map chunk) 20 test_close_chunks := by
    simp [Delivers, scripted, chunk, test_close_chunks]
  have h := bt_read_reports_partial scripted 123 (test_close_chunks.map chunk)
    (List.replicate 20 0) 0 20 5 test_close_chunks 2 (by decide) (by decide) hd (by decide)
    (by decide) (by decide) (by decide)
  ⟨hd, h.elim fun out ho => ⟨out, ho.1, ho.2.2.2.1 (by decide), ho.2.2.2.2.1, ho.2.2.2.2.2.1⟩⟩

/-- C4: with non-NULL socket, buffer and count, `bt_recv` and `bt_send` each
make exactly one backend call (on the socket's descriptor, at the buffer
pointer, for the count given); a backend result of 0 gives `BT_SOCKET_CLOSED`
with `*numBytes = 0`; a negative result gives `BT_SOCKET_CLOSED` when errno is
`ECONNRESET` and `BT_ERR_UNKNOWN` otherwise, with `*numBytes = 0`; a result
`r > 0` gives `BT_SUCCESS` with `*numBytes = r`. -/
theorem bt_recv_bt_send_classify {σ : Type} (recv : σ → Int → Nat → io_result × σ)
    (send : σ → Int → List Nat → Nat → io_result × σ) (st : σ) (mem : List Nat) (s : Int)
    (p count : Nat) :
    ((bt_recv recv st mem (some s) (some p) count).calls =
        [io_call.mk s p count (recv st s count).1.n] ∧
      ((recv st s count).1.n = 0 →
        (bt_recv recv st mem (some s) (some p) count).err = BT_SOCKET_CLOSED ∧
        (bt_recv recv st mem (some s) (some p) count).numBytes = 0) ∧
      ((recv st s count).1.n < 0 → (recv st s count).1.errno = ECONNRESET →
        (bt_recv recv st mem (some s) (some p) count).err = BT_SOCKET_CLOSED ∧
        (bt_recv recv st mem (some s) (some p) count).numBytes = 0) ∧
      ((recv st s count).1.n < 0 → (recv st s count).1.errno ≠ ECONNRESET →
        (bt_recv recv st mem (some s) (some p) count).err = BT_ERR_UNKNOWN ∧
        (bt_recv recv st mem (some s) (some p) count).numBytes = 0) ∧
      (0 < (recv st s count).1.n →
        (bt_recv recv st mem (some s) (some p) count).err = BT_SUCCESS ∧
        ((bt_recv recv st mem (some s) (some p) count).numBytes : Int) = (recv st s count).1.n)) ∧
    ((bt_send send st mem (some s) (some p) count).calls =
        [io_call.mk s p count (send st s ((mem.drop p).take count) count).1.n] ∧
      ((send st s ((mem.drop p).take count) count).1.n = 0 →
        (bt_send send st mem (some s) (some p) count).err = BT_SOCKET_CLOSED ∧
        (bt_send send st mem (some s) (some p) count).numBytes = 0) ∧
      ((send st s ((mem.drop p).take count) count).1.n < 0 →
        (send st s ((mem.drop p).take count) count).1.errno = ECONNRESET →
        (bt_send send st mem (some s) (some p) count).err = BT_SOCKET_CLOSED ∧
        (bt_send send st mem (some s) (some p) count).numBytes = 0) ∧
      ((send st s ((mem.drop p).take count) count).1.n < 0 →
        (send st s ((mem.drop p).take count) count).1.errno ≠ ECONNRESET →
        (bt_send send st mem (some s) (some p) count).err = BT_ERR_UNKNOWN ∧
        (bt_send send st mem (some s) (some p) count).numBytes = 0) ∧
      (0 < (send st s ((mem.drop p).take count) count).1.n →
        (bt_send send st mem (some s) (some p) count).err = BT_SUCCESS ∧
        ((bt_send send st mem (some s) (some p) count).numBytes : Int) =
          (send st s ((mem.drop p).take count) count).1.n)) := by
  refine ⟨⟨?_, ?_, ?_, ?_, ?_⟩, ⟨?_, ?_, ?_, ?_, ?_⟩⟩
  · simp only [bt_recv]
    split_ifs <;> rfl
  · intro h
    simp [bt_recv, h]
  · intro h he
    have h0 : ¬ (recv st s count).1.n = 0 := by omega
    simp [bt_recv, h, h0, he]
  · intro h he
    have h0 : ¬ (recv st s count).1.n = 0 := by omega
    simp [bt_recv, h, h0, he]
  · intro h
    have h0 : ¬ (recv st s count).1.n = 0 := by omega
    have h1 : ¬ (recv st s count).1.n < 0 := by omega
    simp only [bt_recv, h0, h1, if_false, true_and]
    omega
  · simp only [bt_send]
    split_ifs <;> rfl
  · intro h
    simp [bt_send, h]
  · intro h he
    have h0 : ¬ (send st s ((mem.drop p).take count) count).1.n = 0 := by omega
    simp [bt_send, h, h0, he]
  · intro h he
    have h0 : ¬ (send st s ((mem.drop p).take count) count).1.n = 0 := by omega
    simp [bt_send, h, h0, he]
  · intro h
    have h0 : ¬ (send st s ((mem.drop p).take count) count).1.n = 0 := by omega
    have h1 : ¬ (send st s ((mem.drop p).take count) count).1.n < 0 := by omega
    simp only [bt_send, h0, h1, if_false, true_and]
    omega

/-- C5: `bt_bind` evaluated on backends that accept exactly one channel `t`.
For `t` = 1, ..., 29 it returns `BT_SUCCESS` after probing 1, ..., t and nothing
more.  For `t = 30` the backend accepts the probe of channel 30 (`bind`
returns 0), no further probe is made, and yet `bt_bind` returns
`BT_ERR_UNKNOWN`.  For `t = 31`, outside [1, 31), it probes channel 31 and
returns `BT_SUCCESS`.  With no channel accepted it returns `BT_ERR_UNKNOWN`
after 31 probes. -/
theorem bt_bind_channel_30_rejected :
    ((List.range 29).all fun i =>
      decide (bt_bind (only_channel (i + 1)) ⟨(), []⟩ =
        some ⟨BT_SUCCESS, 666, ⟨(), bind_setup 666 ++ probes 666 (i + 1)⟩⟩)) = true ∧
    bt_bind (only_channel 30) ⟨(), []⟩ =
      some ⟨BT_ERR_UNKNOWN, 666, ⟨(), bind_setup 666 ++ probes 666 30⟩⟩ ∧
    ((only_channel 30).bind () 666 30).1 = 0 ∧
    bt_bind (only_channel 31) ⟨(), []⟩ =
      some ⟨BT_SUCCESS, 666, ⟨(), bind_setup 666 ++ probes 666 31⟩⟩ ∧
    bt_bind (only_channel 0) ⟨(), []⟩ =
      some ⟨BT_ERR_UNKNOWN, 666, ⟨(), bind_setup 666 ++ probes 666 31⟩⟩ := by
  decide

/-- C6: `bt_accept_with_timeout` returns `BT_ERR_TIMEOUT` exactly when `select`
reports 0 ready descriptors, and then `select` is the only call made (no
`accept`); it returns `BT_ERR_UNKNOWN` when `select` fails or `accept` yields a
negative descriptor; otherwise it calls `accept` once, stores the accepted
descriptor in the output socket, sets its receive and send timeouts to 20
seconds and returns `BT_SUCCESS`. -/
theorem bt_accept_with_timeout_outcomes {σ : Type} (B : backend σ) (w : world σ)
    (listener sock : Int) (timeout : Option (Int × Int)) :
    ((bt_accept_with_timeout B w listener sock timeout).err = BT_ERR_TIMEOUT ↔
      (B.select w.st (listener + 1) listener timeout).1 = 0) ∧
    ((B.select w.st (listener + 1) listener timeout).1 = 0 →
      (bt_accept_with_timeout B w listener sock timeout).w.log =
        w.log ++ [sys_call.select (listener + 1) listener timeout] ∧
      (bt_accept_with_timeout B w listener sock timeout).s = sock) ∧
    ((B.select w.st (listener + 1) listener timeout).1 < 0 →
      (bt_accept_with_timeout B w listener sock timeout).err = BT_ERR_UNKNOWN ∧
      (bt_accept_with_timeout B w listener sock timeout).w.log =
        w.log ++ [sys_call.select (listener + 1) listener timeout]) ∧
    (0 < (B.select w.st (listener + 1) listener timeout).1 →
      (B.accept (B.select w.st (listener + 1) listener timeout).2 listener).1 < 0 →
      (bt_accept_with_timeout B w listener sock timeout).err = BT_ERR_UNKNOWN ∧
      (bt_accept_with_timeout B w listener sock timeout).w.log =
        w.log ++ [sys_call.select (listener + 1) listener timeout, sys_call.accept listener]) ∧
    (0 < (B.select w.st (listener + 1) listener timeout).1 →
      0 ≤ (B.accept (B.select w.st (listener + 1) listener timeout).2 listener).1 →
      (bt_accept_with_timeout B w listener sock timeout).err = BT_SUCCESS ∧
      (bt_accept_with_timeout B w listener sock timeout).s =
        (B.accept (B.select w.st (listener + 1) listener timeout).2 listener).1 ∧
      (bt_accept_with_timeout B w listener sock timeout).w.log =
        w.log ++ [sys_call.select (listener + 1) listener timeout, sys_call.accept listener,
          sys_call.setsockopt (B.accept (B.select w.st (listener + 1) listener timeout).2
            listener).1 sockopt.SO_RCVTIMEO 20 0,
          sys_call.setsockopt (B.accept (B.select w.st (listener + 1) listener timeout).2
            listener).1 sockopt.SO_SNDTIMEO 20 0]) := by
  generalize hsel : B.select w.st (listener + 1) listener timeout = r
  refine ⟨?_, ?_, ?_, ?_, ?_⟩
  · constructor
    · intro h
      by_contra h0
      by_cases hp : r.1 > 0
      · simp only [bt_accept_with_timeout, hsel, hp, if_true] at h
        split_ifs at h
      · simp [bt_accept_with_timeout, hsel, hp, h0] at h
    · intro h
      simp [bt_accept_with_timeout, hsel, h]
  · intro h
    simp [bt_accept_with_timeout, hsel, h]
  · intro h
    have h1 : ¬ r.1 > 0 := by omega
    have h2 : ¬ r.1 = 0 := by omega
    simp [bt_accept_with_timeout, hsel, h1, h2]
  · intro h ha
    simp [bt_accept_with_timeout, hsel, h, ha]
  · intro h ha
    have h1 : ¬ (B.accept r.2 listener).1 < 0 := by omega
    have h2 : ¬ (B.accept r.2 listener).1 = INVALID_SOCKET := by
      unfold INVALID_SOCKET
      omega
    simp [bt_accept_with_timeout, hsel, h, h1, h2, bt_set_timeout]

theorem service_channel_loop_unreadable (rs : List sdp_record) (channel : Int)
    (h : ∀ r ∈ rs, r.get_access_protos ≠ 0) : service_channel_loop channel rs = channel := by
  induction rs generalizing channel with
  | nil => rfl
  | cons r rs ih =>
    have hr : r.get_access_protos ≠ 0 := h r (List.mem_cons_self r rs)
    simp only [service_channel_loop, hr, if_false]
    exact ih channel fun x hx => h x (List.mem_cons_of_mem r hx)

theorem service_channel_loop_last (rs : List sdp_record) (channel : Int) :
    service_channel_loop channel rs =
      match last_readable rs with
      | some r => (r.proto_port : Int)
      | none => channel := by
  induction rs generalizing channel with
  | nil => rfl
  | cons r rs ih =>
    rw [service_channel_loop, ih]
    unfold last_readable
    by_cases hr : r.get_access_protos = 0
    · have hfc : (r :: rs).filter (fun r => decide (r.get_access_protos = 0)) =
          r :: rs.filter (fun r => decide (r.get_access_protos = 0)) :=
        List.filter_cons_of_pos (by simpa using hr)
      rw [hfc, if_pos hr]
      cases rs.filter (fun r => decide (r.get_access_protos = 0)) with
      | nil => rfl
      | cons a as =>
        rw [List.getLast?_cons_cons, List.getLast?_eq_getLast (a :: as) (by simp)]
    · have hfc : (r :: rs).filter (fun r => decide (r.get_access_protos = 0)) =
          rs.filter (fun r => decide (r.get_access_protos = 0)) :=
        List.filter_cons_of_neg (by simpa using hr)
      rw [hfc, if_neg hr]

theorem last_readable_some (rs : List sdp_record) (h : ∃ r ∈ rs, r.get_access_protos = 0) :
    ∃ r, last_readable rs = some r := by
  obtain ⟨r, hr, h0⟩ := h
  have hmem : r ∈ rs.filter fun r => r.get_access_protos = 0 := by
    simp [List.mem_filter, hr, h0]
  cases hf : rs.filter (fun r => decide (r.get_access_protos = 0)) with
  | nil => simp [hf] at hmem
  | cons a as =>
    exact ⟨(a :: as).getLast (by simp), by
      simp only [last_readable, hf]
      exact List.getLast?_eq_getLast _ _⟩

/-- Outcomes of `bt_connect_to_service` by the readability of the records:
`BT_ERR_DEVICE_NOT_FOUND` when `sdp_connect` gives no session;
`BT_ERR_SERVICE_NOT_FOUND` when the session opens but no record of the response
has a readable access-protocol list; in both cases the calls made are SDP calls
only and the output handle keeps its value; when some record is readable, the
result is that of `bt_connect_to_port` called, after the lookup, with the same
address and the value `sdp_get_proto_port` gave for the last readable record. -/
theorem bt_connect_to_service_readable_cases {σ : Type} (B : backend σ) (w : world σ)
    (address : bt_addr_t) (service : bt_uuid_t) (sock : Int) :
    ((B.sdp_connect w.st (bt_addr_to_bdaddr address)).1 = none →
      (bt_connect_to_service B w address service sock).err = BT_ERR_DEVICE_NOT_FOUND ∧
      (bt_connect_to_service B w address service sock).s = sock ∧
      (bt_connect_to_service B w address service sock).w.log =
        w.log ++ [sys_call.sdp_connect (bt_addr_to_bdaddr address)]) ∧
    (∀ session, (B.sdp_connect w.st (bt_addr_to_bdaddr address)).1 = some session →
      (∀ r ∈ (B.sdp_service_search_attr_req (B.sdp_connect w.st (bt_addr_to_bdaddr address)).2
          session (bt_uuid_to_uuid service)).1.2, r.get_access_protos ≠ 0) →
      (bt_connect_to_service B w address service sock).err = BT_ERR_SERVICE_NOT_FOUND ∧
      (bt_connect_to_service B w address service sock).s = sock ∧
      (bt_connect_to_service B w address service sock).w.log =
        w.log ++ [sys_call.sdp_connect (bt_addr_to_bdaddr address),
          sys_call.sdp_service_search_attr_req session (bt_uuid_to_uuid service),
          sys_call.sdp_close session]) ∧
    (∀ session, (B.sdp_connect w.st (bt_addr_to_bdaddr address)).1 = some session →
      (∃ r ∈ (B.sdp_service_search_attr_req (B.sdp_connect w.st (bt_addr_to_bdaddr address)).2
          session (bt_uuid_to_uuid service)).1.2, r.get_access_protos = 0) →
      bt_connect_to_service B w address service sock =
        bt_connect_to_port B
          (bt_find_service_channel B w (bt_addr_to_bdaddr address) (bt_uuid_to_uuid service)).2
          address
          ((bt_find_service_channel B w (bt_addr_to_bdaddr address)
            (bt_uuid_to_uuid service)).1 % 256).toNat sock) := by
  refine ⟨?_, ?_, ?_⟩
  · intro h
    simp [bt_connect_to_service, bt_find_service_channel, h]
  · intro session h hrs
    have hl := service_channel_loop_unreadable _ (-1) hrs
    simp [bt_connect_to_service, bt_find_service_channel, h, hl]
  · intro session h hrs
    obtain ⟨r, hr⟩ := last_readable_some _ hrs
    have hl := service_channel_loop_last
      (B.sdp_service_search_attr_req (B.sdp_connect w.st (bt_addr_to_bdaddr address)).2
          session (bt_uuid_to_uuid service)).1.2 (-1)
    rw [hr] at hl
    have hch : (bt_find_service_channel B w (bt_addr_to_bdaddr address)
        (bt_uuid_to_uuid service)).1 = (r.proto_port : Int) := by
      simp only [bt_find_service_channel, h]
      exact hl
    have h2 : ¬ ((r.proto_port : Int) = -2) := by omega
    have h1 : ¬ ((r.proto_port : Int) = -1) := by omega
    simp only [bt_connect_to_service, hch, h2, h1, if_false]

/-- C7: the device is reached and the response holds one record, whose access-protocol
list can be read but has no RFCOMM channel (`sdp_get_proto_port` returns 0).
`bt_find_service_channel` returns 0, neither a channel in 1..30 nor -1, and
`bt_connect_to_service` does not return `BT_ERR_SERVICE_NOT_FOUND`: it creates a socket,
connects it on channel 0 and returns `BT_SUCCESS`.  For every backend, when the last
readable record of the response has no RFCOMM channel the result is that of
`bt_connect_to_port` on channel 0. -/
theorem bt_connect_to_service_connects_on_channel_zero :
    (bt_find_service_channel (answering [no_rfcomm_record]) ⟨(), []⟩
      (bt_addr_to_bdaddr test_address) (bt_uuid_to_uuid test_service)).1 = 0 ∧
    (bt_connect_to_service (answering [no_rfcomm_record]) ⟨(), []⟩ test_address test_service
      (-1)).err = BT_SUCCESS ∧
    (bt_connect_to_service (answering [no_rfcomm_record]) ⟨(), []⟩ test_address test_service
      (-1)).s = 666 ∧
    (bt_connect_to_service (answering [no_rfcomm_record]) ⟨(), []⟩ test_address test_service
      (-1)).w.log =
      [sys_call.sdp_connect test_address,
        sys_call.sdp_service_search_attr_req 342 (uuid_t.uuid128 test_service),
        sys_call.sdp_close 342, sys_call.socket, sys_call.connect 666 test_address 0] ∧
    (∀ {σ : Type} (B : backend σ) (w : world σ) (address : bt_addr_t) (service : bt_uuid_t)
      (sock : Int) (session : Nat) (r : sdp_record),
      (B.sdp_connect w.st (bt_addr_to_bdaddr address)).1 = some session →
      last_readable (B.sdp_service_search_attr_req
        (B.sdp_connect w.st (bt_addr_to_bdaddr address)).2 session
        (bt_uuid_to_uuid service)).1.2 = some r →
      r.proto_port = 0 →
      (bt_find_service_channel B w (bt_addr_to_bdaddr address)
        (bt_uuid_to_uuid service)).1 = 0 ∧
      bt_connect_to_service B w address service sock =
        bt_connect_to_port B
          (bt_find_service_channel B w (bt_addr_to_bdaddr address) (bt_uuid_to_uuid service)).2
          address 0 sock) := by
  refine ⟨by decide, by decide, by decide, by decide, ?_⟩
  intro σ B w address service sock session r h hr h0
  have hl := service_channel_loop_last
    (B.sdp_service_search_attr_req (B.sdp_connect w.st (bt_addr_to_bdaddr address)).2
        session (bt_uuid_to_uuid service)).1.2 (-1)
  rw [hr] at hl
  have hl2 : service_channel_loop (-1)
      (B.sdp_service_search_attr_req (B.sdp_connect w.st (bt_addr_to_bdaddr address)).2
        session (bt_uuid_to_uuid service)).1.2 = 0 := by
    rw [hl]
    simp only [h0]
    rfl
  have hch : (bt_find_service_channel B w (bt_addr_to_bdaddr address)
      (bt_uuid_to_uuid service)).1 = 0 := by
    simp only [bt_find_service_channel, h]
    exact hl2
  refine ⟨hch, ?_⟩
  simp only [bt_connect_to_service, hch]
  rfl

/-- C9: `bt_connect_to_port` returns `BT_ERR_ALLOCATING_SOCKET` when `socket`
yields `INVALID_SOCKET` (nothing else is called); returns
`BT_ERR_CONNECTION_FAILURE` when `connect` returns non-zero, having closed the
created socket exactly once; on every error return the output handle holds
`INVALID_SOCKET`; on `BT_SUCCESS` it holds the connected descriptor and no
`close` has been called. -/
theorem bt_connect_to_port_outcomes {σ : Type} (B : backend σ) (w : world σ)
    (address : bt_addr_t) (port : Nat) (sock : Int) :
    ((B.socket w.st).1 = INVALID_SOCKET →
      (bt_connect_to_port B w address port sock).err = BT_ERR_ALLOCATING_SOCKET ∧
      (bt_connect_to_port B w address port sock).w.log = w.log ++ [sys_call.socket]) ∧
    ((B.socket w.st).1 ≠ INVALID_SOCKET →
      (B.connect (B.socket w.st).2 (B.socket w.st).1 (bt_addr_to_bdaddr address)
        (port % 256)).1 ≠ 0 →
      (bt_connect_to_port B w address port sock).err = BT_ERR_CONNECTION_FAILURE ∧
      (bt_connect_to_port B w address port sock).w.log =
        w.log ++ [sys_call.socket,
          sys_call.connect (B.socket w.st).1 (bt_addr_to_bdaddr address) (port % 256),
          sys_call.close (B.socket w.st).1]) ∧
    ((B.socket w.st).1 ≠ INVALID_SOCKET →
      (B.connect (B.socket w.st).2 (B.socket w.st).1 (bt_addr_to_bdaddr address)
        (port % 256)).1 = 0 →
      (bt_connect_to_port B w address port sock).err = BT_SUCCESS ∧
      (bt_connect_to_port B w address port sock).w.log =
        w.log ++ [sys_call.socket,
          sys_call.connect (B.socket w.st).1 (bt_addr_to_bdaddr address) (port % 256)]) ∧
    ((bt_connect_to_port B w address port sock).err ≠ BT_SUCCESS →
      (bt_connect_to_port B w address port sock).s = INVALID_SOCKET) ∧
    ((bt_connect_to_port B w address port sock).err = BT_SUCCESS →
      (bt_connect_to_port B w address port sock).s = (B.socket w.st).1 ∧
      (bt_connect_to_port B w address port sock).s ≠ INVALID_SOCKET ∧
      ∀ fd, sys_call.close fd ∉
        (bt_connect_to_port B w address port sock).w.log.drop w.log.length) := by
  refine ⟨?_, ?_, ?_, ?_, ?_⟩
  · intro h
    simp [bt_connect_to_port, h]
  · intro h hc
    simp [bt_connect_to_port, h, hc]
  · intro h hc
    simp [bt_connect_to_port, h, hc]
  · intro h
    simp only [bt_connect_to_port] at h ⊢
    split_ifs at h ⊢ <;> first | rfl | exact absurd rfl h
  · intro h
    simp only [bt_connect_to_port] at h ⊢
    split_ifs at h ⊢ with h1 h2
    refine ⟨rfl, h1, ?_⟩
    intro fd
    simp

/-- C10: `bt_inquiry_next` on a session that `bt_services_begin` has set up,
and `bt_services_next` on a session that `bt_inquiry_begin` has set up, return
`BT_ERR_BAD_PARAM`, leaving the session (cursor included) and the output record
as they were and calling nothing; a NULL session or NULL output record is
`BT_ERR_BAD_PARAM` as well. -/
theorem next_of_wrong_kind_is_bad_param {σ : Type} (B : backend σ)
    (str_to_uuid : String → Option bt_uuid_t) (temp : bt_uuid_t) (w w1 : world σ)
    (q : bt_inquiry_t) (address : bt_addr_t) (service_class : Option bt_uuid_t) (cached : Int)
    (d : bt_device_t) (sv : bt_service_t) :
    bt_inquiry_next B w1
        (bt_services_begin B str_to_uuid temp w (some q) (some address) service_class
          cached).inquiry (some d) =
      some ⟨BT_ERR_BAD_PARAM,
        (bt_services_begin B str_to_uuid temp w (some q) (some address) service_class
          cached).inquiry, some d, w1⟩ ∧
    bt_services_next B w1 (bt_inquiry_begin B w (some q) cached).inquiry (some sv) =
      some ⟨BT_ERR_BAD_PARAM, (bt_inquiry_begin B w (some q) cached).inquiry, some sv, w1⟩ ∧
    bt_inquiry_next B w1 none (some d) = some ⟨BT_ERR_BAD_PARAM, none, some d, w1⟩ ∧
    bt_inquiry_next B w1 (some q) none = some ⟨BT_ERR_BAD_PARAM, some q, none, w1⟩ ∧
    bt_services_next B w1 none (some sv) = some ⟨BT_ERR_BAD_PARAM, none, some sv, w1⟩ ∧
    bt_services_next B w1 (some q) none = some ⟨BT_ERR_BAD_PARAM, some q, none, w1⟩ := by
  refine ⟨?_, ?_, rfl, rfl, rfl, rfl⟩
  · have hq : ∃ q1, (bt_services_begin B str_to_uuid temp w (some q) (some address) service_class
        cached).inquiry = some q1 ∧ q1.type = BT_INQUIRY_SERVICES := by
      simp only [bt_services_begin]
      split
      · exact ⟨_, rfl, rfl⟩
      · split_ifs
        · exact ⟨_, rfl, rfl⟩
        · exact ⟨_, rfl, rfl⟩
    obtain ⟨q1, h1, h2⟩ := hq
    rw [h1]
    simp [bt_inquiry_next, h2, BT_INQUIRY_SERVICES, BT_INQUIRY_DEVICES]
  · have hq : ∃ q1, (bt_inquiry_begin B w (some q) cached).inquiry = some q1 ∧
        q1.type = BT_INQUIRY_DEVICES := by
      simp only [bt_inquiry_begin]
      split_ifs <;> exact ⟨_, rfl, rfl⟩
    obtain ⟨q1, h1, h2⟩ := hq
    rw [h1]
    simp [bt_services_next, h2, BT_INQUIRY_SERVICES, BT_INQUIRY_DEVICES]

/-- C12: the matching next operation called after begin and end.  On a device
inquiry whose scan found nothing, `bt_inquiry_next` after `bt_inquiry_end`
returns `BT_ERR_END_OF_ENUM`, not `BT_ERR_BAD_PARAM` (begin itself succeeded);
with two results unconsumed it goes on to read the freed scan array (no result
in the model).  On a service inquiry `bt_services_next` after
`bt_services_end` returns `BT_ERR_BAD_PARAM`, with records left or without. -/
theorem inquiry_next_after_end_not_rejected :
    (bt_inquiry_begin (scanning [] []) ⟨(), []⟩ (some blank_inquiry) 0).err = BT_SUCCESS ∧
    device_next_after_end (scanning [] []) () = some BT_ERR_END_OF_ENUM ∧
    device_next_after_end (scanning test_scan []) () = none ∧
    service_next_after_end (scanning [] two_records) () = some BT_ERR_BAD_PARAM ∧
    service_next_after_end (scanning [] []) () = some BT_ERR_BAD_PARAM := by
  decide

theorem bt_inquiry_next_step {σ : Type} (B : backend σ) (w : world σ)
    (results : List inquiry_info) (k : Nat) (q : bt_inquiry_t) (d : bt_device_t)
    (info : inquiry_info) (hc : device_cursor results k q) (hk : results.get? k = some info) :
    ∃ q1 nm w1, bt_inquiry_next B w (some q) (some d) =
        some ⟨BT_SUCCESS, some q1, some ⟨info.bdaddr, nm, class_of_device info⟩, w1⟩ ∧
      device_cursor results (k + 1) q1 := by
  obtain ⟨ht, hi, hcur, hcnt, nm, hn⟩ := hc
  have hlt : k < results.length := by
    by_contra h
    rw [List.get?_eq_none.mpr (by omega)] at hk
    exact Option.noConfusion hk
  have hc0 : ¬ q.dev.count = 0 := by omega
  simp only [bt_inquiry_next, ht, ne_eq, not_true_eq_false, if_false, hc0, hi, hn, hcur, hk]
  refine ⟨_, _, _, rfl, ?_⟩
  refine ⟨rfl, rfl, rfl, ?_, _, rfl⟩
  simp only [hcnt]
  push_cast
  omega

theorem bt_inquiry_next_exhausted {σ : Type} (B : backend σ) (w : world σ)
    (results : List inquiry_info) (q : bt_inquiry_t) (d : bt_device_t)
    (hc : device_cursor results results.length q) :
    bt_inquiry_next B w (some q) (some d) = some ⟨BT_ERR_END_OF_ENUM, some q, some d, w⟩ := by
  obtain ⟨ht, _, _, hcnt, _⟩ := hc
  have hc0 : q.dev.count = 0 := by omega
  simp [bt_inquiry_next, ht, hc0]

theorem bt_inquiry_next_iter {σ : Type} (B : backend σ) (w : world σ)
    (results : List inquiry_info) (q : bt_inquiry_t) (d : bt_device_t) (e : bt_err_t)
    (hc : device_cursor results 0 q) :
    ∀ k, ∃ s qk dk, next_iter (bt_inquiry_next B) k ⟨e, some q, some d, w⟩ = some s ∧
      s.inquiry = some qk ∧ s.record = some dk ∧
      device_cursor results (min k results.length) qk ∧
      (0 < k → k ≤ results.length → s.err = BT_SUCCESS ∧
        ∃ info nm, results.get? (k - 1) = some info ∧
          dk = ⟨info.bdaddr, nm, class_of_device info⟩) := by
  intro k
  induction k with
  | zero =>
    refine ⟨_, q, d, rfl, rfl, rfl, by simp [hc], ?_⟩
    intro h
    omega
  | succ k ih =>
    obtain ⟨s, qk, dk, hs, hq, hd, hcur, _⟩ := ih
    simp only [next_iter, hs, hq, hd]
    by_cases hlt : k < results.length
    · have hget : results.get? k = some (results.get ⟨k, hlt⟩) := List.get?_eq_get hlt
      rw [min_eq_left (by omega)] at hcur
      obtain ⟨q1, nm, w1, hstep, hc1⟩ := bt_inquiry_next_step B s.w results k qk dk _ hcur hget
      refine ⟨_, q1, _, hstep, rfl, rfl, ?_, ?_⟩
      · rw [min_eq_left (by omega)]
        exact hc1
      · intro _ _
        exact ⟨rfl, _, nm, by simp, rfl⟩
    · rw [min_eq_right (by omega)] at hcur
      have hend := bt_inquiry_next_exhausted B s.w results qk dk hcur
      refine ⟨_, qk, dk, hend, rfl, rfl, ?_, ?_⟩
      · rw [min_eq_right (by omega)]
        exact hcur
      · intro _ h
        omega

theorem bt_inquiry_begin_cursor {σ : Type} (B : backend σ) (w : world σ) (q0 q : bt_inquiry_t)
    (cached : Int) (results : List inquiry_info)
    (hb : (bt_inquiry_begin B w (some q0) cached).err = BT_SUCCESS)
    (hq : (bt_inquiry_begin B w (some q0) cached).inquiry = some q)
    (hscan : q.dev.info = heap_ptr.live results ∧ q.dev.count = (results.length : Int)) :
    device_cursor results 0 q := by
  simp only [bt_inquiry_begin] at hb hq
  split_ifs at hb hq <;>
    first
    | exact absurd hb (by decide)
    | (simp only [Option.some.injEq] at hq
       subst hq
       exact ⟨rfl, hscan.1, rfl, by simpa using hscan.2, _, rfl⟩)

theorem bt_services_next_step {σ : Type} (B : backend σ) (w : world σ) (r : sdp_record)
    (rs : List sdp_record) (q : bt_inquiry_t) (sv : bt_service_t)
    (hc : service_cursor (r :: rs) q) :
    ∃ q1 sv1, bt_services_next B w (some q) (some sv) = some ⟨BT_SUCCESS, some q1, some sv1, w⟩ ∧
      service_cursor rs q1 ∧
      sv1.name = r.service_name.getD "<no name>" ∧
      sv1.description = r.service_desc.getD "<no description>" ∧
      (r.get_access_protos = 0 → sv1.port = (r.proto_port : Int)) ∧
      (∀ u, r.service_classes = some u → sv1.uuid = bt_uuidt_to_uuid u sv.uuid) := by
  obtain ⟨ht, hs, hr, ⟨nm, hn⟩, ⟨ds, hd⟩⟩ := hc
  simp only [bt_services_next, ht, ne_eq, not_true_eq_false, if_false, hs, hr, hn, hd]
  refine ⟨_, _, rfl, ⟨rfl, hs, rfl, ⟨_, rfl⟩, ⟨_, rfl⟩⟩, rfl, rfl, ?_, ?_⟩
  · intro h
    simp [h]
  · intro u hu
    simp [hu]

theorem bt_services_next_exhausted {σ : Type} (B : backend σ) (w : world σ) (q : bt_inquiry_t)
    (sv : bt_service_t) (hc : service_cursor [] q) :
    bt_services_next B w (some q) (some sv) = some ⟨BT_ERR_END_OF_ENUM, some q, some sv, w⟩ := by
  obtain ⟨ht, hs, hr, _, _⟩ := hc
  simp [bt_services_next, ht, hs, hr]

theorem bt_services_next_iter {σ : Type} (B : backend σ) (w : world σ) (rs : List sdp_record)
    (q : bt_inquiry_t) (sv : bt_service_t) (e : bt_err_t) (hc : service_cursor rs q) :
    ∀ k, ∃ s qk svk, next_iter (bt_services_next B) k ⟨e, some q, some sv, w⟩ = some s ∧
      s.inquiry = some qk ∧ s.record = some svk ∧ s.w = w ∧
      service_cursor (rs.drop k) qk ∧
      (0 < k → k ≤ rs.length → s.err = BT_SUCCESS ∧
        ∃ r, rs.get? (k - 1) = some r ∧
          svk.name = r.service_name.getD "<no name>" ∧
          svk.description = r.service_desc.getD "<no description>" ∧
          (r.get_access_protos = 0 → svk.port = (r.proto_port : Int))) := by
  intro k
  induction k with
  | zero =>
    refine ⟨_, q, sv, rfl, rfl, rfl, rfl, by simpa using hc, ?_⟩
    intro h
    omega
  | succ k ih =>
    obtain ⟨s, qk, svk, hs, hq, hd, hw, hcur, _⟩ := ih
    simp only [next_iter, hs, hq, hd]
    by_cases hlt : k < rs.length
    · have hdrop : rs.drop k = rs.get ⟨k, hlt⟩ :: rs.drop (k + 1) := List.drop_eq_getElem_cons hlt
      rw [hdrop] at hcur
      obtain ⟨q1, sv1, hstep, hc1, hname, hdesc, hport, _⟩ :=
        bt_services_next_step B s.w _ _ qk svk hcur
      refine ⟨_, q1, sv1, hstep, rfl, rfl, hw, hc1, ?_⟩
      intro _ _
      exact ⟨rfl, _, by simp, hname, hdesc, hport⟩
    · have hnil : rs.drop k = [] := List.drop_eq_nil_of_le (by omega)
      have hnil1 : rs.drop (k + 1) = [] := List.drop_eq_nil_of_le (by omega)
      rw [hnil] at hcur
      have hend := bt_services_next_exhausted B s.w qk svk hcur
      refine ⟨_, qk, svk, hend, rfl, rfl, hw, ?_, ?_⟩
      · rw [hnil1]
        exact hcur
      · intro _ h
        omega

theorem bt_services_begin_cursor {σ : Type} (B : backend σ)
    (str_to_uuid : String → Option bt_uuid_t) (temp : bt_uuid_t) (w : world σ)
    (q0 q : bt_inquiry_t) (address : bt_addr_t) (service_class : Option bt_uuid_t) (cached : Int)
    (hb : (bt_services_begin B str_to_uuid temp w (some q0) (some address) service_class
      cached).err = BT_SUCCESS)
    (hq : (bt_services_begin B str_to_uuid temp w (some q0) (some address) service_class
      cached).inquiry = some q) :
    service_cursor q.sdp.response q := by
  simp only [bt_services_begin] at hb hq
  split at hb
  · simp at hb
  · rename_i session hsess
    simp only [hsess] at hq
    split_ifs at hb hq
    simp only [Option.some.injEq] at hq
    subst hq
    exact ⟨rfl, by simp, rfl, ⟨_, rfl⟩, ⟨_, rfl⟩⟩

/-- C11: after a successful `bt_inquiry_begin` whose scan returned the `n`
results `results`, call `k + 1` of `bt_inquiry_next` (for `k < n`) returns
`BT_SUCCESS` and yields result `k`: its address bytes and the class of device
`dev_class[0] << 16 | dev_class[1] << 8 | dev_class[2]`; every call after the
first `n` returns `BT_ERR_END_OF_ENUM` and leaves session, output record and
backend as they were (with `n = 0` already the first call).  The same holds
for `bt_services_next` over the response list of a successful
`bt_services_begin`: record `k` gives the name, description and port of call
`k + 1`, and every later call returns `BT_ERR_END_OF_ENUM`. -/
theorem next_enumerates_in_order {σ : Type} (B : backend σ) (w w1 w2 w3 : world σ)
    (q0 q p0 p : bt_inquiry_t) (cached : Int) (results : List inquiry_info) (d0 : bt_device_t)
    (str_to_uuid : String → Option bt_uuid_t) (temp : bt_uuid_t) (address : bt_addr_t)
    (service_class : Option bt_uuid_t) (sv0 : bt_service_t)
    (hb : (bt_inquiry_begin B w (some q0) cached).err = BT_SUCCESS)
    (hq : (bt_inquiry_begin B w (some q0) cached).inquiry = some q)
    (hscan : q.dev.info = heap_ptr.live results ∧ q.dev.count = (results.length : Int))
    (hsb : (bt_services_begin B str_to_uuid temp w2 (some p0) (some address) service_class
      cached).err = BT_SUCCESS)
    (hsq : (bt_services_begin B str_to_uuid temp w2 (some p0) (some address) service_class
      cached).inquiry = some p) :
    (∀ k, k < results.length →
      ∃ s info nm, next_iter (bt_inquiry_next B) (k + 1) ⟨BT_SUCCESS, some q, some d0, w1⟩ = some s ∧
        s.err = BT_SUCCESS ∧ results.get? k = some info ∧
        s.record = some ⟨info.bdaddr, nm, class_of_device info⟩) ∧
    (∀ k, results.length ≤ k →
      ∃ s, next_iter (bt_inquiry_next B) k ⟨BT_SUCCESS, some q, some d0, w1⟩ = some s ∧
        bt_inquiry_next B s.w s.inquiry s.record =
          some ⟨BT_ERR_END_OF_ENUM, s.inquiry, s.record, s.w⟩) ∧
    (∀ k, k < p.sdp.response.length →
      ∃ s r svk, next_iter (bt_services_next B) (k + 1) ⟨BT_SUCCESS, some p, some sv0, w3⟩ = some s ∧
        s.err = BT_SUCCESS ∧ p.sdp.response.get? k = some r ∧ s.record = some svk ∧
        svk.name = r.service_name.getD "<no name>" ∧
        svk.description = r.service_desc.getD "<no description>" ∧
        (r.get_access_protos = 0 → svk.port = (r.proto_port : Int))) ∧
    (∀ k, p.sdp.response.length ≤ k →
      ∃ s, next_iter (bt_services_next B) k ⟨BT_SUCCESS, some p, some sv0, w3⟩ = some s ∧
        bt_services_next B s.w s.inquiry s.record =
          some ⟨BT_ERR_END_OF_ENUM, s.inquiry, s.record, s.w⟩) := by
  have hc := bt_inquiry_begin_cursor B w q0 q cached results hb hq hscan
  have hsc := bt_services_begin_cursor B str_to_uuid temp w2 p0 p address service_class cached
    hsb hsq
  refine ⟨?_, ?_, ?_, ?_⟩
  · intro k hk
    obtain ⟨s, qk, dk, hs, _, hd, _, hres⟩ :=
      bt_inquiry_next_iter B w1 results q d0 BT_SUCCESS hc (k + 1)
    obtain ⟨herr, info, nm, hget, hdk⟩ := hres (by omega) (by omega)
    exact ⟨s, info, nm, hs, herr, by simpa using hget, by rw [hd, hdk]⟩
  · intro k hk
    obtain ⟨s, qk, dk, hs, hqk, hd, hcur, _⟩ :=
      bt_inquiry_next_iter B w1 results q d0 BT_SUCCESS hc k
    rw [min_eq_right hk] at hcur
    refine ⟨s, hs, ?_⟩
    rw [hqk, hd]
    exact bt_inquiry_next_exhausted B s.w results qk dk hcur
  · intro k hk
    obtain ⟨s, qk, svk, hs, _, hd, _, _, hres⟩ :=
      bt_services_next_iter B w3 p.sdp.response p sv0 BT_SUCCESS hsc (k + 1)
    obtain ⟨herr, r, hget, hrest⟩ := hres (by omega) (by omega)
    exact ⟨s, r, svk, hs, herr, by simpa using hget, hd, hrest⟩
  · intro k hk
    obtain ⟨s, qk, svk, hs, hqk, hd, _, hcur, _⟩ :=
      bt_services_next_iter B w3 p.sdp.response p sv0 BT_SUCCESS hsc k
    rw [List.drop_eq_nil_of_le hk] at hcur
    refine ⟨s, hs, ?_⟩
    rw [hqk, hd]
    exact bt_services_next_exhausted B s.w qk svk hcur

/-- Witness for C11: the scan of `test_bt_inquiry` (two devices) and a service
search answered with two records. -/
theorem next_enumerates_in_order_witness :
    (∀ k, k < test_scan.length →
      ∃ s info nm, next_iter (bt_inquiry_next (scanning test_scan two_records)) (k + 1)
          ⟨BT_SUCCESS, some test_device_session, some blank_device, ⟨(), []⟩⟩ = some s ∧
        s.err = BT_SUCCESS ∧ test_scan.get? k = some info ∧
        s.record = some ⟨info.bdaddr, nm, class_of_device info⟩) ∧
    (∀ k, test_scan.length ≤ k →
      ∃ s, next_iter (bt_inquiry_next (scanning test_scan two_records)) k
          ⟨BT_SUCCESS, some test_device_session, some blank_device, ⟨(), []⟩⟩ = some s ∧
        bt_inquiry_next (scanning test_scan two_records) s.w s.inquiry s.record =
          some ⟨BT_ERR_END_OF_ENUM, s.inquiry, s.record, s.w⟩) ∧
    (∀ k, k < test_service_session.sdp.response.length →
      ∃ s r svk, next_iter (bt_services_next (scanning test_scan two_records)) (k + 1)
          ⟨BT_SUCCESS, some test_service_session, some blank_service, ⟨(), []⟩⟩ = some s ∧
        s.err = BT_SUCCESS ∧ test_service_session.sdp.response.get? k = some r ∧
        s.record = some svk ∧
        svk.name = r.service_name.getD "<no name>" ∧
        svk.description = r.service_desc.getD "<no description>" ∧
        (r.get_access_protos = 0 → svk.port = (r.proto_port : Int))) ∧
    (∀ k, test_service_session.sdp.response.length ≤ k →
      ∃ s, next_iter (bt_services_next (scanning test_scan two_records)) k
          ⟨BT_SUCCESS, some test_service_session, some blank_service, ⟨(), []⟩⟩ = some s ∧
        bt_services_next (scanning test_scan two_records) s.w s.inquiry s.record =
          some ⟨BT_ERR_END_OF_ENUM, s.inquiry, s.record, s.w⟩) :=
  next_enumerates_in_order (scanning test_scan two_records) ⟨(), []⟩ ⟨(), []⟩ ⟨(), []⟩ ⟨(), []⟩
    blank_inquiry test_device_session blank_inquiry test_service_session 0 test_scan blank_device
    (fun _ => none) [] test_address (some test_service) blank_service
    (by decide) (by decide) (by decide) (by decide) (by decide)

theorem address_format_items :
    parse_format BT_ADDRESS_FORMAT.length BT_ADDRESS_FORMAT.toList =
      [fmt_item.hex ['0', '2'] false, fmt_item.lit ':', fmt_item.hex ['0', '2'] false,
        fmt_item.lit ':', fmt_item.hex ['0', '2'] false, fmt_item.lit ':',
        fmt_item.hex ['0', '2'] false, fmt_item.lit ':', fmt_item.hex ['0', '2'] false,
        fmt_item.lit ':', fmt_item.hex ['0', '2'] false] := by
  decide

theorem scan_two_lower (a b : Char) (ha : a ∈ lower_hex) (hb : b ∈ lower_hex) (rest : List Char) :
    scan_hex (decimal_value ['0', '2']) (a :: b :: rest) =
      scan_step.assigned (16 * (hex_value a).getD 0 + (hex_value b).getD 0) rest := by
  simp only [lower_hex, List.mem_cons, List.mem_singleton, List.not_mem_nil, or_false] at ha hb
  rcases ha with rfl | rfl | rfl | rfl | rfl | rfl | rfl | rfl | rfl | rfl | rfl | rfl | rfl |
    rfl | rfl | rfl <;>
  rcases hb with rfl | rfl | rfl | rfl | rfl | rfl | rfl | rfl | rfl | rfl | rfl | rfl | rfl |
    rfl | rfl | rfl <;> rfl

theorem print_two_lower (a b : Char) (ha : a ∈ lower_hex) (hb : b ∈ lower_hex) :
    print_hex ['0', '2'] false ((16 * (hex_value a).getD 0 + (hex_value b).getD 0) % 256) =
      [a, b] := by
  simp only [lower_hex, List.mem_cons, List.mem_singleton, List.not_mem_nil, or_false] at ha hb
  rcases ha with rfl | rfl | rfl | rfl | rfl | rfl | rfl | rfl | rfl | rfl | rfl | rfl | rfl |
    rfl | rfl | rfl <;>
  rcases hb with rfl | rfl | rfl | rfl | rfl | rfl | rfl | rfl | rfl | rfl | rfl | rfl | rfl |
    rfl | rfl | rfl <;> rfl

/-- C19: for every string of the form hh:hh:hh:hh:hh:hh with lowercase
hexadecimal digits, `bt_str_to_addr` returns `BT_SUCCESS`, whatever the output
address held before, and `bt_addr_to_str` of the address it stored gives the
string back. -/
theorem bt_str_to_addr_round_trip (c : Fin 12 → Char) (addr : bt_addr_t)
    (h : ∀ i, c i ∈ lower_hex) :
    (bt_str_to_addr (address_text c) addr).1 = BT_SUCCESS ∧
      bt_addr_to_str (bt_str_to_addr (address_text c) addr).2 = address_text c := by
  have hparse : bt_str_to_addr (address_text c) addr = (BT_SUCCESS,
      [(16 * (hex_value (c 10)).getD 0 + (hex_value (c 11)).getD 0) % 256,
        (16 * (hex_value (c 8)).getD 0 + (hex_value (c 9)).getD 0) % 256,
        (16 * (hex_value (c 6)).getD 0 + (hex_value (c 7)).getD 0) % 256,
        (16 * (hex_value (c 4)).getD 0 + (hex_value (c 5)).getD 0) % 256,
        (16 * (hex_value (c 2)).getD 0 + (hex_value (c 3)).getD 0) % 256,
        (16 * (hex_value (c 0)).getD 0 + (hex_value (c 1)).getD 0) % 256]) := by
    simp only [bt_str_to_addr, sscanf, address_format_items, address_text]
    simp only [sscanf_items,
      scan_two_lower (c 0) (c 1) (h 0) (h 1), scan_two_lower (c 2) (c 3) (h 2) (h 3),
      scan_two_lower (c 4) (c 5) (h 4) (h 5), scan_two_lower (c 6) (c 7) (h 6) (h 7),
      scan_two_lower (c 8) (c 9) (h 8) (h 9), scan_two_lower (c 10) (c 11) (h 10) (h 11)]
    simp
  rw [hparse]
  refine ⟨rfl, ?_⟩
  simp only [bt_addr_to_str, sprintf, address_format_items]
  simp only [sprintf_items, List.getD_cons_zero,
    List.getD_cons_succ, print_two_lower (c 0) (c 1) (h 0) (h 1),
    print_two_lower (c 2) (c 3) (h 2) (h 3), print_two_lower (c 4) (c 5) (h 4) (h 5),
    print_two_lower (c 6) (c 7) (h 6) (h 7), print_two_lower (c 8) (c 9) (h 8) (h 9),
    print_two_lower (c 10) (c 11) (h 10) (h 11), address_text]
  simp

/-- Witness for C19: the string "01:23:45:67:89:ab" of the address tests. -/
theorem bt_str_to_addr_round_trip_witness :
    address_text test_address_chars = "01:23:45:67:89:ab".toList ∧
    (∀ i, test_address_chars i ∈ lower_hex) ∧
    (bt_str_to_addr (address_text test_address_chars) []).1 = BT_SUCCESS ∧
    bt_addr_to_str (bt_str_to_addr (address_text test_address_chars) []).2 =
      address_text test_address_chars :=
  ⟨by decide, by decide, bt_str_to_addr_round_trip test_address_chars [] (by decide)⟩

/-- C13: whenever the SDP session to the target device opens,
`bt_services_begin` called with a NULL service class issues the service search
with the 128-bit UUID of bytes 00 00 10 02 00 00 10 00 80 00 00 80 5f 9b 34 fb,
whose text form is 00001002-0000-1000-8000-00805f9b34fb, and called with a
filter it issues the search with exactly the caller's bytes. -/
theorem bt_services_begin_search_uuid {σ : Type} (B : backend σ) (w : world σ)
    (q : bt_inquiry_t) (device : bt_addr_t) (temp : bt_uuid_t) (cached : Int) :
    (∀ session, (B.sdp_connect w.st (bt_addr_to_bdaddr device)).1 = some session →
      ∃ tail, (bt_services_begin B str_to_uuid_model temp w (some q) (some device) none
          cached).w.log =
        w.log ++ [sys_call.sdp_connect (bt_addr_to_bdaddr device),
          sys_call.sdp_service_search_attr_req session (uuid_t.uuid128 public_browse_group)]
          ++ tail) ∧
    (∀ session u, (B.sdp_connect w.st (bt_addr_to_bdaddr device)).1 = some session →
      ∃ tail, (bt_services_begin B str_to_uuid_model temp w (some q) (some device) (some u)
          cached).w.log =
        w.log ++ [sys_call.sdp_connect (bt_addr_to_bdaddr device),
          sys_call.sdp_service_search_attr_req session (uuid_t.uuid128 u)] ++ tail) ∧
    bt_uuid_to_str public_browse_group = "00001002-0000-1000-8000-00805f9b34fb".toList := by
  have hpub : str_to_uuid_model "00001002-0000-1000-8000-00805f9b34fb" =
      some public_browse_group := by decide
  refine ⟨?_, ?_, by decide⟩
  · intro session hs
    simp only [bt_services_begin, hs, hpub, bt_uuid_to_uuid]
    split_ifs
    · exact ⟨[sys_call.sdp_close session], by simp⟩
    · exact ⟨[], by simp⟩
  · intro session u hs
    simp only [bt_services_begin, hs, bt_uuid_to_uuid]
    split_ifs
    · exact ⟨[sys_call.sdp_close session], by simp⟩
    · exact ⟨[], by simp⟩

/-- C20: strings that are not six two-digit groups separated by colons and yet
make `bt_str_to_addr` return `BT_SUCCESS`: a seventh group (20 characters),
one-digit groups (11 characters), a leading blank (18 characters), and a
non-hexadecimal character in the last digit position (17 characters).  The
malformed strings of the tests are rejected, and whenever the function rejects
a string the output address is left as it was. -/
theorem bt_str_to_addr_accepts_malformed :
    bt_str_to_addr "00:11:22:33:44:55:66".toList [1, 2, 3, 4, 5, 6] =
      (BT_SUCCESS, [0x55, 0x44, 0x33, 0x22, 0x11, 0x00]) ∧
    bt_str_to_addr "1:2:3:4:5:6".toList [1, 2, 3, 4, 5, 6] =
      (BT_SUCCESS, [0x06, 0x05, 0x04, 0x03, 0x02, 0x01]) ∧
    bt_str_to_addr " 00:11:22:33:44:55".toList [1, 2, 3, 4, 5, 6] =
      (BT_SUCCESS, [0x55, 0x44, 0x33, 0x22, 0x11, 0x00]) ∧
    bt_str_to_addr "00:11:22:33:44:5g".toList [1, 2, 3, 4, 5, 6] =
      (BT_SUCCESS, [0x05, 0x44, 0x33, 0x22, 0x11, 0x00]) ∧
    bt_str_to_addr "gibberish".toList [1, 2, 3, 4, 5, 6] =
      (BT_ERR_BAD_PARAM, [1, 2, 3, 4, 5, 6]) ∧
    bt_str_to_addr "0123456789ab".toList [1, 2, 3, 4, 5, 6] =
      (BT_ERR_BAD_PARAM, [1, 2, 3, 4, 5, 6]) ∧
    bt_str_to_addr "he:ll:o :wo:rl:d!".toList [1, 2, 3, 4, 5, 6] =
      (BT_ERR_BAD_PARAM, [1, 2, 3, 4, 5, 6]) ∧
    (∀ str addr, (bt_str_to_addr str addr).1 = BT_SUCCESS ∨
      bt_str_to_addr str addr = (BT_ERR_BAD_PARAM, addr)) := by
  refine ⟨by decide, by decide, by decide, by decide, by decide, by decide, by decide, ?_⟩
  intro str addr
  simp only [bt_str_to_addr]
  split_ifs
  · exact Or.inr rfl
  · exact Or.inl rfl

/-! ### SDP record decoder -/

theorem read_inv (fuel d0 : Nat) (tl : List Nat) (r : bt_err_t) (e : bt_sdp_element_t)
    (h : bt_sdp_read_data_element (fuel + 1) (d0 :: tl) = some (r, e)) :
    e.type = (d0 >>> 3) % 256 ∧ e.sizeDesc = d0 &&& 7 ∧
      (e.type = BT_SDP_DATA_ELEMENT_NIL → e.size = 0 ∧ e.recordSize = 1 ∧ e.seq = []) ∧
      (e.type ≠ BT_SDP_DATA_ELEMENT_NIL → ∃ k rest,
        read_size e.sizeDesc tl = some (e.size, k, rest) ∧
        e.recordSize = (k + e.size) % UINT32_MOD ∧
        ((e.type = BT_SDP_DATA_ELEMENT_SEQ ∨ e.type = BT_SDP_DATA_ELEMENT_ALT) →
          bt_sdp_read_sequence fuel rest 0 e.size = some (r, e.seq)) ∧
        (¬(e.type = BT_SDP_DATA_ELEMENT_SEQ ∨ e.type = BT_SDP_DATA_ELEMENT_ALT) →
          e.seq = [] ∧ (r = BT_SUCCESS → e.size ≤ rest.length))) := by
  simp only [bt_sdp_read_data_element] at h
  split at h
  · exact absurd h (by simp)
  · rename_i size recordSize data hh
    by_cases hN : (d0 >>> 3) % 256 = BT_SDP_DATA_ELEMENT_NIL
    · rw [if_pos hN] at h
      rw [if_neg (by simpa using hN)] at hh
      simp only [Option.some.injEq, Prod.mk.injEq] at hh
      obtain ⟨rfl, rfl, rfl⟩ := hh
      split_ifs at h
      all_goals
        simp only [Option.some.injEq, Prod.mk.injEq] at h
        obtain ⟨_, rfl⟩ := h
        exact ⟨rfl, rfl, fun _ => ⟨rfl, rfl, rfl⟩, fun hn => absurd hN hn⟩
    · rw [if_neg hN] at h
      rw [if_pos hN] at hh
      split at hh
      · rename_i s k rest hrs
        simp only [Option.some.injEq, Prod.mk.injEq] at hh
        obtain ⟨rfl, rfl, rfl⟩ := hh
        by_cases hS : (d0 >>> 3) % 256 = BT_SDP_DATA_ELEMENT_SEQ ∨
            (d0 >>> 3) % 256 = BT_SDP_DATA_ELEMENT_ALT
        · have h1 : ¬((d0 >>> 3) % 256 = BT_SDP_DATA_ELEMENT_UINT ∨
              (d0 >>> 3) % 256 = BT_SDP_DATA_ELEMENT_INT) := by
            rcases hS with hS | hS <;> rw [hS] <;> decide
          have h2 : ¬((d0 >>> 3) % 256 = BT_SDP_DATA_ELEMENT_UUID) := by
            rcases hS with hS | hS <;> rw [hS] <;> decide
          have h3 : ¬((d0 >>> 3) % 256 = BT_SDP_DATA_ELEMENT_TEXT ∨
              (d0 >>> 3) % 256 = BT_SDP_DATA_ELEMENT_URL) := by
            rcases hS with hS | hS <;> rw [hS] <;> decide
          have h4 : ¬((d0 >>> 3) % 256 = BT_SDP_DATA_ELEMENT_BOOL) := by
            rcases hS with hS | hS <;> rw [hS] <;> decide
          rw [if_neg h1, if_neg h2, if_neg h3, if_neg h4, if_pos hS] at h
          split at h
          · exact absurd h (by simp)
          · rename_i res seq hseq
            simp only [Option.some.injEq, Prod.mk.injEq] at h
            obtain ⟨rfl, rfl⟩ := h
            exact ⟨rfl, rfl, fun hn => absurd hn hN,
              fun _ => ⟨_, _, hrs, rfl, fun _ => hseq, fun hc => absurd hS hc⟩⟩
        · have hmem : ∀ b, memcpy_value zero_value rest s = some b → s ≤ rest.length := by
            intro b hb
            unfold memcpy_value at hb
            by_contra hc
            rw [if_neg hc] at hb
            exact absurd hb (by simp)
          have hbool : d0 &&& 7 = 0 → s = 1 := by
            intro h0
            rw [h0] at hrs
            simp only [read_size, Nat.lt_add_one, Nat.zero_lt_succ, if_true, Option.some.injEq,
              Prod.mk.injEq] at hrs
            exact hrs.1.symm
          split_ifs at h
          all_goals first
            | (simp only [Option.some.injEq, Prod.mk.injEq] at h
               obtain ⟨rfl, rfl⟩ := h
               exact ⟨rfl, rfl, fun hn => absurd hn hN,
                 fun _ => ⟨_, _, hrs, rfl, fun hc => absurd hc hS,
                   fun _ => ⟨rfl, fun hc => by
                     first
                       | exact absurd hc (by decide)
                       | exact (show s ≤ rest.length by omega)⟩⟩⟩)
            | (split at h
               · exact absurd h (by simp)
               · simp only [Option.some.injEq, Prod.mk.injEq] at h
                 obtain ⟨rfl, rfl⟩ := h
                 exact ⟨rfl, rfl, fun hn => absurd hn hN,
                   fun _ => ⟨_, _, hrs, rfl, fun hc => absurd hc hS,
                     fun _ => ⟨rfl, fun _ => by
                       first
                         | exact hmem _ (by assumption)
                         | exact (show s ≤ (_ :: _).length by
                             have hs := hbool (by omega)
                             simp only [List.length_cons]
                             omega)⟩⟩⟩)
      · exact absurd hh (by simp)

theorem read_sequence_inv (fuel : Nat) (data : List Nat) (i size : Nat) (r : bt_err_t)
    (cs : List bt_sdp_element_t)
    (h : bt_sdp_read_sequence (fuel + 1) data i size = some (r, cs)) :
    ∃ r0 head, bt_sdp_read_data_element fuel data = some (r0, head) ∧
      ((r0 ≠ BT_SUCCESS ∧ r = r0 ∧ cs = [head]) ∨
       (r0 = BT_SUCCESS ∧ size ≤ (i + head.recordSize) % UINT32_MOD ∧ r = BT_SUCCESS ∧
          cs = [head]) ∨
       (r0 = BT_SUCCESS ∧ (i + head.recordSize) % UINT32_MOD < size ∧ ∃ tail,
          bt_sdp_read_sequence fuel (data.drop head.recordSize)
            ((i + head.recordSize) % UINT32_MOD) size = some (r, tail) ∧ cs = head :: tail)) := by
  simp only [bt_sdp_read_sequence] at h
  split at h
  · exact absurd h (by simp)
  · rename_i r0 head hhead
    refine ⟨r0, head, hhead, ?_⟩
    split_ifs at h with h1 h2
    · simp only [Option.some.injEq, Prod.mk.injEq] at h
      exact Or.inl ⟨h1, h.1.symm, h.2.symm⟩
    · simp only [Option.some.injEq, Prod.mk.injEq] at h
      exact Or.inr (Or.inl ⟨not_not.mp h1, h2, h.1.symm, h.2.symm⟩)
    · split at h
      · exact absurd h (by simp)
      · rename_i r1 tail htail
        simp only [Option.some.injEq, Prod.mk.injEq] at h
        exact Or.inr (Or.inr ⟨not_not.mp h1, by omega, tail, by rw [← h.1]; exact htail,
          h.2.symm⟩)


theorem read_size_some (sd : Nat) (data : List Nat) (size k : Nat) (rest : List Nat)
    (hsd : sd ≤ 7) (h : read_size sd data = some (size, k, rest)) :
    k = 1 + length_field_bytes sd ∧ data.length = length_field_bytes sd + rest.length ∧
      rest = data.drop (length_field_bytes sd) ∧
      (sd < 5 → size = 2 ^ sd) ∧
      (5 ≤ sd → (∀ b ∈ data, b < 256) →
        size = big_endian (data.take (length_field_bytes sd))) := by
  unfold read_size at h
  have hcases : sd < 5 ∨ sd = 5 ∨ sd = 6 ∨ sd = 7 := by omega
  rcases hcases with h5 | h5 | h5 | h5
  · rw [if_pos h5] at h
    simp only [Option.some.injEq, Prod.mk.injEq] at h
    obtain ⟨rfl, rfl, rfl⟩ := h
    have hl : length_field_bytes sd = 0 := by
      unfold length_field_bytes
      rw [if_neg (by omega), if_neg (by omega), if_neg (by omega)]
    refine ⟨by omega, by omega, by simp [hl], fun _ => Nat.one_shiftLeft sd, fun h => by omega⟩
  · subst h5
    match data, h with
    | d0 :: tl, h =>
      simp only [Nat.lt_irrefl, if_false, if_true, Option.some.injEq, Prod.mk.injEq] at h
      obtain ⟨rfl, rfl, rfl⟩ := h
      refine ⟨rfl, ?_, rfl, fun h => by omega, fun _ _ => ?_⟩
      · simp [length_field_bytes]; omega
      · simp [length_field_bytes, big_endian]
  · subst h5
    match data, h with
    | d0 :: d1 :: tl, h =>
      simp only [Option.some.injEq, Prod.mk.injEq] at h
      obtain ⟨rfl, rfl, rfl⟩ := h
      refine ⟨rfl, ?_, rfl, fun h => by omega, fun _ hb => ?_⟩
      · simp [length_field_bytes]; omega
      · have h1 : d1 < 2 ^ 8 := hb d1 (by simp)
        simp only [length_field_bytes, big_endian]
        simp only [Nat.shiftLeft_eq]
        rw [show d0 * 2 ^ 8 = 2 ^ 8 * d0 by ring, ← Nat.mul_add_lt_is_or h1]
        simp; ring
  · subst h5
    match data, h with
    | d0 :: d1 :: d2 :: d3 :: tl, h =>
      simp only [Option.some.injEq, Prod.mk.injEq] at h
      obtain ⟨rfl, rfl, rfl⟩ := h
      refine ⟨rfl, ?_, rfl, fun h => by omega, fun _ hb => ?_⟩
      · simp [length_field_bytes]; omega
      · have h1 : d1 < 2 ^ 8 := hb d1 (by simp)
        have h2 : d2 < 2 ^ 8 := hb d2 (by simp)
        have h3 : d3 < 2 ^ 8 := hb d3 (by simp)
        have e3 : (d0 * 2 ^ 16 + d1 * 2 ^ 8 + d2) * 2 ^ 8 + d3 =
            d0 <<< 24 ||| d1 <<< 16 ||| d2 <<< 8 ||| d3 := by
          simp only [Nat.shiftLeft_eq]
          have a1 : d0 * 2 ^ 24 ||| d1 * 2 ^ 16 = 2 ^ 16 * (d0 * 2 ^ 8 + d1) := by
            rw [show d0 * 2 ^ 24 = 2 ^ 24 * d0 by ring,
              ← Nat.mul_add_lt_is_or (show d1 * 2 ^ 16 < 2 ^ 24 by omega)]
            ring
          have a2 : 2 ^ 16 * (d0 * 2 ^ 8 + d1) ||| d2 * 2 ^ 8 =
              2 ^ 8 * (d0 * 2 ^ 16 + d1 * 2 ^ 8 + d2) := by
            rw [← Nat.mul_add_lt_is_or (show d2 * 2 ^ 8 < 2 ^ 16 by omega)]
            ring
          rw [a1, a2, ← Nat.mul_add_lt_is_or h3]
          ring
        simp only [length_field_bytes, big_endian]
        rw [← e3]
        simp; ring



theorem sdp_bounds (fuel : Nat) :
    (∀ data e, bt_sdp_read_data_element fuel data = some (BT_SUCCESS, e) →
      ∃ lf, (e.type = BT_SDP_DATA_ELEMENT_NIL → lf = 0 ∧ e.size = 0) ∧
        (e.type ≠ BT_SDP_DATA_ELEMENT_NIL → lf = length_field_bytes e.sizeDesc) ∧
        1 + lf + e.size ≤ data.length ∧ e.recordSize = (1 + lf + e.size) % UINT32_MOD) ∧
    (∀ data i size cs, bt_sdp_read_sequence fuel data i size = some (BT_SUCCESS, cs) →
      cs ≠ [] ∧ (record_sizes cs).sum ≤ data.length ∧ size ≤ i + (record_sizes cs).sum ∧
      (i + data.length < UINT32_MOD →
        cs.length = 1 ∨ i + (record_sizes cs.dropLast).sum < size)) := by
  induction fuel with
  | zero =>
    constructor
    · intro data e h
      simp [bt_sdp_read_data_element] at h
    · intro data i size cs h
      simp [bt_sdp_read_sequence] at h
  | succ fuel ih =>
    obtain ⟨ihP, ihQ⟩ := ih
    constructor
    · intro data e h
      match data, h with
      | [], h => simp [bt_sdp_read_data_element] at h
      | d0 :: tl, h =>
        obtain ⟨ht, hsd, hnil, hnon⟩ := read_inv fuel d0 tl _ e h
        by_cases hN : e.type = BT_SDP_DATA_ELEMENT_NIL
        · obtain ⟨h1, h2, _⟩ := hnil hN
          refine ⟨0, fun _ => ⟨rfl, h1⟩, fun hc => absurd hN hc, ?_, ?_⟩
          · simp only [List.length_cons]
            omega
          · rw [h1, h2]
            rfl
        · obtain ⟨k, rest, hrs, hrec, hseq, hflat⟩ := hnon hN
          have hle : e.sizeDesc ≤ 7 := by
            rw [hsd]
            exact Nat.and_le_right
          obtain ⟨hk, hlen, _, _, _⟩ := read_size_some _ _ _ _ _ hle hrs
          have hsize : e.size ≤ rest.length := by
            by_cases hS : e.type = BT_SDP_DATA_ELEMENT_SEQ ∨ e.type = BT_SDP_DATA_ELEMENT_ALT
            · obtain ⟨_, q1, q2, _⟩ := ihQ _ _ _ _ (hseq hS)
              omega
            · exact (hflat hS).2 rfl
          refine ⟨length_field_bytes e.sizeDesc, fun hc => absurd hc hN, fun _ => rfl, ?_, ?_⟩
          · simp only [List.length_cons]
            omega
          · rw [hrec, hk]
    · intro data i size cs h
      obtain ⟨r0, head, hhead, hcase⟩ := read_sequence_inv fuel data i size _ cs h
      rcases hcase with ⟨h1, h2, _⟩ | ⟨h1, h2, _, h3⟩ | ⟨h1, h2, tail, h3, h4⟩
      · exact absurd h2.symm h1
      · subst h1 h3
        obtain ⟨lf, _, _, p1, p2⟩ := ihP _ _ hhead
        have hr : head.recordSize ≤ data.length := by
          rw [p2]
          exact le_trans (Nat.mod_le _ _) p1
        have hm : (i + head.recordSize) % UINT32_MOD ≤ i + head.recordSize := Nat.mod_le _ _
        refine ⟨by simp, ?_, ?_, fun _ => Or.inl rfl⟩
        · simpa [record_sizes] using hr
        · simp only [record_sizes, List.map_cons, List.map_nil, List.sum_cons, List.sum_nil]
          omega
      · subst h1 h4
        obtain ⟨lf, _, _, p1, p2⟩ := ihP _ _ hhead
        have hr : head.recordSize ≤ data.length := by
          rw [p2]
          exact le_trans (Nat.mod_le _ _) p1
        have hm : (i + head.recordSize) % UINT32_MOD ≤ i + head.recordSize := Nat.mod_le _ _
        obtain ⟨q0, q1, q2, q3⟩ := ihQ _ _ _ _ h3
        rw [List.length_drop] at q1 q3
        refine ⟨by simp, ?_, ?_, fun hlt => Or.inr ?_⟩
        · simp only [record_sizes, List.map_cons, List.sum_cons] at q1 ⊢
          omega
        · simp only [record_sizes, List.map_cons, List.sum_cons] at q2 ⊢
          omega
        · have hi : (i + head.recordSize) % UINT32_MOD = i + head.recordSize :=
            Nat.mod_eq_of_lt (by omega)
          rw [hi] at q3 h2
          rw [List.dropLast_cons_of_ne_nil q0]
          simp only [record_sizes, List.map_cons, List.sum_cons] at q3 ⊢
          rcases q3 (by omega) with q | q
          · match tail, q with
            | [t], _ => simpa using h2
          · omega

theorem sdp_error_kind (fuel : Nat) :
    (∀ data r e, bt_sdp_read_data_element fuel data = some (r, e) →
      r = BT_SUCCESS ∨ r = BT_ERR_SDP_BAD_RECORD) ∧
    (∀ data i size r cs, bt_sdp_read_sequence fuel data i size = some (r, cs) →
      r = BT_SUCCESS ∨ r = BT_ERR_SDP_BAD_RECORD) := by
  induction fuel with
  | zero =>
    constructor
    · intro data r e h
      simp [bt_sdp_read_data_element] at h
    · intro data i size r cs h
      simp [bt_sdp_read_sequence] at h
  | succ fuel ih =>
    obtain ⟨ihP, ihQ⟩ := ih
    constructor
    · intro data r e h
      match data, h with
      | [], h => simp [bt_sdp_read_data_element] at h
      | d0 :: tl, h =>
        simp only [bt_sdp_read_data_element] at h
        split at h
        · exact absurd h (by simp)
        · split_ifs at h
          all_goals first
            | (simp only [Option.some.injEq, Prod.mk.injEq] at h
               obtain ⟨rfl, _⟩ := h
               first
                 | exact Or.inl rfl
                 | exact Or.inr rfl)
            | (split at h
               · exact absurd h (by simp)
               · simp only [Option.some.injEq, Prod.mk.injEq] at h
                 obtain ⟨rfl, _⟩ := h
                 first
                   | exact Or.inl rfl
                   | exact ihQ _ _ _ _ _ (by assumption))
    · intro data i size r cs h
      obtain ⟨r0, head, hhead, hcase⟩ := read_sequence_inv fuel data i size _ cs h
      rcases hcase with ⟨_, h2, _⟩ | ⟨_, _, h2, _⟩ | ⟨_, _, tail, h3, _⟩
      · rw [h2]
        exact ihP _ _ _ hhead
      · exact Or.inl h2
      · exact ihQ _ _ _ _ _ h3

theorem little_endian_reverse (p : List Nat) : little_endian p.reverse = big_endian p := by
  unfold little_endian big_endian
  rw [List.foldr_reverse]
  congr 1
  funext acc b
  omega

/-- C14: on every buffer shorter than 2^32 bytes on which `bt_sdp_read_data_element`
succeeds, `recordSize` is exactly 1 for a Nil element (no payload), and otherwise 1 plus
the number of length-field bytes plus `size`, where `size` is `2 ^ sizeDesc` with no
length field for `sizeDesc` 0..4 and the big-endian value of the 1, 2 or 4 bytes after
the header byte for `sizeDesc` 5, 6, 7; the whole element lies within the buffer. -/
theorem record_size_is_header_plus_payload (fuel : Nat) (data : List Nat)
    (e : bt_sdp_element_t) (hlen : data.length < UINT32_MOD) (hbytes : ∀ b ∈ data, b < 256)
    (h : bt_sdp_read_data_element fuel data = some (BT_SUCCESS, e)) :
    e.recordSize ≤ data.length ∧ e.sizeDesc ≤ 7 ∧
    data.head? = some (8 * e.type + e.sizeDesc) ∧
    (e.type = BT_SDP_DATA_ELEMENT_NIL → e.recordSize = 1 ∧ e.size = 0) ∧
    (e.type ≠ BT_SDP_DATA_ELEMENT_NIL →
      (e.sizeDesc < 5 → e.size = 2 ^ e.sizeDesc ∧ e.recordSize = 1 + 0 + e.size) ∧
      (e.sizeDesc = 5 → e.size = big_endian ((data.drop 1).take 1) ∧
        e.recordSize = 1 + 1 + e.size) ∧
      (e.sizeDesc = 6 → e.size = big_endian ((data.drop 1).take 2) ∧
        e.recordSize = 1 + 2 + e.size) ∧
      (e.sizeDesc = 7 → e.size = big_endian ((data.drop 1).take 4) ∧
        e.recordSize = 1 + 4 + e.size)) := by
  obtain ⟨lf, b1, b2, b3, b4⟩ := (sdp_bounds fuel).1 _ _ h
  have hexact : e.recordSize = 1 + lf + e.size := by
    rw [b4]
    exact Nat.mod_eq_of_lt (by omega)
  match fuel, data, h with
  | 0, _, h => simp [bt_sdp_read_data_element] at h
  | _ + 1, [], h => simp [bt_sdp_read_data_element] at h
  | fuel + 1, d0 :: tl, h =>
    obtain ⟨ht, hsd, hnil, hnon⟩ := read_inv fuel d0 tl _ e h
    have hd0 : d0 < 256 := hbytes d0 (by simp)
    have hle : e.sizeDesc ≤ 7 := by
      rw [hsd]
      exact Nat.and_le_right
    have hhead : d0 = 8 * e.type + e.sizeDesc := by
      rw [ht, hsd, Nat.shiftRight_eq_div_pow, Nat.and_pow_two_sub_one_eq_mod d0 3]
      omega
    refine ⟨by omega, hle, by rw [List.head?_cons, ← hhead], fun hN => ?_, fun hN => ?_⟩
    · obtain ⟨l0, s0⟩ := b1 hN
      omega
    · have hlf := b2 hN
      obtain ⟨k, rest, hrs, _, _, _⟩ := hnon hN
      obtain ⟨_, _, _, r4, r5⟩ := read_size_some _ _ _ _ _ hle hrs
      have hb : ∀ b ∈ tl, b < 256 := fun b hb => hbytes b (List.mem_cons_of_mem _ hb)
      simp only [List.drop_succ_cons, List.drop_zero]
      refine ⟨fun h5 => ?_, fun h5 => ?_, fun h5 => ?_, fun h5 => ?_⟩
      · have : lf = 0 := by
          rw [hlf]
          unfold length_field_bytes
          rw [if_neg (by omega), if_neg (by omega), if_neg (by omega)]
        exact ⟨r4 h5, by omega⟩
      · have h6 := r5 (by omega) hb
        rw [h5] at hlf h6
        exact ⟨h6, by rw [hexact, hlf]; rfl⟩
      · have h6 := r5 (by omega) hb
        rw [h5] at hlf h6
        exact ⟨h6, by rw [hexact, hlf]; rfl⟩
      · have h6 := r5 (by omega) hb
        rw [h5] at hlf h6
        exact ⟨h6, by rw [hexact, hlf]; rfl⟩


/-- Witness for C14: the sequence 35 04 08 ab 08 cd, whose one-byte length field holds 4. -/
theorem record_size_is_header_plus_payload_witness :
    bt_sdp_read_data_element 4 [0x35, 0x04, 0x08, 0xab, 0x08, 0xcd] =
      some (BT_SUCCESS, test_sequence) ∧
    test_sequence.size = big_endian [0x04] ∧
    test_sequence.recordSize = 1 + 1 + test_sequence.size :=
  have h := record_size_is_header_plus_payload 4 [0x35, 0x04, 0x08, 0xab, 0x08, 0xcd]
    test_sequence (by decide) (by decide) rfl
  ⟨rfl, (h.2.2.2.2 (by decide)).2.1 rfl⟩

/-- C17: whenever the length field announced by a non-Nil first byte lies within the
buffer,
`bt_sdp_read_data_element` returns `BT_ERR_SDP_BAD_RECORD` for a Nil header with
`sizeDesc ≠ 0`, a Uuid header with `sizeDesc` outside {1, 2, 4}, a Bool header with
`sizeDesc ≠ 0`, a Text or Url header with `sizeDesc < 5`, and a type code of 9 or above;
every failure of the decoder is `BT_ERR_SDP_BAD_RECORD`, a failing child ends the
sequence loop with that error at once, the enclosing element returns what its loop
returns, and `bt_sdp_parse_record` returns what the root element returns. -/
theorem bad_record_rejected :
    (∀ fuel d0 tl,
      ((d0 >>> 3) % 256 ≠ BT_SDP_DATA_ELEMENT_NIL → (read_size (d0 &&& 7) tl).isSome) →
      (((d0 >>> 3) % 256 = BT_SDP_DATA_ELEMENT_NIL ∧ d0 &&& 7 ≠ 0) ∨
       ((d0 >>> 3) % 256 = BT_SDP_DATA_ELEMENT_UUID ∧
          d0 &&& 7 ≠ 1 ∧ d0 &&& 7 ≠ 2 ∧ d0 &&& 7 ≠ 4) ∨
       ((d0 >>> 3) % 256 = BT_SDP_DATA_ELEMENT_BOOL ∧ d0 &&& 7 ≠ 0) ∨
       (((d0 >>> 3) % 256 = BT_SDP_DATA_ELEMENT_TEXT ∨
          (d0 >>> 3) % 256 = BT_SDP_DATA_ELEMENT_URL) ∧ d0 &&& 7 < 5) ∨
       9 ≤ (d0 >>> 3) % 256) →
      ∃ e, bt_sdp_read_data_element (fuel + 1) (d0 :: tl) = some (BT_ERR_SDP_BAD_RECORD, e)) ∧
    (∀ fuel data r e, bt_sdp_read_data_element fuel data = some (r, e) → r ≠ BT_SUCCESS →
      r = BT_ERR_SDP_BAD_RECORD) ∧
    (∀ fuel data i size r c, bt_sdp_read_data_element fuel data = some (r, c) →
      r ≠ BT_SUCCESS →
      bt_sdp_read_sequence (fuel + 1) data i size = some (BT_ERR_SDP_BAD_RECORD, [c])) ∧
    (∀ fuel data i size c r cs, bt_sdp_read_data_element fuel data = some (BT_SUCCESS, c) →
      (i + c.recordSize) % UINT32_MOD < size →
      bt_sdp_read_sequence fuel (data.drop c.recordSize) ((i + c.recordSize) % UINT32_MOD)
        size = some (r, cs) →
      r ≠ BT_SUCCESS →
      bt_sdp_read_sequence (fuel + 1) data i size = some (BT_ERR_SDP_BAD_RECORD, c :: cs)) ∧
    (∀ fuel d0 tl size k rest r cs,
      ((d0 >>> 3) % 256 = BT_SDP_DATA_ELEMENT_SEQ ∨
        (d0 >>> 3) % 256 = BT_SDP_DATA_ELEMENT_ALT) →
      read_size (d0 &&& 7) tl = some (size, k, rest) →
      bt_sdp_read_sequence fuel rest 0 size = some (r, cs) → r ≠ BT_SUCCESS →
      ∃ e, bt_sdp_read_data_element (fuel + 1) (d0 :: tl) =
        some (BT_ERR_SDP_BAD_RECORD, e) ∧ e.seq = cs) ∧
    (∀ fuel bytes length r root, 0 < length →
      bt_sdp_read_data_element fuel bytes = some (r, root) → r ≠ BT_SUCCESS →
      bt_sdp_parse_record fuel (some bytes) length (some ()) =
        some (BT_ERR_SDP_BAD_RECORD, some root)) ∧
    (bt_sdp_parse_record 4 (some [0x35, 0x04, 0x08, 0xab, 0x29, 0x00]) 6 (some ())).map
      Prod.fst = some BT_ERR_SDP_BAD_RECORD := by
  have hkind : ∀ fuel data r e, bt_sdp_read_data_element fuel data = some (r, e) →
      r ≠ BT_SUCCESS → r = BT_ERR_SDP_BAD_RECORD := by
    intro fuel data r e h hne
    rcases (sdp_error_kind fuel).1 _ _ _ h with h1 | h1
    · exact absurd h1 hne
    · exact h1
  have hkindQ : ∀ fuel data i size r cs, bt_sdp_read_sequence fuel data i size = some (r, cs) →
      r ≠ BT_SUCCESS → r = BT_ERR_SDP_BAD_RECORD := by
    intro fuel data i size r cs h hne
    rcases (sdp_error_kind fuel).2 _ _ _ _ _ h with h1 | h1
    · exact absurd h1 hne
    · exact h1
  refine ⟨?_, hkind, ?_, ?_, ?_, ?_, by decide⟩
  · intro fuel d0 tl hfield hbad
    rw [bt_sdp_read_data_element]
    by_cases hN : (d0 >>> 3) % 256 = BT_SDP_DATA_ELEMENT_NIL
    · rw [if_neg (not_not.mpr hN)]
      dsimp only
      rw [if_pos hN]
      rcases hbad with ⟨_, h⟩ | ⟨h, _⟩ | ⟨h, _⟩ | ⟨h, _⟩ | h
      · rw [if_pos h]
        exact ⟨_, rfl⟩
      · rw [hN] at h
        exact absurd h (by decide)
      · rw [hN] at h
        exact absurd h (by decide)
      · rw [hN] at h
        exact absurd h (by decide)
      · rw [hN] at h
        exact absurd h (by decide)
    · obtain ⟨⟨size, k, rest⟩, hrs⟩ := Option.isSome_iff_exists.mp (hfield hN)
      rw [if_pos hN, hrs]
      dsimp only
      rw [if_neg hN]
      rcases hbad with ⟨h, _⟩ | ⟨h, hs⟩ | ⟨h, hs⟩ | ⟨h, hs⟩ | h
      · exact absurd h hN
      · rw [if_neg (by rw [h]; decide), if_pos h, if_pos hs]
        exact ⟨_, rfl⟩
      · rw [if_neg (by rw [h]; decide), if_neg (by rw [h]; decide),
          if_neg (by rw [h]; decide), if_pos h, if_pos hs]
        exact ⟨_, rfl⟩
      · rw [if_neg (by rcases h with h | h <;> rw [h] <;> decide),
          if_neg (by rcases h with h | h <;> rw [h] <;> decide), if_pos h, if_pos hs]
        exact ⟨_, rfl⟩
      · have c1 : ¬((d0 >>> 3) % 256 = BT_SDP_DATA_ELEMENT_UINT ∨
            (d0 >>> 3) % 256 = BT_SDP_DATA_ELEMENT_INT) := by
          unfold BT_SDP_DATA_ELEMENT_UINT BT_SDP_DATA_ELEMENT_INT
          omega
        have c2 : ¬((d0 >>> 3) % 256 = BT_SDP_DATA_ELEMENT_UUID) := by
          unfold BT_SDP_DATA_ELEMENT_UUID
          omega
        have c3 : ¬((d0 >>> 3) % 256 = BT_SDP_DATA_ELEMENT_TEXT ∨
            (d0 >>> 3) % 256 = BT_SDP_DATA_ELEMENT_URL) := by
          unfold BT_SDP_DATA_ELEMENT_TEXT BT_SDP_DATA_ELEMENT_URL
          omega
        have c4 : ¬((d0 >>> 3) % 256 = BT_SDP_DATA_ELEMENT_BOOL) := by
          unfold BT_SDP_DATA_ELEMENT_BOOL
          omega
        have c5 : ¬((d0 >>> 3) % 256 = BT_SDP_DATA_ELEMENT_SEQ ∨
            (d0 >>> 3) % 256 = BT_SDP_DATA_ELEMENT_ALT) := by
          unfold BT_SDP_DATA_ELEMENT_SEQ BT_SDP_DATA_ELEMENT_ALT
          omega
        rw [if_neg c1, if_neg c2, if_neg c3, if_neg c4, if_neg c5]
        exact ⟨_, rfl⟩
  · intro fuel data i size r c h hne
    rw [bt_sdp_read_sequence, h]
    dsimp only
    rw [if_pos hne, hkind _ _ _ _ h hne]
  · intro fuel data i size c r cs h hlt hrun hne
    rw [bt_sdp_read_sequence, h]
    dsimp only
    rw [if_neg (by simp), if_neg (by omega), hrun, hkindQ _ _ _ _ _ _ hrun hne]
  · intro fuel d0 tl size k rest r cs hty hrs hrun hne
    have hN : (d0 >>> 3) % 256 ≠ BT_SDP_DATA_ELEMENT_NIL := by
      rcases hty with h | h <;> rw [h] <;> decide
    have h1 : ¬((d0 >>> 3) % 256 = BT_SDP_DATA_ELEMENT_UINT ∨
        (d0 >>> 3) % 256 = BT_SDP_DATA_ELEMENT_INT) := by
      rcases hty with h | h <;> rw [h] <;> decide
    have h2 : ¬((d0 >>> 3) % 256 = BT_SDP_DATA_ELEMENT_UUID) := by
      rcases hty with h | h <;> rw [h] <;> decide
    have h3 : ¬((d0 >>> 3) % 256 = BT_SDP_DATA_ELEMENT_TEXT ∨
        (d0 >>> 3) % 256 = BT_SDP_DATA_ELEMENT_URL) := by
      rcases hty with h | h <;> rw [h] <;> decide
    have h4 : ¬((d0 >>> 3) % 256 = BT_SDP_DATA_ELEMENT_BOOL) := by
      rcases hty with h | h <;> rw [h] <;> decide
    rw [bt_sdp_read_data_element, if_pos hN, hrs]
    dsimp only
    rw [if_neg hN, if_neg h1, if_neg h2, if_neg h3, if_neg h4, if_pos hty, hrun,
      hkindQ _ _ _ _ _ _ hrun hne]
    exact ⟨_, rfl, rfl⟩
  · intro fuel bytes length r root hpos h hne
    unfold bt_sdp_parse_record
    dsimp only
    rw [if_neg (by omega), h, hkind _ _ _ _ h hne]

/-- C18: a UInt or Int header with `sizeDesc` 0..3 followed by a payload `p` of
`2 ^ sizeDesc` bytes decodes successfully with `size` the payload length and
`recordSize` one more; the first `size` bytes of the value are the payload bytes
reversed, so the value read in little-endian order is the big-endian number written by
the payload, and the remaining bytes of the value are zero.  A UInt or Int header with
`sizeDesc` above 4 whose length field lies within the buffer is rejected with
`BT_ERR_SDP_BAD_RECORD`. -/
theorem integer_payload_is_big_endian (fuel d0 : Nat) (p rest : List Nat)
    (ht : (d0 >>> 3) % 256 = BT_SDP_DATA_ELEMENT_UINT ∨
      (d0 >>> 3) % 256 = BT_SDP_DATA_ELEMENT_INT)
    (hsd : d0 &&& 7 ≤ 3) (hp : p.length = 2 ^ (d0 &&& 7)) :
    (∃ e, bt_sdp_read_data_element (fuel + 1) (d0 :: (p ++ rest)) = some (BT_SUCCESS, e) ∧
      e.size = p.length ∧ e.recordSize = 1 + p.length ∧
      e.bytes.take p.length = p.reverse ∧
      little_endian (e.bytes.take p.length) = big_endian p ∧
      e.bytes.drop p.length = List.replicate (16 - p.length) 0) ∧
    (∀ f b tl, ((b >>> 3) % 256 = BT_SDP_DATA_ELEMENT_UINT ∨
        (b >>> 3) % 256 = BT_SDP_DATA_ELEMENT_INT) → 4 < b &&& 7 →
      (read_size (b &&& 7) tl).isSome →
      ∃ e, bt_sdp_read_data_element (f + 1) (b :: tl) = some (BT_ERR_SDP_BAD_RECORD, e)) := by
  constructor
  · have hN : (d0 >>> 3) % 256 ≠ BT_SDP_DATA_ELEMENT_NIL := by
      rcases ht with h | h <;> rw [h] <;> decide
    have hrs : read_size (d0 &&& 7) (p ++ rest) = some (p.length, 1, p ++ rest) := by
      unfold read_size
      rw [if_pos (by omega), hp, Nat.one_shiftLeft]
    have hm : memcpy_value zero_value (p ++ rest) p.length =
        some (p ++ List.replicate (16 - p.length) 0) := by
      unfold memcpy_value
      rw [if_pos (by simp), List.take_left]
      unfold zero_value
      rw [List.drop_replicate]
    have hmod : (1 + p.length) % UINT32_MOD = 1 + p.length := by
      have : p.length ≤ 8 := by
        rw [hp]
        have h3 : d0 &&& 7 = 0 ∨ d0 &&& 7 = 1 ∨ d0 &&& 7 = 2 ∨ d0 &&& 7 = 3 := by omega
        rcases h3 with h | h | h | h <;> rw [h] <;> decide
      exact Nat.mod_eq_of_lt (by unfold UINT32_MOD; omega)
    rw [bt_sdp_read_data_element, if_pos hN, hrs]
    dsimp only
    rw [if_neg hN, if_pos ht, if_neg (by omega), hm, hmod]
    dsimp only
    refine ⟨_, rfl, rfl, rfl, ?_⟩
    have hswap : (if p.length > 1 then
        endian_swap p.length (p ++ List.replicate (16 - p.length) 0)
        else p ++ List.replicate (16 - p.length) 0) =
        p.reverse ++ List.replicate (16 - p.length) 0 := by
      have h3 : d0 &&& 7 = 0 ∨ d0 &&& 7 = 1 ∨ d0 &&& 7 = 2 ∨ d0 &&& 7 = 3 := by omega
      rcases h3 with h | h | h | h
      · rw [h] at hp
        match p, hp with
        | [a], _ => rfl
      · rw [h] at hp
        match p, hp with
        | [a, b], _ => simp [endian_swap, List.range, List.range.loop]
      · rw [h] at hp
        match p, hp with
        | [a, b, c, d], _ => simp [endian_swap, List.range, List.range.loop]
      · rw [h] at hp
        match p, hp with
        | [a, b, c, d, e, f, g, h], _ => simp [endian_swap, List.range, List.range.loop]
    simp only [bt_sdp_element_t.bytes]
    rw [hswap]
    have hl : p.length = p.reverse.length := by simp
    refine ⟨?_, ?_, ?_⟩
    · rw [hl, List.take_left]
    · rw [hl, List.take_left, little_endian_reverse]
    · rw [hl, List.drop_left]
  · intro f b tl hty hsd hfield
    obtain ⟨⟨size, k, rest⟩, hrs⟩ := Option.isSome_iff_exists.mp hfield
    have hN : (b >>> 3) % 256 ≠ BT_SDP_DATA_ELEMENT_NIL := by
      rcases hty with h | h <;> rw [h] <;> decide
    rw [bt_sdp_read_data_element, if_pos hN, hrs]
    dsimp only
    rw [if_neg hN, if_pos hty, if_pos hsd]
    exact ⟨_, rfl⟩

/-- Witness for C18: header 0x08 with payload 0xAB decodes to 171, total size 2. -/
theorem integer_payload_is_big_endian_witness :
    ∃ e, bt_sdp_read_data_element 1 [0x08, 0xab] = some (BT_SUCCESS, e) ∧
      e.size = 1 ∧ e.recordSize = 2 ∧ e.bytes.take 1 = [0xab] ∧
      little_endian (e.bytes.take 1) = 171 ∧ e.bytes.drop 1 = List.replicate 15 0 :=
  (integer_payload_is_big_endian 0 0x08 [0xab] [] (Or.inl rfl) (by decide) rfl).1

/-! ### Text conversions, comparison and UUID types -/

theorem compact_format_items :
    parse_format BT_ADDRESS_FORMAT_COMPACT.length BT_ADDRESS_FORMAT_COMPACT.toList =
      [fmt_item.hex ['0', '2'] true, fmt_item.hex ['0', '2'] true, fmt_item.hex ['0', '2'] true,
        fmt_item.hex ['0', '2'] true, fmt_item.hex ['0', '2'] true,
        fmt_item.hex ['0', '2'] true] := by
  decide

theorem print_byte_lower (n : Nat) (h : n < 256) :
    print_hex ['0', '2'] false n = hex_pair "0123456789abcdef" n := by
  interval_cases n <;> rfl

theorem print_byte_upper (n : Nat) (h : n < 256) :
    print_hex ['0', '2'] true n = hex_pair "0123456789ABCDEF" n := by
  interval_cases n <;> rfl

theorem scan_byte_lower (n : Nat) (h : n < 256) (rest : List Char) :
    scan_hex (decimal_value ['0', '2']) (hex_pair "0123456789abcdef" n ++ rest) =
      scan_step.assigned n rest := by
  interval_cases n <;> rfl

theorem scan_byte_upper (n : Nat) (h : n < 256) (rest : List Char) :
    scan_hex (decimal_value ['0', '2']) (hex_pair "0123456789ABCDEF" n ++ rest) =
      scan_step.assigned n rest := by
  interval_cases n <;> rfl

theorem scan_two_upper (a b : Char) (ha : a ∈ upper_hex) (hb : b ∈ upper_hex) (rest : List Char) :
    scan_hex (decimal_value ['0', '2']) (a :: b :: rest) =
      scan_step.assigned (16 * (hex_value a).getD 0 + (hex_value b).getD 0) rest := by
  simp only [upper_hex, List.mem_cons, List.mem_singleton, List.not_mem_nil, or_false] at ha hb
  rcases ha with rfl | rfl | rfl | rfl | rfl | rfl | rfl | rfl | rfl | rfl | rfl | rfl | rfl |
    rfl | rfl | rfl <;>
  rcases hb with rfl | rfl | rfl | rfl | rfl | rfl | rfl | rfl | rfl | rfl | rfl | rfl | rfl |
    rfl | rfl | rfl <;> rfl

theorem print_two_upper (a b : Char) (ha : a ∈ upper_hex) (hb : b ∈ upper_hex) :
    print_hex ['0', '2'] true ((16 * (hex_value a).getD 0 + (hex_value b).getD 0) % 256) =
      [a, b] := by
  simp only [upper_hex, List.mem_cons, List.mem_singleton, List.not_mem_nil, or_false] at ha hb
  rcases ha with rfl | rfl | rfl | rfl | rfl | rfl | rfl | rfl | rfl | rfl | rfl | rfl | rfl |
    rfl | rfl | rfl <;>
  rcases hb with rfl | rfl | rfl | rfl | rfl | rfl | rfl | rfl | rfl | rfl | rfl | rfl | rfl |
    rfl | rfl | rfl <;> rfl

theorem getD_lt_256 (a : List Nat) (hb : ∀ b ∈ a, b < 256) (i : Nat) : a.getD i 0 < 256 := by
  rw [List.getD_eq_getElem?_getD]
  rcases h : a[i]? with _ | v
  · simp
  · simp only [Option.getD_some]
    exact hb v (List.getElem?_mem h)

/-- C21: for every address (six bytes, each below 256) `bt_addr_to_str` writes the two
lowercase hexadecimal digits of `b[5]`, `b[4]`, `b[3]`, `b[2]`, `b[1]`, `b[0]`, in that
order, joined by colons, 17 characters in all; the bytes 13 71 da 7d 1a 00 give
"00:1a:7d:da:71:13". -/
theorem bt_addr_to_str_colon_hex (a : bt_addr_t) (hb : ∀ b ∈ a, b < 256) :
    bt_addr_to_str a =
        hex_pair "0123456789abcdef" (a.getD 5 0) ++ ':' ::
        hex_pair "0123456789abcdef" (a.getD 4 0) ++ ':' ::
        hex_pair "0123456789abcdef" (a.getD 3 0) ++ ':' ::
        hex_pair "0123456789abcdef" (a.getD 2 0) ++ ':' ::
        hex_pair "0123456789abcdef" (a.getD 1 0) ++ ':' ::
        hex_pair "0123456789abcdef" (a.getD 0 0) ∧
      (bt_addr_to_str a).length = 17 ∧
      bt_addr_to_str [0x13, 0x71, 0xda, 0x7d, 0x1a, 0x00] = "00:1a:7d:da:71:13".toList := by
  have hstr : bt_addr_to_str a =
        hex_pair "0123456789abcdef" (a.getD 5 0) ++ ':' ::
        hex_pair "0123456789abcdef" (a.getD 4 0) ++ ':' ::
        hex_pair "0123456789abcdef" (a.getD 3 0) ++ ':' ::
        hex_pair "0123456789abcdef" (a.getD 2 0) ++ ':' ::
        hex_pair "0123456789abcdef" (a.getD 1 0) ++ ':' ::
        hex_pair "0123456789abcdef" (a.getD 0 0) := by
    simp only [bt_addr_to_str, sprintf, address_format_items]
    simp only [sprintf_items, print_byte_lower _ (getD_lt_256 a hb _)]
    simp
  refine ⟨hstr, ?_, by decide⟩
  rw [hstr]
  simp [hex_pair]

/-- Witness for C21: the address of the device-name test. -/
theorem bt_addr_to_str_colon_hex_witness :
    bt_addr_to_str [0x13, 0x71, 0xda, 0x7d, 0x1a, 0x00] =
      ['0', '0', ':', '1', 'a', ':', '7', 'd', ':', 'd', 'a', ':', '7', '1', ':', '1', '3'] :=
  (bt_addr_to_str_colon_hex [0x13, 0x71, 0xda, 0x7d, 0x1a, 0x00] (by decide)).1

/-- C24: `bt_addr_equals` is true exactly when the two addresses agree at every index
0..5; it is reflexive and symmetric, and addresses that differ in one of the six bytes
compare unequal. -/
theorem bt_addr_equals_iff_bytes_equal (a1 a2 : bt_addr_t) :
    (bt_addr_equals a1 a2 = true ↔ ∀ i, i < 6 → a1.getD i 0 = a2.getD i 0) ∧
      bt_addr_equals a1 a1 = true ∧
      bt_addr_equals a1 a2 = bt_addr_equals a2 a1 ∧
      (∀ i, i < 6 → a1.getD i 0 ≠ a2.getD i 0 → bt_addr_equals a1 a2 = false) := by
  have hiff : ∀ x y : bt_addr_t,
      (bt_addr_equals x y = true ↔ ∀ i, i < 6 → x.getD i 0 = y.getD i 0) := by
    intro x y
    simp only [bt_addr_equals, bt_addr_equals_from, ne_eq, ite_not, Bool.if_false_right,
      Bool.and_true, Bool.and_eq_true, decide_eq_true_eq]
    constructor
    · rintro ⟨h0, h1, h2, h3, h4, h5⟩ i hi
      interval_cases i <;> assumption
    · intro h
      exact ⟨h 0 (by omega), h 1 (by omega), h 2 (by omega), h 3 (by omega), h 4 (by omega),
        h 5 (by omega)⟩
  refine ⟨hiff a1 a2, (hiff a1 a1).2 (fun _ _ => rfl), ?_, ?_⟩
  · rw [Bool.eq_iff_iff, hiff a1 a2, hiff a2 a1]
    exact ⟨fun h i hi => (h i hi).symm, fun h i hi => (h i hi).symm⟩
  · intro i hi hne
    rw [← Bool.not_eq_true, hiff a1 a2]
    exact fun h => hne (h i hi)

/-- C22: for every string of 12 uppercase hexadecimal digits `bt_str_compact_to_addr`
returns `BT_SUCCESS`, whatever the output held before, and `bt_addr_to_str_compact` of
the address it stored gives the string back; and for every address of six bytes
`bt_str_compact_to_addr` of its compact text gives the address back. -/
theorem compact_address_round_trip (c : Fin 12 → Char) (addr : bt_addr_t)
    (h : ∀ i, c i ∈ upper_hex) :
    ((bt_str_compact_to_addr (compact_text c) addr).1 = BT_SUCCESS ∧
      bt_addr_to_str_compact (bt_str_compact_to_addr (compact_text c) addr).2 =
        compact_text c) ∧
    (∀ a old : bt_addr_t, a.length = 6 → (∀ b ∈ a, b < 256) →
      bt_str_compact_to_addr (bt_addr_to_str_compact a) old = (BT_SUCCESS, a)) := by
  constructor
  · have hparse : bt_str_compact_to_addr (compact_text c) addr = (BT_SUCCESS,
        [(16 * (hex_value (c 10)).getD 0 + (hex_value (c 11)).getD 0) % 256,
          (16 * (hex_value (c 8)).getD 0 + (hex_value (c 9)).getD 0) % 256,
          (16 * (hex_value (c 6)).getD 0 + (hex_value (c 7)).getD 0) % 256,
          (16 * (hex_value (c 4)).getD 0 + (hex_value (c 5)).getD 0) % 256,
          (16 * (hex_value (c 2)).getD 0 + (hex_value (c 3)).getD 0) % 256,
          (16 * (hex_value (c 0)).getD 0 + (hex_value (c 1)).getD 0) % 256]) := by
      simp only [bt_str_compact_to_addr, sscanf, compact_format_items, compact_text]
      simp only [sscanf_items,
        scan_two_upper (c 0) (c 1) (h 0) (h 1), scan_two_upper (c 2) (c 3) (h 2) (h 3),
        scan_two_upper (c 4) (c 5) (h 4) (h 5), scan_two_upper (c 6) (c 7) (h 6) (h 7),
        scan_two_upper (c 8) (c 9) (h 8) (h 9), scan_two_upper (c 10) (c 11) (h 10) (h 11)]
      simp
    rw [hparse]
    refine ⟨rfl, ?_⟩
    simp only [bt_addr_to_str_compact, sprintf, compact_format_items]
    simp only [sprintf_items, List.getD_cons_zero,
      List.getD_cons_succ, print_two_upper (c 0) (c 1) (h 0) (h 1),
      print_two_upper (c 2) (c 3) (h 2) (h 3), print_two_upper (c 4) (c 5) (h 4) (h 5),
      print_two_upper (c 6) (c 7) (h 6) (h 7), print_two_upper (c 8) (c 9) (h 8) (h 9),
      print_two_upper (c 10) (c 11) (h 10) (h 11), compact_text]
    simp
  · intro a old hlen hb
    match a, hlen with
    | [b0, b1, b2, b3, b4, b5], _ =>
      have h0 : b0 < 256 := hb b0 (by simp)
      have h1 : b1 < 256 := hb b1 (by simp)
      have h2 : b2 < 256 := hb b2 (by simp)
      have h3 : b3 < 256 := hb b3 (by simp)
      have h4 : b4 < 256 := hb b4 (by simp)
      have h5 : b5 < 256 := hb b5 (by simp)
      have h6 := scan_byte_upper b0 h0 []
      rw [List.append_nil] at h6
      simp only [bt_addr_to_str_compact, bt_str_compact_to_addr, sprintf, sscanf,
        compact_format_items]
      simp only [sprintf_items, List.getD_cons_zero, List.getD_cons_succ,
        print_byte_upper _ h0, print_byte_upper _ h1, print_byte_upper _ h2,
        print_byte_upper _ h3, print_byte_upper _ h4, print_byte_upper _ h5, List.append_nil,
        sscanf_items, scan_byte_upper _ h1, scan_byte_upper _ h2, scan_byte_upper _ h3,
        scan_byte_upper _ h4, scan_byte_upper _ h5, h6]
      simp [Nat.mod_eq_of_lt, h0, h1, h2, h3, h4, h5]

/-- Witness for C22: the string "0123456789AB" of the compact address tests, and the
address of the connection tests. -/
theorem compact_address_round_trip_witness :
    compact_text test_compact_chars = "0123456789AB".toList ∧
    (∀ i, test_compact_chars i ∈ upper_hex) ∧
    ((bt_str_compact_to_addr (compact_text test_compact_chars) []).1 = BT_SUCCESS ∧
      bt_addr_to_str_compact (bt_str_compact_to_addr (compact_text test_compact_chars) []).2 =
        compact_text test_compact_chars) ∧
    bt_str_compact_to_addr (bt_addr_to_str_compact test_address) [] =
      (BT_SUCCESS, test_address) :=
  have h := compact_address_round_trip test_compact_chars [] (by decide)
  ⟨by decide, by decide, h.1, h.2 test_address [] rfl (by decide)⟩

theorem uuid_format_items :
    parse_format BT_UUID_FORMAT.length BT_UUID_FORMAT.toList =
      [fmt_item.hex ['0', '2'] false, fmt_item.hex ['0', '2'] false,
        fmt_item.hex ['0', '2'] false, fmt_item.hex ['0', '2'] false, fmt_item.lit '-',
        fmt_item.hex ['0', '2'] false, fmt_item.hex ['0', '2'] false, fmt_item.lit '-',
        fmt_item.hex ['0', '2'] false, fmt_item.hex ['0', '2'] false, fmt_item.lit '-',
        fmt_item.hex ['0', '2'] false, fmt_item.hex ['0', '2'] false, fmt_item.lit '-',
        fmt_item.hex ['0', '2'] false, fmt_item.hex ['0', '2'] false,
        fmt_item.hex ['0', '2'] false, fmt_item.hex ['0', '2'] false,
        fmt_item.hex ['0', '2'] false, fmt_item.hex ['0', '2'] false] := by
  decide

/-- C23: for every 36-character string in the 8-4-4-4-12 grouping with lowercase
hexadecimal digits `bt_str_to_uuid` returns `BT_SUCCESS`, whatever the output held
before, byte `i` of the UUID it stores is the value of the `i`-th pair of digits in
reading order, and `bt_uuid_to_str` of that UUID gives the string back. -/
theorem bt_str_to_uuid_round_trip (c : Fin 32 → Char) (uuid : bt_uuid_t)
    (h : ∀ i, c i ∈ lower_hex) :
    bt_str_to_uuid (uuid_text c) uuid = (BT_SUCCESS, uuid_bytes c) ∧
      bt_uuid_to_str (bt_str_to_uuid (uuid_text c) uuid).2 = uuid_text c := by
  have hlt : ∀ a b : Char, a ∈ lower_hex → b ∈ lower_hex →
      (16 * (hex_value a).getD 0 + (hex_value b).getD 0) % 256 =
        16 * (hex_value a).getD 0 + (hex_value b).getD 0 := by
    intro a b ha hb
    simp only [lower_hex, List.mem_cons, List.mem_singleton, List.not_mem_nil, or_false]
      at ha hb
    rcases ha with rfl | rfl | rfl | rfl | rfl | rfl | rfl | rfl | rfl | rfl | rfl | rfl | rfl |
      rfl | rfl | rfl <;>
    rcases hb with rfl | rfl | rfl | rfl | rfl | rfl | rfl | rfl | rfl | rfl | rfl | rfl | rfl |
      rfl | rfl | rfl <;> rfl
  have hparse : bt_str_to_uuid (uuid_text c) uuid = (BT_SUCCESS,
      [(16 * (hex_value (c 0)).getD 0 + (hex_value (c 1)).getD 0) % 256,
        (16 * (hex_value (c 2)).getD 0 + (hex_value (c 3)).getD 0) % 256,
        (16 * (hex_value (c 4)).getD 0 + (hex_value (c 5)).getD 0) % 256,
        (16 * (hex_value (c 6)).getD 0 + (hex_value (c 7)).getD 0) % 256,
        (16 * (hex_value (c 8)).getD 0 + (hex_value (c 9)).getD 0) % 256,
        (16 * (hex_value (c 10)).getD 0 + (hex_value (c 11)).getD 0) % 256,
        (16 * (hex_value (c 12)).getD 0 + (hex_value (c 13)).getD 0) % 256,
        (16 * (hex_value (c 14)).getD 0 + (hex_value (c 15)).getD 0) % 256,
        (16 * (hex_value (c 16)).getD 0 + (hex_value (c 17)).getD 0) % 256,
        (16 * (hex_value (c 18)).getD 0 + (hex_value (c 19)).getD 0) % 256,
        (16 * (hex_value (c 20)).getD 0 + (hex_value (c 21)).getD 0) % 256,
        (16 * (hex_value (c 22)).getD 0 + (hex_value (c 23)).getD 0) % 256,
        (16 * (hex_value (c 24)).getD 0 + (hex_value (c 25)).getD 0) % 256,
        (16 * (hex_value (c 26)).getD 0 + (hex_value (c 27)).getD 0) % 256,
        (16 * (hex_value (c 28)).getD 0 + (hex_value (c 29)).getD 0) % 256,
        (16 * (hex_value (c 30)).getD 0 + (hex_value (c 31)).getD 0) % 256]) := by
    simp only [bt_str_to_uuid, sscanf, uuid_format_items, uuid_text]
    simp only [sscanf_items,
      scan_two_lower (c 0) (c 1) (h 0) (h 1), scan_two_lower (c 2) (c 3) (h 2) (h 3),
      scan_two_lower (c 4) (c 5) (h 4) (h 5), scan_two_lower (c 6) (c 7) (h 6) (h 7),
      scan_two_lower (c 8) (c 9) (h 8) (h 9), scan_two_lower (c 10) (c 11) (h 10) (h 11),
      scan_two_lower (c 12) (c 13) (h 12) (h 13), scan_two_lower (c 14) (c 15) (h 14) (h 15),
      scan_two_lower (c 16) (c 17) (h 16) (h 17), scan_two_lower (c 18) (c 19) (h 18) (h 19),
      scan_two_lower (c 20) (c 21) (h 20) (h 21), scan_two_lower (c 22) (c 23) (h 22) (h 23),
      scan_two_lower (c 24) (c 25) (h 24) (h 25), scan_two_lower (c 26) (c 27) (h 26) (h 27),
      scan_two_lower (c 28) (c 29) (h 28) (h 29), scan_two_lower (c 30) (c 31) (h 30) (h 31)]
    simp [List.range, List.range.loop]
  constructor
  · rw [hparse]
    simp only [uuid_bytes, List.range, List.range.loop, List.map_cons, List.map_nil,
      Prod.mk.injEq, true_and]
    simp only [hlt _ _ (h _) (h _)]
    rfl
  · rw [hparse]
    simp only [bt_uuid_to_str, sprintf, uuid_format_items]
    simp only [List.range, List.range.loop, List.map_cons, List.map_nil, sprintf_items,
      List.getD_cons_zero, List.getD_cons_succ,
      print_two_lower (c 0) (c 1) (h 0) (h 1), print_two_lower (c 2) (c 3) (h 2) (h 3),
      print_two_lower (c 4) (c 5) (h 4) (h 5), print_two_lower (c 6) (c 7) (h 6) (h 7),
      print_two_lower (c 8) (c 9) (h 8) (h 9), print_two_lower (c 10) (c 11) (h 10) (h 11),
      print_two_lower (c 12) (c 13) (h 12) (h 13), print_two_lower (c 14) (c 15) (h 14) (h 15),
      print_two_lower (c 16) (c 17) (h 16) (h 17), print_two_lower (c 18) (c 19) (h 18) (h 19),
      print_two_lower (c 20) (c 21) (h 20) (h 21), print_two_lower (c 22) (c 23) (h 22) (h 23),
      print_two_lower (c 24) (c 25) (h 24) (h 25), print_two_lower (c 26) (c 27) (h 26) (h 27),
      print_two_lower (c 28) (c 29) (h 28) (h 29), print_two_lower (c 30) (c 31) (h 30) (h 31),
      uuid_text]
    simp

/-- Witness for C23: the string "01234567-89ab-cdef-1032-547698badcfe" of the UUID
tests. -/
theorem bt_str_to_uuid_round_trip_witness :
    uuid_text test_uuid_chars = "01234567-89ab-cdef-1032-547698badcfe".toList ∧
    (∀ i, test_uuid_chars i ∈ lower_hex) ∧
    bt_str_to_uuid (uuid_text test_uuid_chars) [] =
      (BT_SUCCESS, [0x01, 0x23, 0x45, 0x67, 0x89, 0xab, 0xcd, 0xef, 0x10, 0x32, 0x54, 0x76,
        0x98, 0xba, 0xdc, 0xfe]) ∧
    bt_uuid_to_str (bt_str_to_uuid (uuid_text test_uuid_chars) []).2 =
      uuid_text test_uuid_chars :=
  have h := bt_str_to_uuid_round_trip test_uuid_chars [] (by decide)
  ⟨by decide, by decide, h.1, h.2⟩

/-- C28: `bt_connect_to_service` called with a handle that holds descriptor 7.  When
the device does not answer it returns `BT_ERR_DEVICE_NOT_FOUND`, and when the device
offers no matching service it returns `BT_ERR_SERVICE_NOT_FOUND`; in both cases the
handle still holds 7, and a following `bt_disconnect` closes descriptor 7.  Whenever
the SDP lookup fails the handle keeps the value it had on entry. -/
theorem bt_connect_to_service_keeps_handle :
    (bt_connect_to_service no_device ⟨(), []⟩ test_address test_service 7).err =
      BT_ERR_DEVICE_NOT_FOUND ∧
    (bt_connect_to_service no_device ⟨(), []⟩ test_address test_service 7).s = 7 ∧
    (bt_disconnect no_device
        (bt_connect_to_service no_device ⟨(), []⟩ test_address test_service 7).w
        (some (bt_connect_to_service no_device ⟨(), []⟩ test_address test_service
          7).s)).2.log =
      [sys_call.sdp_connect (bt_addr_to_bdaddr test_address), sys_call.close 7] ∧
    (bt_connect_to_service (answering []) ⟨(), []⟩ test_address test_service 7).err =
      BT_ERR_SERVICE_NOT_FOUND ∧
    (bt_connect_to_service (answering []) ⟨(), []⟩ test_address test_service 7).s = 7 ∧
    sys_call.close 7 ∈ (bt_disconnect (answering [])
        (bt_connect_to_service (answering []) ⟨(), []⟩ test_address test_service 7).w
        (some (bt_connect_to_service (answering []) ⟨(), []⟩ test_address test_service
          7).s)).2.log ∧
    (∀ {σ : Type} (B : backend σ) (w : world σ) (address : bt_addr_t) (service : bt_uuid_t)
      (sock : Int),
      (bt_connect_to_service B w address service sock).err = BT_ERR_DEVICE_NOT_FOUND ∨
        (bt_connect_to_service B w address service sock).err = BT_ERR_SERVICE_NOT_FOUND →
      (bt_connect_to_service B w address service sock).s = sock) := by
  refine ⟨by decide, by decide, by decide, by decide, by decide, by decide, ?_⟩
  intro σ B w address service sock h
  unfold bt_connect_to_service at h ⊢
  dsimp only at h ⊢
  split_ifs at h ⊢ with h1 h2
  · rfl
  · rfl
  · exfalso
    unfold bt_connect_to_port at h
    dsimp only at h
    split_ifs at h <;> simp at h

/-- C29: for a 32-bit `uuid_t` with value `v`, `bt_uuidt_to_uuid` yields the four bytes
`v >> 24`, `v >> 16`, `v >> 8`, `v`, each reduced to 8 bits, followed by the base bytes
00 00 10 00 80 00 00 80 5f 9b 34 fb; for a 16-bit `uuid_t` (`v < 2^16`) the same with the
first two bytes zero; a 128-bit `uuid_t` is copied byte for byte, so converting a
`bt_uuid_t` with `bt_uuid_to_uuid` and back gives the same bytes; 0x1801 gives
00001801-0000-1000-8000-00805f9b34fb. -/
theorem bt_uuidt_to_uuid_base_bytes (v : Nat) (u old : bt_uuid_t) :
    bt_uuidt_to_uuid (uuid_t.uuid32 v) old =
      [v / 2 ^ 24 % 256, v / 2 ^ 16 % 256, v / 2 ^ 8 % 256, v % 256] ++
        [0x00, 0x00, 0x10, 0x00, 0x80, 0x00, 0x00, 0x80, 0x5f, 0x9b, 0x34, 0xfb] ∧
    (v < 65536 → bt_uuidt_to_uuid (uuid_t.uuid16 v) old =
      [0, 0, v / 2 ^ 8, v % 256] ++
        [0x00, 0x00, 0x10, 0x00, 0x80, 0x00, 0x00, 0x80, 0x5f, 0x9b, 0x34, 0xfb]) ∧
    bt_uuidt_to_uuid (uuid_t.uuid128 u) old = u ∧
    bt_uuidt_to_uuid (bt_uuid_to_uuid u) old = u ∧
    bt_uuid_to_str (bt_uuidt_to_uuid (uuid_t.uuid16 0x1801) old) =
      "00001801-0000-1000-8000-00805f9b34fb".toList := by
  have hmask : ∀ x : Nat, x &&& 0xff = x % 256 := fun x => Nat.and_pow_two_sub_one_eq_mod x 8
  refine ⟨?_, ?_, rfl, rfl, ?_⟩
  · simp only [bt_uuidt_to_uuid, hmask, Nat.shiftRight_eq_div_pow]
  · intro hv
    simp only [bt_uuidt_to_uuid, hmask, Nat.shiftRight_eq_div_pow]
    have h1 : v / 2 ^ 24 % 256 = 0 := by omega
    have h2 : v / 2 ^ 16 % 256 = 0 := by omega
    have h3 : v / 2 ^ 8 % 256 = v / 2 ^ 8 := by omega
    rw [h1, h2, h3]
  · have hval : bt_uuidt_to_uuid (uuid_t.uuid16 0x1801) old =
        [0x00, 0x00, 0x18, 0x01, 0x00, 0x00, 0x10, 0x00, 0x80, 0x00, 0x00, 0x80, 0x5f, 0x9b,
          0x34, 0xfb] := rfl
    rw [hval]
    decide

theorem bt_addr_equals_eq (a b : bt_addr_t) (ha : a.length = 6) (hb : b.length = 6) :
    bt_addr_equals a b = true ↔ a = b := by
  match a, ha, b, hb with
  | [a0, a1, a2, a3, a4, a5], _, [b0, b1, b2, b3, b4, b5], _ =>
    simp only [bt_addr_equals, bt_addr_equals_from, ne_eq, ite_not, Bool.if_false_right,
      Bool.and_true, Bool.and_eq_true, decide_eq_true_eq, List.getD_cons_zero,
      List.getD_cons_succ, List.cons.injEq, and_true]

theorem add_walk_present (fresh a : bt_addr_t) (l : bt_device_list_t)
    (h : ∃ b ∈ contents l, bt_addr_equals b a = true) : add_walk fresh a l = l := by
  induction l with
  | last x =>
    obtain ⟨b, hb, _⟩ := h
    simp [contents] at hb
  | node next x ih =>
    unfold add_walk
    by_cases hx : bt_addr_equals x a = true
    · rw [if_pos hx]
    · rw [if_neg hx]
      obtain ⟨b, hb, hba⟩ := h
      simp only [contents, List.mem_cons] at hb
      rcases hb with rfl | hb
      · exact absurd hba hx
      · rw [ih ⟨b, hb, hba⟩]

theorem add_walk_absent (fresh a : bt_addr_t) (l : bt_device_list_t)
    (h : ∀ b ∈ contents l, bt_addr_equals b a = false) :
    contents (add_walk fresh a l) = contents l ++ [a] := by
  induction l with
  | last x => simp [add_walk, contents]
  | node next x ih =>
    unfold add_walk
    have hx : ¬(bt_addr_equals x a = true) := by
      rw [h x (by simp [contents])]
      simp
    rw [if_neg hx]
    simp only [contents, List.cons_append, List.cons.injEq, true_and]
    exact ih (fun b hb => h b (by simp [contents, hb]))

theorem node_at_contents (l : bt_device_list_t) :
    ∀ k, (∀ a, (contents l).get? k = some a → ∃ next, node_at l k = some (bt_device_list_t.node next a)) ∧
      (k = (contents l).length → ∃ x, node_at l k = some (bt_device_list_t.last x)) := by
  induction l with
  | last x =>
    intro k
    constructor
    · intro a ha
      simp [contents] at ha
    · intro hk
      simp only [contents, List.length_nil] at hk
      subst hk
      exact ⟨x, rfl⟩
  | node next x ih =>
    intro k
    cases k with
    | zero =>
      constructor
      · intro a ha
        simp only [contents, List.get?_cons_zero, Option.some.injEq] at ha
        subst ha
        exact ⟨next, rfl⟩
      · intro hk
        simp [contents] at hk
    | succ k =>
      constructor
      · intro a ha
        simp only [contents, List.get?_cons_succ] at ha
        exact (ih k).1 a ha
      · intro hk
        simp only [contents, List.length_cons, Nat.add_right_cancel_iff] at hk
        exact (ih k).2 hk


theorem get_next_at (heap : bt_device_list_t) (lst : Option Nat) (j : Nat) (a0 : bt_addr_t) :
    (∀ a, (contents heap).get? j = some a →
      bt_get_next_device heap (some ⟨lst, some j⟩) (some a0) =
        some ⟨BT_SUCCESS, some ⟨lst, some (j + 1)⟩, some a⟩) ∧
    (j = (contents heap).length →
      bt_get_next_device heap (some ⟨lst, some j⟩) (some a0) =
        some ⟨BT_ERR_END_OF_ENUM, some ⟨lst, some j⟩, some a0⟩) := by
  constructor
  · intro a ha
    obtain ⟨next, hn⟩ := (node_at_contents heap j).1 a ha
    simp only [bt_get_next_device, hn]
  · intro hj
    obtain ⟨x, hn⟩ := (node_at_contents heap j).2 hj
    simp only [bt_get_next_device, hn]

theorem next_calls_spec (heap : bt_device_list_t) (lst : Option Nat) (k : Nat) :
    ∀ j a0, j ≤ (contents heap).length →
      ∃ rs, next_calls heap k (some ⟨lst, some j⟩) (some a0) = some rs ∧
        rs.map Prod.fst = List.replicate (min k ((contents heap).length - j)) BT_SUCCESS ++
          List.replicate (k - ((contents heap).length - j)) BT_ERR_END_OF_ENUM ∧
        (rs.take ((contents heap).length - j)).map Prod.snd =
          (((contents heap).drop j).take k).map some := by
  induction k with
  | zero =>
    intro j a0 _
    exact ⟨[], rfl, by simp, by simp⟩
  | succ k ih =>
    intro j a0 hj
    rcases Nat.lt_or_ge j (contents heap).length with hlt | hge
    · have hget : (contents heap).get? j = some ((contents heap).get ⟨j, hlt⟩) :=
        List.get?_eq_get hlt
      obtain ⟨rs, hrs, herr, hadr⟩ := ih (j + 1) ((contents heap).get ⟨j, hlt⟩) hlt
      refine ⟨(BT_SUCCESS, some ((contents heap).get ⟨j, hlt⟩)) :: rs, ?_, ?_, ?_⟩
      · simp only [next_calls, (get_next_at heap lst j a0).1 _ hget, hrs]
      · simp only [List.map_cons, herr]
        have h1 : min (k + 1) ((contents heap).length - j) =
            min k ((contents heap).length - (j + 1)) + 1 := by omega
        have h2 : k + 1 - ((contents heap).length - j) =
            k - ((contents heap).length - (j + 1)) := by omega
        rw [h1, h2, List.replicate_succ, List.cons_append]
      · have h3 : (contents heap).length - j = ((contents heap).length - (j + 1)) + 1 := by
          omega
        rw [h3, List.take_succ_cons, List.map_cons, hadr, List.drop_eq_getElem_cons hlt,
          List.take_succ_cons, List.map_cons]
        rfl
    · have hj2 : j = (contents heap).length := by omega
      obtain ⟨rs, hrs, herr, hadr⟩ := ih j a0 hj
      refine ⟨(BT_ERR_END_OF_ENUM, some a0) :: rs, ?_, ?_, ?_⟩
      · simp only [next_calls, (get_next_at heap lst j a0).2 hj2, hrs]
      · simp only [List.map_cons, herr]
        have h0 : (contents heap).length - j = 0 := by omega
        rw [h0]
        simp only [Nat.min_zero, List.replicate_zero, List.nil_append, Nat.sub_zero,
          List.replicate_succ]
      · have h0 : (contents heap).length - j = 0 := by omega
        rw [h0, List.take_zero, List.map_nil, List.drop_eq_nil_of_le (by omega)]
        simp

theorem list_size_loop_spec (heap : bt_device_list_t) (lst : Option Nat) (m : Nat) :
    ∀ fuel j a0 (cnt : Int), j + m = (contents heap).length → m + 2 ≤ fuel → 0 ≤ cnt →
      cnt + 1 + m < 2147483648 →
      list_size_loop heap fuel (some ⟨lst, some j⟩) (some a0) BT_SUCCESS cnt =
        some (cnt + 1 + m) := by
  induction m with
  | zero =>
    intro fuel j a0 cnt hj hf hc hlt
    have hw : INT_WRAP (cnt + 1) = cnt + 1 := by
      unfold INT_WRAP
      omega
    match fuel, hf with
    | fuel + 2, _ =>
      simp [list_size_loop, (get_next_at heap lst j a0).2 (by omega), hw]
  | succ m ih =>
    intro fuel j a0 cnt hj hf hc hlt
    have hjlt : j < (contents heap).length := by omega
    have hw : INT_WRAP (cnt + 1) = cnt + 1 := by
      unfold INT_WRAP
      omega
    match fuel, hf with
    | fuel + 1, hf =>
      rw [list_size_loop, if_pos rfl, (get_next_at heap lst j a0).1 _ (List.get?_eq_get hjlt)]
      simp only [hw]
      rw [ih fuel (j + 1) _ (cnt + 1) (by omega) (by omega) (by omega)
        (by push_cast at hlt ⊢; omega)]
      push_cast
      congr 1
      ring

theorem bt_get_list_size_spec (heap : bt_device_list_t) (fuel : Nat) (a0 : bt_addr_t)
    (hf : (contents heap).length + 1 ≤ fuel) (hn : (contents heap).length < 2147483648) :
    bt_get_list_size heap fuel (some 0) a0 = some ((contents heap).length : Int) := by
  unfold bt_get_list_size bt_iterate_list
  dsimp only
  rcases Nat.eq_zero_or_pos (contents heap).length with h0 | hpos
  · rw [(get_next_at heap (some 0) 0 a0).2 h0.symm]
    match fuel, hf with
    | fuel + 1, _ => simp [list_size_loop, h0]
  · rw [(get_next_at heap (some 0) 0 a0).1 _ (List.get?_eq_get hpos)]
    dsimp only
    rw [list_size_loop_spec heap (some 0) ((contents heap).length - 1) fuel 1 _ 0 (by omega)
      (by omega) (by omega) (by omega)]
    congr 1
    omega


theorem mem_distinct_in_order (as : List bt_addr_t) (a : bt_addr_t) :
    a ∈ distinct_in_order as ↔ a ∈ as := by
  induction as with
  | nil => simp [distinct_in_order]
  | cons x xs ih =>
    simp only [distinct_in_order, List.mem_cons, List.mem_filter, ih, ne_eq, decide_not,
      Bool.not_eq_true', decide_eq_false_iff_not]
    by_cases h : a = x
    · simp [h]
    · simp [h]

theorem nodup_distinct_in_order (as : List bt_addr_t) : (distinct_in_order as).Nodup := by
  induction as with
  | nil => simp [distinct_in_order]
  | cons x xs ih =>
    simp only [distinct_in_order, List.nodup_cons, List.mem_filter, ne_eq, not_true_eq_false,
      decide_False, Bool.false_eq_true, and_false, not_false_eq_true, true_and]
    exact ih.filter _

theorem add_walk_contents (fresh a : bt_addr_t) (l : bt_device_list_t) (ha : a.length = 6)
    (hl : ∀ b ∈ contents l, b.length = 6) :
    (a ∈ contents l → add_walk fresh a l = l) ∧
      (a ∉ contents l → contents (add_walk fresh a l) = contents l ++ [a]) := by
  constructor
  · intro h
    exact add_walk_present fresh a l ⟨a, h, (bt_addr_equals_eq a a ha ha).2 rfl⟩
  · intro h
    apply add_walk_absent
    intro b hb
    rw [← Bool.not_eq_true, bt_addr_equals_eq b a (hl b hb) ha]
    rintro rfl
    exact h hb

theorem fold_add_contents (fresh : bt_addr_t) (as : List bt_addr_t) :
    ∀ l : bt_device_list_t, (∀ a ∈ as, a.length = 6) → (∀ b ∈ contents l, b.length = 6) →
      ∃ r, as.foldl (fun l a => bt_list_add_device fresh l (some a)) (some l) = some r ∧
        contents r = contents l ++
          (distinct_in_order as).filter (fun b => decide (b ∉ contents l)) := by
  induction as with
  | nil =>
    intro l _ _
    exact ⟨l, rfl, by simp [distinct_in_order]⟩
  | cons a as ih =>
    intro l has hl
    have ha : a.length = 6 := has a (by simp)
    have has2 : ∀ x ∈ as, x.length = 6 := fun x hx => has x (by simp [hx])
    obtain ⟨hin, hout⟩ := add_walk_contents fresh a l ha hl
    simp only [List.foldl_cons, bt_list_add_device]
    by_cases hmem : a ∈ contents l
    · rw [hin hmem]
      obtain ⟨r, hr, hc⟩ := ih l has2 hl
      refine ⟨r, hr, ?_⟩
      rw [hc, distinct_in_order, List.filter_cons_of_neg (by simpa using hmem),
        List.filter_filter]
      congr 1
      apply List.filter_congr
      intro b _
      by_cases hb : b ∈ contents l
      · simp [hb]
      · have hne : b ≠ a := fun h => hb (h ▸ hmem)
        simp [hb, hne]
    · have hl2 : ∀ b ∈ contents (add_walk fresh a l), b.length = 6 := by
        intro b hb
        rw [hout hmem, List.mem_append, List.mem_singleton] at hb
        rcases hb with hb | rfl
        · exact hl b hb
        · exact ha
      obtain ⟨r, hr, hc⟩ := ih (add_walk fresh a l) has2 hl2
      refine ⟨r, hr, ?_⟩
      rw [hc, hout hmem, distinct_in_order, List.filter_cons_of_pos (by simpa using hmem),
        List.filter_filter, List.append_assoc, List.singleton_append]
      congr 2
      apply List.filter_congr
      intro b _
      by_cases hb : b ∈ contents l
      · simp [hb]
      · by_cases hne : b = a
        · simp [hne]
        · simp [hb, hne]

/-- C25: after any sequence `as` of `bt_list_add_device` calls on a new list, the list
holds the distinct addresses of `as`, each once, in the order of first insertion, and
adding one of them again leaves the list as it is.  Iterating from the head, after
`bt_iterate_list` or `bt_iterate_rewind`, the first calls of `bt_get_next_device`
return `BT_SUCCESS` with these addresses in order and every later call returns
`BT_ERR_END_OF_ENUM`; `bt_get_list_size` returns their number. -/
theorem device_list_holds_distinct_addresses (fresh a0 : bt_addr_t) (as : List bt_addr_t)
    (it0 : bt_iterator_t) (k fuel : Nat) (has : ∀ a ∈ as, a.length = 6) :
    ∃ l, as.foldl (fun l a => bt_list_add_device fresh l (some a))
        (some (bt_list_new fresh)) = some l ∧
      contents l = distinct_in_order as ∧ (contents l).Nodup ∧
      (∀ a, a ∈ contents l ↔ a ∈ as) ∧
      (∀ a ∈ as, bt_list_add_device fresh (some l) (some a) = some l) ∧
      (∀ it, it = bt_iterate_list (some it0) (some 0) ∨
          it = bt_iterate_rewind (some ⟨some 0, it0.item⟩) →
        ∃ rs, next_calls l k it (some a0) = some rs ∧
          rs.map Prod.fst =
            List.replicate (min k (distinct_in_order as).length) BT_SUCCESS ++
              List.replicate (k - (distinct_in_order as).length) BT_ERR_END_OF_ENUM ∧
          (rs.take (distinct_in_order as).length).map Prod.snd =
            ((distinct_in_order as).take k).map some) ∧
      ((distinct_in_order as).length < 2147483648 →
        (distinct_in_order as).length + 1 ≤ fuel →
        bt_get_list_size l fuel (some 0) a0 = some ((distinct_in_order as).length : Int)) := by
  obtain ⟨l, hl, hc⟩ := fold_add_contents fresh as (bt_list_new fresh) has
    (by simp [bt_list_new, contents])
  have hc2 : contents l = distinct_in_order as := by
    rw [hc]
    simp [bt_list_new, contents]
  have hlen6 : ∀ b ∈ contents l, b.length = 6 := by
    intro b hb
    rw [hc2, mem_distinct_in_order] at hb
    exact has b hb
  refine ⟨l, hl, hc2, ?_, ?_, ?_, ?_, ?_⟩
  · rw [hc2]
    exact nodup_distinct_in_order as
  · intro a
    rw [hc2]
    exact mem_distinct_in_order as a
  · intro a ha
    have hin : a ∈ contents l := by
      rw [hc2]
      exact (mem_distinct_in_order as a).2 ha
    simp only [bt_list_add_device]
    rw [(add_walk_contents fresh a l (has a ha) hlen6).1 hin]
  · intro it hit
    have hit2 : it = some ⟨some 0, some 0⟩ := by
      rcases hit with h | h <;> rw [h] <;> rfl
    obtain ⟨rs, hrs, herr, hadr⟩ := next_calls_spec l (some 0) k 0 a0 (Nat.zero_le _)
    rw [hc2] at herr hadr
    exact ⟨rs, by rw [hit2]; exact hrs, by simpa using herr, by simpa using hadr⟩
  · intro hn hf
    rw [← hc2] at hn hf ⊢
    exact bt_get_list_size_spec l fuel a0 hf hn

/-- Witness for C25: the additions of the device list test, each address added twice. -/
theorem device_list_holds_distinct_addresses_witness :
    ∃ l, [test_addr1, test_addr1, test_addr2, test_addr2].foldl
        (fun l a => bt_list_add_device [] l (some a)) (some (bt_list_new [])) = some l ∧
      contents l = [test_addr1, test_addr2] ∧
      bt_get_list_size l 3 (some 0) [] = some 2 :=
  (device_list_holds_distinct_addresses [] [] [test_addr1, test_addr1, test_addr2, test_addr2]
    ⟨none, none⟩ 3 3 (by decide)).imp
    (fun _ h => ⟨h.1, h.2.1, h.2.2.2.2.2.2 (by decide) (by decide)⟩)

theorem lower_digit_mem (i : Nat) : "0123456789abcdef".toList.getD i '0' ∈ lower_hex := by
  rcases Nat.lt_or_ge i 16 with h | h
  · interval_cases i <;> decide
  · rw [List.getD_eq_default _ _ (by simpa using h)]
    decide

theorem getD_mem_of_all (l s : List Char) (d : Char) (i : Nat) (hd : d ∈ s)
    (hall : ∀ x ∈ l, x ∈ s) : l.getD i d ∈ s := by
  rw [List.getD_eq_getElem?_getD]
  rcases hg : l[i]? with _ | v
  · exact hd
  · exact hall v (List.getElem?_mem hg)

theorem bt_addr_to_str_text (a : bt_addr_t) (hb : ∀ b ∈ a, b < 256) :
    ∃ c : Fin 12 → Char, (∀ i, c i ∈ lower_hex) ∧ bt_addr_to_str a = address_text c := by
  have hstr : bt_addr_to_str a =
        hex_pair "0123456789abcdef" (a.getD 5 0) ++ ':' ::
        hex_pair "0123456789abcdef" (a.getD 4 0) ++ ':' ::
        hex_pair "0123456789abcdef" (a.getD 3 0) ++ ':' ::
        hex_pair "0123456789abcdef" (a.getD 2 0) ++ ':' ::
        hex_pair "0123456789abcdef" (a.getD 1 0) ++ ':' ::
        hex_pair "0123456789abcdef" (a.getD 0 0) := by
    simp only [bt_addr_to_str, sprintf, address_format_items]
    simp only [sprintf_items, print_byte_lower _ (getD_lt_256 a hb _)]
    simp
  refine ⟨fun i => (hex_pair "0123456789abcdef" (a.getD 5 0) ++
    hex_pair "0123456789abcdef" (a.getD 4 0) ++ hex_pair "0123456789abcdef" (a.getD 3 0) ++
    hex_pair "0123456789abcdef" (a.getD 2 0) ++ hex_pair "0123456789abcdef" (a.getD 1 0) ++
    hex_pair "0123456789abcdef" (a.getD 0 0)).getD i.val '0', ?_, ?_⟩
  · intro i
    apply getD_mem_of_all _ _ _ _ (by decide)
    intro x hx
    simp only [hex_pair, List.mem_append, List.mem_cons, List.mem_singleton,
      List.not_mem_nil, or_false] at hx
    rcases hx with ((((h | h) | h) | h) | h) | h <;> rcases h with rfl | rfl <;>
      exact lower_digit_mem _
  · rw [hstr]
    rfl

theorem lower_hex_plain (c : Char) (h : c ∈ lower_hex) : c ≠ '\n' ∧ c ≠ NUL := by
  simp only [lower_hex, List.mem_cons, List.mem_singleton, List.not_mem_nil, or_false] at h
  rcases h with rfl | rfl | rfl | rfl | rfl | rfl | rfl | rfl | rfl | rfl | rfl | rfl | rfl |
    rfl | rfl | rfl <;> decide

theorem fgets_address_line (c : Fin 12 → Char) (h : ∀ i, c i ∈ lower_hex)
    (line more : List Char) :
    fgets line 100 (address_text c ++ '\n' :: more) =
      some (address_text c ++ '\n' :: NUL :: line.drop 19, more) := by
  have n0 := (lower_hex_plain _ (h 0)).1
  have n1 := (lower_hex_plain _ (h 1)).1
  have n2 := (lower_hex_plain _ (h 2)).1
  have n3 := (lower_hex_plain _ (h 3)).1
  have n4 := (lower_hex_plain _ (h 4)).1
  have n5 := (lower_hex_plain _ (h 5)).1
  have n6 := (lower_hex_plain _ (h 6)).1
  have n7 := (lower_hex_plain _ (h 7)).1
  have n8 := (lower_hex_plain _ (h 8)).1
  have n9 := (lower_hex_plain _ (h 9)).1
  have n10 := (lower_hex_plain _ (h 10)).1
  have n11 := (lower_hex_plain _ (h 11)).1
  simp [fgets, fgets_read, address_text, n0, n1, n2, n3, n4, n5, n6, n7, n8, n9, n10, n11]

theorem c_string_address_line (c : Fin 12 → Char) (h : ∀ i, c i ∈ lower_hex)
    (tail : List Char) :
    (address_text c ++ '\n' :: tail).getD (BT_ADDRESS_LENGTH - 1) NUL = '\n' ∧
    c_string ((address_text c ++ '\n' :: tail).set (BT_ADDRESS_LENGTH - 1) NUL) =
      address_text c := by
  have n0 := (lower_hex_plain _ (h 0)).2
  have n1 := (lower_hex_plain _ (h 1)).2
  have n2 := (lower_hex_plain _ (h 2)).2
  have n3 := (lower_hex_plain _ (h 3)).2
  have n4 := (lower_hex_plain _ (h 4)).2
  have n5 := (lower_hex_plain _ (h 5)).2
  have n6 := (lower_hex_plain _ (h 6)).2
  have n7 := (lower_hex_plain _ (h 7)).2
  have n8 := (lower_hex_plain _ (h 8)).2
  have n9 := (lower_hex_plain _ (h 9)).2
  have n10 := (lower_hex_plain _ (h 10)).2
  have n11 := (lower_hex_plain _ (h 11)).2
  have hc : (':' : Char) ≠ NUL := by decide
  constructor
  · simp [address_text, BT_ADDRESS_LENGTH]
  · simp [address_text, BT_ADDRESS_LENGTH, c_string, List.takeWhile, n0, n1, n2, n3, n4, n5,
      n6, n7, n8, n9, n10, n11, hc]

theorem bt_str_to_addr_of_str (a old : bt_addr_t) (hlen : a.length = 6)
    (hb : ∀ b ∈ a, b < 256) : bt_str_to_addr (bt_addr_to_str a) old = (BT_SUCCESS, a) := by
  match a, hlen with
  | [b0, b1, b2, b3, b4, b5], _ =>
    have h0 : b0 < 256 := hb b0 (by simp)
    have h1 : b1 < 256 := hb b1 (by simp)
    have h2 : b2 < 256 := hb b2 (by simp)
    have h3 : b3 < 256 := hb b3 (by simp)
    have h4 : b4 < 256 := hb b4 (by simp)
    have h5 : b5 < 256 := hb b5 (by simp)
    have h6 := scan_byte_lower b0 h0 []
    rw [List.append_nil] at h6
    simp only [bt_addr_to_str, bt_str_to_addr, sprintf, sscanf, address_format_items]
    simp only [sprintf_items, List.getD_cons_zero, List.getD_cons_succ,
      print_byte_lower _ h0, print_byte_lower _ h1, print_byte_lower _ h2,
      print_byte_lower _ h3, print_byte_lower _ h4, print_byte_lower _ h5, List.append_nil,
      sscanf_items, scan_byte_lower _ h1, scan_byte_lower _ h2, scan_byte_lower _ h3,
      scan_byte_lower _ h4, scan_byte_lower _ h5, h6, List.cons_append, List.nil_append,
      List.append_assoc]
    simp [Nat.mod_eq_of_lt, h0, h1, h2, h3, h4, h5]


theorem bt_list_save_loop_spec (heap : bt_device_list_t) (lst : Option Nat) (m : Nat) :
    ∀ fuel j a0 out, j + m = (contents heap).length → m + 1 ≤ fuel →
      bt_list_save_loop heap fuel (some ⟨lst, some j⟩) (some a0) out =
        some (out ++ address_lines ((contents heap).drop j)) := by
  induction m with
  | zero =>
    intro fuel j a0 out hj hf
    match fuel, hf with
    | fuel + 1, _ =>
      rw [bt_list_save_loop, (get_next_at heap lst j a0).2 (by omega)]
      simp [List.drop_eq_nil_of_le (show (contents heap).length ≤ j by omega), address_lines]
  | succ m ih =>
    intro fuel j a0 out hj hf
    have hjlt : j < (contents heap).length := by omega
    match fuel, hf with
    | fuel + 1, hf =>
      rw [bt_list_save_loop, (get_next_at heap lst j a0).1 _ (List.get?_eq_get hjlt)]
      dsimp only
      rw [if_pos rfl, ih fuel (j + 1) _ _ (by omega) (by omega)]
      have hd : (contents heap).drop j = (contents heap).get ⟨j, hjlt⟩ ::
          (contents heap).drop (j + 1) := List.drop_eq_getElem_cons hjlt
      rw [hd]
      simp only [address_lines, List.map_cons, List.flatten_cons, List.append_assoc,
        Option.getD_some]

theorem bt_list_load_loop_spec (fresh : bt_addr_t) (as : List bt_addr_t) :
    ∀ fuel line address (l : bt_device_list_t), as.length + 1 ≤ fuel →
      (∀ a ∈ as, a.length = 6 ∧ ∀ b ∈ a, b < 256) → (∀ b ∈ contents l, b.length = 6) →
      (contents l ++ as).Nodup →
      ∃ r, bt_list_load_loop fresh fuel line (address_lines as) address l = some r ∧
        contents r = contents l ++ as := by
  induction as with
  | nil =>
    intro fuel line address l hf _ _ _
    match fuel, hf with
    | fuel + 1, _ => exact ⟨l, by simp [bt_list_load_loop, address_lines, fgets, fgets_read], by simp⟩
  | cons a as ih =>
    intro fuel line address l hf has hl hnd
    obtain ⟨ha6, hab⟩ := has a (by simp)
    obtain ⟨c, hc, htext⟩ := bt_addr_to_str_text a hab
    have hlines : address_lines (a :: as) = address_text c ++ '\n' :: address_lines as := by
      simp [address_lines, htext]
    have hnotin : a ∉ contents l := by
      intro hin
      rw [List.nodup_append] at hnd
      exact hnd.2.2 hin (by simp)
    have hadd : contents (add_walk fresh a l) = contents l ++ [a] :=
      (add_walk_contents fresh a l ha6 hl).2 hnotin
    match fuel, hf with
    | fuel + 1, hf =>
      obtain ⟨h17, hstr⟩ := c_string_address_line c hc (NUL :: line.drop 19)
      have hparse : bt_str_to_addr (address_text c) address = (BT_SUCCESS, a) := by
        rw [← htext]
        exact bt_str_to_addr_of_str a address ha6 hab
      obtain ⟨r, hr, hcr⟩ := ih fuel
        ((address_text c ++ '\n' :: NUL :: line.drop 19).set (BT_ADDRESS_LENGTH - 1) NUL) a
        (add_walk fresh a l) (by simpa using hf) (fun x hx => has x (by simp [hx]))
        (by
          intro b hb
          rw [hadd, List.mem_append, List.mem_singleton] at hb
          rcases hb with hb | rfl
          · exact hl b hb
          · exact ha6)
        (by
          rw [hadd, List.append_assoc, List.singleton_append]
          exact hnd)
      refine ⟨r, ?_, by rw [hcr, hadd, List.append_assoc, List.singleton_append]⟩
      rw [bt_list_load_loop, hlines, fgets_address_line c hc]
      dsimp only
      rw [if_neg (by rw [h17]; simp), hstr, hparse]
      dsimp only
      rw [if_pos rfl]
      simpa [bt_list_add_device] using hr

/-- C26: for a list built by `bt_list_add_device` calls on a new list, `bt_list_save`
returns `BT_SUCCESS` having written one line per address in list order, each the 17
characters of `bt_addr_to_str` (six pairs of lowercase hexadecimal digits joined by
colons) and a new-line; `bt_list_load` of that file into a new list returns
`BT_SUCCESS` and leaves a list holding the same addresses in the same order. -/
theorem list_save_load_round_trip (fresh fresh2 a0 a1 : bt_addr_t) (line : List Char)
    (as : List bt_addr_t) (name : String) (extra : Nat)
    (has : ∀ a ∈ as, a.length = 6 ∧ ∀ b ∈ a, b < 256) :
    ∃ l, as.foldl (fun l a => bt_list_add_device fresh l (some a))
        (some (bt_list_new fresh)) = some l ∧
      bt_list_save l ((contents l).length + 1 + extra) (some 0) (some name) (fun _ => true) a0 =
        some (BT_SUCCESS, some (address_lines (contents l))) ∧
      (∀ a ∈ contents l, ∃ c : Fin 12 → Char, (∀ i, c i ∈ lower_hex) ∧
        bt_addr_to_str a = address_text c) ∧
      ∃ l2, bt_list_load fresh2 ((contents l).length + 1 + extra) (some (bt_list_new fresh2))
          (some name) (fun _ => some (address_lines (contents l))) line a1 =
          some (BT_SUCCESS, some l2) ∧
        contents l2 = contents l := by
  obtain ⟨l, hl, hc⟩ := fold_add_contents fresh as (bt_list_new fresh)
    (fun a ha => (has a ha).1) (by simp [bt_list_new, contents])
  have hc2 : contents l = distinct_in_order as := by
    rw [hc]
    simp [bt_list_new, contents]
  have hmem : ∀ a ∈ contents l, a.length = 6 ∧ ∀ b ∈ a, b < 256 := by
    intro a ha
    rw [hc2, mem_distinct_in_order] at ha
    exact has a ha
  refine ⟨l, hl, ?_, fun a ha => bt_addr_to_str_text a (hmem a ha).2, ?_⟩
  · simp only [bt_list_save, bt_iterate_list, Bool.true_eq_false, if_false]
    rw [bt_list_save_loop_spec l (some 0) (contents l).length _ 0 a0 [] (by omega) (by omega)]
    simp
  · obtain ⟨r, hr, hcr⟩ := bt_list_load_loop_spec fresh2 (contents l)
      ((contents l).length + 1 + extra) line a1 (bt_list_new fresh2) (by omega) hmem
      (by simp [bt_list_new, contents])
      (by
        simp only [bt_list_new, contents, List.nil_append]
        rw [hc2]
        exact nodup_distinct_in_order as)
    refine ⟨r, ?_, by simpa [bt_list_new, contents] using hcr⟩
    simp only [bt_list_load, hr]

/-- Witness for C26: the two addresses of the save and load test. -/
theorem list_save_load_round_trip_witness :
    ∃ l, [test_addr1, test_addr2].foldl (fun l a => bt_list_add_device [] l (some a))
        (some (bt_list_new [])) = some l ∧
      bt_list_save l ((contents l).length + 1 + 0) (some 0) (some "devicelist.txt")
          (fun _ => true) [] =
        some (BT_SUCCESS, some (address_lines (contents l))) ∧
      address_lines [test_addr1, test_addr2] =
        "11:22:33:44:55:66\naa:bb:cc:dd:ee:ff\n".toList :=
  (list_save_load_round_trip [] [] [] [] [] [test_addr1, test_addr2] "devicelist.txt" 0
    (by decide)).imp (fun _ h => ⟨h.1, h.2.1, by decide⟩)

/-- C27: `bt_list_load` on files read with a zeroed line buffer into a new list.  A
file holding the single line of 117 characters `test_long_line` makes it add the
address 00:11:22:33:44:55: `fgets` hands the line over in two pieces, 99 characters and
then the last 18, and the second piece passes the test on `line[17]`.  A line of 12
and a line of 24 characters are skipped, and a line of 18 characters is read. -/
theorem bt_list_load_reads_tail_of_long_line :
    test_long_line.length = 117 ∧
    (∀ c ∈ test_long_line.take 116, c ≠ '\n') ∧
    (bt_list_load [] 3 (some (bt_list_new [])) (some "f") (fun _ => some test_long_line)
      (List.replicate 100 NUL) []).map (fun r => (r.1, r.2.map contents)) =
      some (BT_SUCCESS, some [[0x55, 0x44, 0x33, 0x22, 0x11, 0x00]]) ∧
    (bt_list_load [] 3 (some (bt_list_new [])) (some "f")
      (fun _ => some "1:2:3:4:5:6\n00:11:22:33:44:55:66:77\n".toList)
      (List.replicate 100 NUL) []).map (fun r => (r.1, r.2.map contents)) =
      some (BT_SUCCESS, some []) ∧
    (bt_list_load [] 3 (some (bt_list_new [])) (some "f")
      (fun _ => some "00:11:22:33:44:55\n".toList)
      (List.replicate 100 NUL) []).map (fun r => (r.1, r.2.map contents)) =
      some (BT_SUCCESS, some [[0x55, 0x44, 0x33, 0x22, 0x11, 0x00]]) := by
  decide

end Picobt
